import Mathlib

/-!
# ControlPanel: server lifecycle controller and container service

A shallow embedding of `src/controllers/serverController.js`, of
`src/services/dockerService.js` (the container operations, the statistics and
the build-context assembly), and of the backup service and handlers.

The handlers are asynchronous JavaScript functions that talk to two external
systems: the relational store behind the `Server` model and the container
runtime behind the `docker` client.  The embedding makes both explicit:

* the store is a list of `Server` rows, a list of `Backup` rows and a list
  of `Script` rows inside `World`, next to the part of the file system the
  services touch;
* every `server.update` and every request sent to the runtime is appended
  to `World.log` at the moment it is issued, whatever its outcome;
* the outcome of every external call (returns, or throws) is read from an
  `Oracle`, so a theorem quantified over oracles covers every behaviour of the
  store and of the runtime.

A handler is a function `Oracle → Request → World → Response × World`.
-/

namespace ControlPanel

/-! ## Data model (`src/models/server.js`) -/

/-- The `status` column: `ENUM('running', 'stopped', 'starting', 'stopping', 'error')`. -/
inductive Status where
  | running
  | stopped
  | starting
  | stopping
  | error
  deriving DecidableEq, Repr

/-- A row of the `Server` model.  Nullable columns are `Option`s; `DATE`
columns hold a timestamp as a natural number. -/
structure Server where
  id : String
  name : String
  gameType : String
  status : Status
  port : Int
  memory : Int
  cpu : Int
  disk : Int
  containerId : Option String
  ipAddress : Option String
  lastStarted : Option Nat
  lastStopped : Option Nat
  autoRestart : Bool
  backupEnabled : Bool
  backupSchedule : String
  userId : String
  deriving DecidableEq, Repr

/-- The object literal handed to `server.update(...)`: only the columns the
lifecycle handlers ever write.  A field that is `none` is absent from the
literal and the column keeps its value. -/
structure ServerValues where
  status : Option Status := none
  containerId : Option String := none
  lastStarted : Option Nat := none
  lastStopped : Option Nat := none
  deriving DecidableEq, Repr

/-- Overwrite the columns named in the literal, keep every other column. -/
def ServerValues.apply (v : ServerValues) (s : Server) : Server :=
  { s with
    status := v.status.getD s.status
    containerId := match v.containerId with
      | some c => some c
      | none => s.containerId
    lastStarted := match v.lastStarted with
      | some t => some t
      | none => s.lastStarted
    lastStopped := match v.lastStopped with
      | some t => some t
      | none => s.lastStopped }

/-- JavaScript truthiness of the nullable string column `containerId`, as
tested by `if (server.containerId)`: `null` and the empty string are falsy. -/
def truthy : Option String → Bool
  | none => false
  | some c => c != ""

/-! ## Backup records (`src/models/backup.js`) -/

/-- The `status` column of a backup: `ENUM('completed', 'failed', 'in_progress')`. -/
inductive BackupStatus where
  | completed
  | failed
  | in_progress
  deriving DecidableEq, Repr

/-- A row of the `Backup` model, with the `createdAt` timestamp the store adds. -/
structure Backup where
  id : String
  name : String
  filePath : String
  size : Int
  status : BackupStatus
  isAutomatic : Bool
  serverId : String
  createdAt : Nat
  deriving DecidableEq, Repr

/-- The object literal handed to `backup.update(...)` and to `Backup.update(...)`. -/
structure BackupValues where
  filePath : Option String := none
  size : Option Int := none
  status : Option BackupStatus := none
  deriving DecidableEq, Repr

/-- Overwrite the columns named in the literal, keep every other column. -/
def BackupValues.apply (v : BackupValues) (b : Backup) : Backup :=
  { b with
    filePath := v.filePath.getD b.filePath
    size := v.size.getD b.size
    status := v.status.getD b.status }

/-! ## Script records (`src/models/script.js`) -/

/-- The `type` column of a script: `ENUM('dockerfile', 'config', 'startup', 'custom')`. -/
inductive ScriptType where
  | dockerfile
  | config
  | startup
  | custom
  deriving DecidableEq, Repr

/-- A row of the `Script` model, with the `createdAt` timestamp the store
adds.  The JSON column `parameters` is held as text; `serverId` is `null` for
a template. -/
structure Script where
  id : String
  name : String
  type : ScriptType
  content : String
  language : String
  gameType : String
  isTemplate : Bool
  parameters : String
  serverId : Option String
  userId : String
  createdAt : Nat
  deriving DecidableEq, Repr

/-! ## File system

The part of the file system the services touch: directories, each with the
tree of entries below it keyed by relative path, and archive files keyed by
absolute path.  An archive file holds the tree it was made from and has a size
in bytes. -/

/-- An entry below a directory: a subdirectory or a regular file with its contents. -/
inductive Item where
  | dir
  | file (content : String)
  deriving DecidableEq, Repr

/-- The entries below a directory, by path relative to it (`world/level.dat`, `.env`). -/
abbrev Tree := List (String × Item)

/-- A `.tar.gz` file: the entries it holds and its size in bytes. -/
structure Archive where
  entries : Tree
  size : Nat
  deriving DecidableEq, Repr

/-- The file system: the working directory of the process, the directories
that exist with their trees, the archive files that exist, and the file modes
that were set. -/
structure FileSystem where
  cwd : String := "/app"
  dirs : List (String × Tree) := []
  files : List (String × Archive) := []
  /-- The mode last set with `chmod`, by absolute path; a path without an
  entry has the mode it was created with. -/
  modes : List (String × String) := []
  deriving DecidableEq, Repr

/-- The call `path.join(...)` on plain segments: the segments separated by `/`.
Segments are taken as they are; the normalisation of `.`, `..`, empty
segments and doubled slashes that `path.join` performs is not modelled.  The
value is the one of `path.join` when no normalisation applies: every segment
after the first is a name without `/`, not empty and neither `.` nor `..`, and
the first does not end in `/`. -/
def pathJoin : List String → String
  | [] => "."
  | [a] => a
  | a :: rest => a ++ "/" ++ pathJoin rest

/-- The persistent directory of a server: `path.join(process.cwd(), 'data', 'servers', id)`. -/
def FileSystem.serverDir (fs : FileSystem) (serverId : String) : String :=
  pathJoin [fs.cwd, "data", "servers", serverId]

/-- The backups root: `path.join(process.cwd(), 'data', 'backups')`. -/
def FileSystem.backupDir (fs : FileSystem) : String :=
  pathJoin [fs.cwd, "data", "backups"]

/-- The call `fs.existsSync(path)`: false for the empty path, true for a
directory or a file that exists. -/
def FileSystem.existsSync (fs : FileSystem) (path : String) : Bool :=
  path != "" && ((fs.dirs.lookup path).isSome || (fs.files.lookup path).isSome)

/-- The tree below a directory, or `none` when the directory does not exist. -/
def FileSystem.tree (fs : FileSystem) (dir : String) : Option Tree :=
  fs.dirs.lookup dir

/-- The effect of `fs.mkdirSync(path, recursive)`: the directory exists afterwards, empty
when it was created by the call. -/
def FileSystem.mkdirSync (fs : FileSystem) (path : String) : FileSystem :=
  if (fs.dirs.lookup path).isSome then fs else { fs with dirs := fs.dirs ++ [(path, [])] }

/-- The effect of `fs.unlinkSync(path)`: no file is left at the path. -/
def FileSystem.unlinkSync (fs : FileSystem) (path : String) : FileSystem :=
  { fs with files := fs.files.filter (fun f => f.1 != path) }

/-- The size reported by `fs.statSync(path).size`, or `none` when there is no file. -/
def FileSystem.statSize (fs : FileSystem) (path : String) : Option Nat :=
  (fs.files.lookup path).map (fun a => a.size)

/-- Replace the tree below an existing directory. -/
def FileSystem.setTree (fs : FileSystem) (dir : String) (t : Tree) : FileSystem :=
  { fs with dirs := fs.dirs.map (fun d => if d.1 = dir then (dir, t) else d) }

/-- Write (or overwrite) the archive file at a path. -/
def FileSystem.writeArchive (fs : FileSystem) (path : String) (a : Archive) : FileSystem :=
  { fs with files := (path, a) :: fs.files.filter (fun f => f.1 != path) }

/-- A relative path whose first name begins with a dot: the shell pattern `*`
does not match it. -/
def hiddenPath (p : String) : Bool :=
  p.data.head? == some '.'

/-- The tree left by `rm -rf "dir/"*`: the shell expands `*` to the entries of
the directory whose names do not begin with a dot, and these are removed with
everything below them. -/
def Tree.clearVisible (t : Tree) : Tree :=
  t.filter (fun e => hiddenPath e.1)

/-- The tree left by `tar -xzf archive -C dir`: every entry of the archive is
written at its path, replacing what was there; other entries stay. -/
def Tree.extract (entries : Tree) (t : Tree) : Tree :=
  entries ++ t.filter (fun e => (entries.lookup e.1).isNone)

/-- The three shell commands the backup service runs through `exec`. -/
inductive ShellCommand where
  /-- The command `tar -czf "backupPath" -C "serverDir" .`. -/
  | tarCreate (backupPath serverDir : String)
  /-- The command `rm -rf "serverDir/"*`. -/
  | rmContents (serverDir : String)
  /-- The command `tar -xzf "filePath" -C "serverDir"`. -/
  | tarExtract (filePath serverDir : String)
  deriving DecidableEq, Repr

/-- The command line handed to `exec`. -/
def ShellCommand.render : ShellCommand → String
  | .tarCreate backupPath serverDir =>
    "tar -czf \"" ++ backupPath ++ "\" -C \"" ++ serverDir ++ "\" ."
  | .rmContents serverDir => "rm -rf \"" ++ serverDir ++ "/\"*"
  | .tarExtract filePath serverDir =>
    "tar -xzf \"" ++ filePath ++ "\" -C \"" ++ serverDir ++ "\""

/-! ## World, effects and oracle -/

/-- A write request to the store or a request to the container runtime. -/
inductive Effect where
  /-- The call `server.update(values)` on the row with this primary key. -/
  | dbUpdate (serverId : String) (values : ServerValues)
  /-- The call `getContainerConfig(server)`: build-context assembly. -/
  | getContainerConfig (serverId : String)
  /-- The call `buildImage(server, serverDir)`. -/
  | buildImage (serverId : String)
  /-- The call `docker.createContainer(containerConfig)`, with the configured name. -/
  | createContainer (containerName : String)
  /-- The call `container.start()` on the created container. -/
  | containerStart (containerId : String)
  /-- The call `container.inspect()`. -/
  | containerInspect (containerId : Option String)
  /-- Request `container.stop` with a grace period of `t` seconds. -/
  | containerStop (containerId : Option String) (t : Nat)
  /-- Request `container.remove` with `force: true`. -/
  | containerRemove (containerId : Option String)
  /-- Request `container.stats` with `stream: false`. -/
  | containerStats (containerId : Option String)
  /-- The call `Backup.create(...)` for a server. -/
  | backupCreate (serverId : String) (isAutomatic : Bool)
  /-- The call `backup.update(values)` on the row with this primary key. -/
  | backupUpdate (backupId : String) (values : BackupValues)
  /-- The call `Backup.update(values, where id)`. -/
  | backupUpdateWhere (backupId : String) (values : BackupValues)
  /-- The call `backup.destroy()` on the row with this primary key. -/
  | backupDestroy (backupId : String)
  /-- The call `fs.mkdirSync(path, recursive)`. -/
  | mkdir (path : String)
  /-- The call `fs.unlinkSync(path)`. -/
  | unlink (path : String)
  /-- The call `execPromise(command)`. -/
  | exec (command : ShellCommand)
  /-- The call `fs.writeFileSync(path, content)`. -/
  | writeFile (path content : String)
  /-- The call `fs.chmodSync(path, mode)`. -/
  | chmod (path mode : String)
  deriving DecidableEq, Repr

/-- The persisted `Server` rows, the requests issued so far (oldest first),
the persisted `Backup` rows, the file system and the persisted `Script` rows,
in the order in which the store returns them to a query that asks for none. -/
structure World where
  db : List Server
  log : List Effect
  backups : List Backup := []
  fs : FileSystem := {}
  scripts : List Script := []
  deriving DecidableEq, Repr

/-- Record a request. -/
def World.emit (w : World) (e : Effect) : World :=
  { w with log := w.log ++ [e] }

/-- Outcomes of the external calls made during one handler invocation.
For a `Bool`, `true` means the call returns and `false` means it throws. -/
structure Oracle where
  /-- Value of `new Date()`. -/
  now : Nat
  /-- The `Server.findOne` at the top of the `try` block. -/
  findOne : Bool
  /-- The `server.update` that writes `status: 'stopping'`. -/
  updateStopping : Bool
  /-- The `server.update` that writes `status: 'starting'`. -/
  updateStarting : Bool
  /-- The `server.update` that writes `status: 'running'`. -/
  updateRunning : Bool
  /-- The `server.update` that writes `status: 'stopped'`. -/
  updateStopped : Bool
  /-- Build-context assembly, `getContainerConfig(server)`. -/
  getContainerConfig : Bool
  /-- The image build, `buildImage(server, serverDir)`. -/
  buildImage : Bool
  /-- The call `docker.createContainer`: the id of the new container, or `none` when it throws. -/
  createContainer : Option String
  /-- The call `container.start()`. -/
  containerStart : Bool
  /-- The call `container.inspect()`: throws when the container does not exist. -/
  containerInspect : Bool
  /-- The call `container.stop`. -/
  containerStop : Bool
  /-- The call `container.remove`. -/
  containerRemove : Bool
  /-- The `Server.findOne` inside the `catch` block. -/
  catchFindOne : Bool
  /-- The `server.update` inside the `catch` block, writing `status: 'error'`. -/
  catchUpdate : Bool
  deriving DecidableEq, Repr

/-- The part of an HTTP request the handlers read: `req.params.serverId` and `req.user.id`. -/
structure Request where
  serverId : String
  userId : String
  deriving DecidableEq, Repr

/-- What a handler sends: `res.status(code).json(...)` with an `error` key on
rejection and failure, or a `message` and the `server` instance on success. -/
structure Response where
  code : Nat
  error : Option String
  message : Option String
  server : Option Server
  deriving DecidableEq, Repr

/-- A response `res.status(code).json(...)` whose body has the single key `error`. -/
def Response.failure (code : Nat) (error : String) : Response :=
  { code := code, error := some error, message := none, server := none }

/-- A response `res.status(200).json(...)` whose body has the keys `message` and `server`. -/
def Response.success (message : String) (server : Server) : Response :=
  { code := 200, error := none, message := some message, server := some server }

/-! ## The `Server` model's queries -/

/-- The query `Server.findOne` with `where: id, userId`: the first row matching both. -/
def Server.findOne (db : List Server) (id userId : String) : Option Server :=
  db.find? (fun r => r.id == id && r.userId == userId)

/-- The rows after an `UPDATE ... WHERE id = pk` writing `values`. -/
def Server.writeRows (db : List Server) (pk : String) (values : ServerValues) : List Server :=
  db.map (fun r => if r.id = pk then values.apply r else r)

/-- The instance method `server.update(values)`.  The request is recorded;
when the store accepts it the instance and the persisted row both take the
new values, and when it throws (`none`) nothing is written. -/
def Server.update (ok : Bool) (server : Server) (values : ServerValues) (w : World) :
    Option Server × World :=
  let w1 := w.emit (.dbUpdate server.id values)
  if ok then
    (some (values.apply server), { w1 with db := Server.writeRows w1.db server.id values })
  else
    (none, w1)

/-- The attributes `createServer` reads from `req.body`. -/
structure ServerAttributes where
  name : String
  gameType : String
  port : Int
  memory : Int
  cpu : Int
  disk : Int
  autoRestart : Bool
  backupEnabled : Bool
  backupSchedule : String
  deriving DecidableEq, Repr

/-- The row built by `Server.create` in `createServer`: the attributes of the
request body, the owner, `status: 'stopped'`, and `null` in every nullable
column the call does not mention.  The primary key is generated by the store. -/
def Server.create (id userId : String) (body : ServerAttributes) : Server :=
  { id := id
    name := body.name
    gameType := body.gameType
    status := .stopped
    port := body.port
    memory := body.memory
    cpu := body.cpu
    disk := body.disk
    containerId := none
    ipAddress := none
    lastStarted := none
    lastStopped := none
    autoRestart := body.autoRestart
    backupEnabled := body.backupEnabled
    backupSchedule := body.backupSchedule
    userId := userId }

/-- The persisted row a request refers to. -/
def World.persisted (w : World) (req : Request) : Option Server :=
  Server.findOne w.db req.serverId req.userId

/-! ## Container service (`src/services/dockerService.js`) -/

namespace dockerService

/-- Container name of a server: the template string `gameserver-` followed by the id. -/
def getContainerName (server : Server) : String :=
  "gameserver-" ++ server.id

/-- The service's `startServer(server)`: assemble the build context, build the
image, create the container, start it, and return the container's id.  The
`catch` block logs and rethrows, so the first step that throws ends the call
with that error (`Except.error`). -/
def startServer (o : Oracle) (server : Server) (w : World) : Except Unit String × World :=
  let w1 := w.emit (.getContainerConfig server.id)
  if o.getContainerConfig then
    let w2 := w1.emit (.buildImage server.id)
    if o.buildImage then
      let w3 := w2.emit (.createContainer (getContainerName server))
      match o.createContainer with
      | some containerId =>
        let w4 := w3.emit (.containerStart containerId)
        if o.containerStart then (.ok containerId, w4) else (.error (), w4)
      | none => (.error (), w3)
    else (.error (), w2)
  else (.error (), w1)

/-- The service's `stopContainer(containerId)`.  The inner `try` around
`container.inspect()` returns from the function when the inspection throws;
otherwise the container is asked to stop with a grace period of 10 seconds,
and a failure of that request is rethrown. -/
def stopContainer (o : Oracle) (containerId : Option String) (w : World) : Except Unit Unit × World :=
  let w1 := w.emit (.containerInspect containerId)
  if o.containerInspect then
    let w2 := w1.emit (.containerStop containerId 10)
    if o.containerStop then (.ok (), w2) else (.error (), w2)
  else (.ok (), w1)

/-- The service's `removeContainer(containerId)`: same shape as
`stopContainer`, with a forced removal in place of the stop. -/
def removeContainer (o : Oracle) (containerId : Option String) (w : World) : Except Unit Unit × World :=
  let w1 := w.emit (.containerInspect containerId)
  if o.containerInspect then
    let w2 := w1.emit (.containerRemove containerId)
    if o.containerRemove then (.ok (), w2) else (.error (), w2)
  else (.ok (), w1)

end dockerService

/-! ## Lifecycle handlers (`src/controllers/serverController.js`) -/

namespace serverController

/-- The handler `createServer(req, res)`.  `newId` is the primary key the store
generates for the row, or `none` when `Server.create` throws. -/
def createServer (newId : Option String) (userId : String) (body : ServerAttributes)
    (w : World) : Response × World :=
  match newId with
  | some id =>
    let server := Server.create id userId body
    ({ code := 201, error := none, message := some "Server created successfully",
       server := some server },
     { w with db := w.db ++ [server] })
  | none => (Response.failure 500 "Failed to create server", w)

/-- The body of the `catch` block shared, word for word, by `startServer`,
`stopServer` and `restartServer`: look the server up again and, when it is
found, write `status: 'error'`.  A failure of either step is caught and only
logged. -/
def catchBlock (o : Oracle) (req : Request) (w : World) : World :=
  if o.catchFindOne then
    match Server.findOne w.db req.serverId req.userId with
    | some server => (Server.update o.catchUpdate server { status := some .error } w).2
    | none => w
  else w

/-- The `try` block of `startServer`.  `Except.ok` carries the response sent
from inside the block, `Except.error` means that a step threw. -/
def startServerTry (o : Oracle) (req : Request) (w : World) : Except Unit Response × World :=
  if o.findOne then
    match Server.findOne w.db req.serverId req.userId with
    | none => (.ok (Response.failure 404 "Server not found"), w)
    | some server =>
      if server.status = .running then
        (.ok (Response.failure 400 "Server is already running"), w)
      else
        match Server.update o.updateStarting server { status := some .starting } w with
        | (none, w1) => (.error (), w1)
        | (some server1, w1) =>
          match dockerService.startServer o server1 w1 with
          | (.error _, w2) => (.error (), w2)
          | (.ok containerId, w2) =>
            match Server.update o.updateRunning server1
                { containerId := some containerId, status := some .running,
                  lastStarted := some o.now } w2 with
            | (none, w3) => (.error (), w3)
            | (some server2, w3) =>
              (.ok (Response.success "Server started successfully" server2), w3)
  else (.error (), w)

/-- The handler `startServer(req, res)`. -/
def startServer (o : Oracle) (req : Request) (w : World) : Response × World :=
  match startServerTry o req w with
  | (.ok res, w1) => (res, w1)
  | (.error _, w1) => (Response.failure 500 "Failed to start server", catchBlock o req w1)

/-- The `try` block of `stopServer`. -/
def stopServerTry (o : Oracle) (req : Request) (w : World) : Except Unit Response × World :=
  if o.findOne then
    match Server.findOne w.db req.serverId req.userId with
    | none => (.ok (Response.failure 404 "Server not found"), w)
    | some server =>
      if server.status = .stopped then
        (.ok (Response.failure 400 "Server is already stopped"), w)
      else
        match Server.update o.updateStopping server { status := some .stopping } w with
        | (none, w1) => (.error (), w1)
        | (some server1, w1) =>
          match dockerService.stopContainer o server1.containerId w1 with
          | (.error _, w2) => (.error (), w2)
          | (.ok _, w2) =>
            match Server.update o.updateStopped server1
                { status := some .stopped, lastStopped := some o.now } w2 with
            | (none, w3) => (.error (), w3)
            | (some server2, w3) =>
              (.ok (Response.success "Server stopped successfully" server2), w3)
  else (.error (), w)

/-- The handler `stopServer(req, res)`. -/
def stopServer (o : Oracle) (req : Request) (w : World) : Response × World :=
  match stopServerTry o req w with
  | (.ok res, w1) => (res, w1)
  | (.error _, w1) => (Response.failure 500 "Failed to stop server", catchBlock o req w1)

/-- The `try` block of `restartServer`.  The container is stopped only when
`server.containerId` is truthy. -/
def restartServerTry (o : Oracle) (req : Request) (w : World) : Except Unit Response × World :=
  if o.findOne then
    match Server.findOne w.db req.serverId req.userId with
    | none => (.ok (Response.failure 404 "Server not found"), w)
    | some server =>
      match Server.update o.updateStopping server { status := some .stopping } w with
      | (none, w1) => (.error (), w1)
      | (some server1, w1) =>
        match (if truthy server1.containerId then
                dockerService.stopContainer o server1.containerId w1
              else (.ok (), w1)) with
        | (.error _, w2) => (.error (), w2)
        | (.ok _, w2) =>
          match Server.update o.updateStarting server1 { status := some .starting } w2 with
          | (none, w3) => (.error (), w3)
          | (some server2, w3) =>
            match dockerService.startServer o server2 w3 with
            | (.error _, w4) => (.error (), w4)
            | (.ok containerId, w4) =>
              match Server.update o.updateRunning server2
                  { containerId := some containerId, status := some .running,
                    lastStarted := some o.now } w4 with
              | (none, w5) => (.error (), w5)
              | (some server3, w5) =>
                (.ok (Response.success "Server restarted successfully" server3), w5)
  else (.error (), w)

/-- The handler `restartServer(req, res)`. -/
def restartServer (o : Oracle) (req : Request) (w : World) : Response × World :=
  match restartServerTry o req w with
  | (.ok res, w1) => (res, w1)
  | (.error _, w1) => (Response.failure 500 "Failed to restart server", catchBlock o req w1)

/-- The three lifecycle operations. -/
inductive Op where
  | start
  | stop
  | restart
  deriving DecidableEq, Repr

/-- Dispatch of a lifecycle call to its handler. -/
def handle : Op → Oracle → Request → World → Response × World
  | .start => startServer
  | .stop => stopServer
  | .restart => restartServer

/-- The world after a sequence of lifecycle calls for the same server, each
with its own outcomes of the external calls. -/
def handleAll (req : Request) : List (Op × Oracle) → World → World
  | [], w => w
  | (op, o) :: rest, w => handleAll req rest (handle op o req w).2

/-- The sequential composition the specification compares `restartServer`
with: a `stopServer` call followed by a `startServer` call for the same
request.  The result holds both responses and the final world. -/
def stopThenStart (oStop oStart : Oracle) (req : Request) (w : World) :
    (Response × Response) × World :=
  let r1 := stopServer oStop req w
  let r2 := startServer oStart req r1.2
  ((r1.1, r2.1), r2.2)

end serverController

/-- The object literals the lifecycle handlers pass to `server.update`, given
the outcomes of one invocation: the four status-only writes of `stopping`,
`starting`, `error` and `stopped` (the last with `lastStopped`), and the write
of `running` with the id of the container the runtime created. -/
def writtenValues (o : Oracle) : List ServerValues :=
  [ { status := some .stopping },
    { status := some .starting },
    { status := some .error },
    { status := some .stopped, lastStopped := some o.now } ] ++
  match o.createContainer with
  | some containerId =>
    [ { containerId := some containerId, status := some .running, lastStarted := some o.now } ]
  | none => []

/-! ## Outcomes of the external calls of the backup paths -/

/-- Outcomes of the external calls made by the backup handlers and sweeps.  A
sweep makes the same call once per server or per record, so the outcomes are
keyed: by server id, by backup id or by path.  For a `Bool`, `true` means the
call returns and `false` means it throws. -/
structure BackupOracle where
  /-- Value of `new Date()` while the server with this id is processed: the
  `createdAt` of a row created then. -/
  now : String → Nat
  /-- Value of `new Date().toISOString()` while the server with this id is processed. -/
  isoTimestamp : String → String
  /-- The query `Server.findOne`. -/
  serverFindOne : Bool
  /-- The query `Server.findAll`. -/
  serverFindAll : Bool
  /-- The query `Backup.findByPk`. -/
  backupFindByPk : Bool
  /-- The query `Backup.findAll` for the server with this id. -/
  backupFindAll : String → Bool
  /-- The call `Backup.create` for the server with this id: the primary key the
  store generates, or `none` when the call throws. -/
  backupCreate : String → Option String
  /-- The call `backup.update` on the row with this id. -/
  backupUpdate : String → Bool
  /-- The call `Backup.update(values, where id)`. -/
  backupUpdateWhere : Bool
  /-- The call `backup.destroy` on the row with this id. -/
  backupDestroy : String → Bool
  /-- The call `fs.mkdirSync` on this path. -/
  mkdir : String → Bool
  /-- The call `fs.unlinkSync` on this path. -/
  unlink : String → Bool
  /-- The command `tar -czf` writing this archive path: the size in bytes of
  the archive written, or `none` when the command fails. -/
  tarCreate : String → Option Nat
  /-- The command `rm -rf` on the contents of this directory. -/
  rmContents : String → Bool
  /-- The command `tar -xzf` reading this archive path. -/
  tarExtract : String → Bool

/-! ## The `Backup` model's queries -/

/-- The query `Backup.findByPk(id)`: the row with this primary key. -/
def Backup.findByPk (rows : List Backup) (id : String) : Option Backup :=
  rows.find? (fun b => b.id == id)

/-- The query `Backup.findAll` with `where: serverId` and `order: createdAt DESC`:
the rows of the server, most recent first.  Rows created at the same time keep
the order in which the store holds them. -/
def Backup.findAll (rows : List Backup) (serverId : String) : List Backup :=
  (rows.filter (fun b => b.serverId == serverId)).insertionSort
    (fun a b => b.createdAt ≤ a.createdAt)

/-- The call `Backup.create(...)` of both backup paths: a row with the given
name and flag, `status: 'in_progress'`, `filePath: ''` and `size: 0`.  The
primary key is generated by the store; the call throws when the store throws
and when the key is already in use. -/
def Backup.create (o : BackupOracle) (name serverId : String) (isAutomatic : Bool)
    (w : World) : Except Unit Backup × World :=
  let w1 := w.emit (.backupCreate serverId isAutomatic)
  match o.backupCreate serverId with
  | some id =>
    if (Backup.findByPk w1.backups id).isSome then (.error (), w1)
    else
      let backup : Backup :=
        { id := id, name := name, filePath := "", size := 0, status := .in_progress,
          isAutomatic := isAutomatic, serverId := serverId, createdAt := o.now serverId }
      (.ok backup, { w1 with backups := w1.backups ++ [backup] })
  | none => (.error (), w1)

/-- The rows after an `UPDATE ... WHERE id = pk` writing `values`. -/
def Backup.writeRows (rows : List Backup) (pk : String) (values : BackupValues) : List Backup :=
  rows.map (fun b => if b.id = pk then values.apply b else b)

/-- The instance method `backup.update(values)`. -/
def Backup.update (o : BackupOracle) (backup : Backup) (values : BackupValues) (w : World) :
    Except Unit Backup × World :=
  let w1 := w.emit (.backupUpdate backup.id values)
  if o.backupUpdate backup.id then
    (.ok (values.apply backup),
      { w1 with backups := Backup.writeRows w1.backups backup.id values })
  else (.error (), w1)

/-- The static call `Backup.update(values, where id)`. -/
def Backup.updateWhere (o : BackupOracle) (id : String) (values : BackupValues) (w : World) :
    Except Unit Unit × World :=
  let w1 := w.emit (.backupUpdateWhere id values)
  if o.backupUpdateWhere then
    (.ok (), { w1 with backups := Backup.writeRows w1.backups id values })
  else (.error (), w1)

/-- The instance method `backup.destroy()`: a `DELETE ... WHERE id = pk`. -/
def Backup.destroy (o : BackupOracle) (backup : Backup) (w : World) : Except Unit Unit × World :=
  let w1 := w.emit (.backupDestroy backup.id)
  if o.backupDestroy backup.id then
    (.ok (), { w1 with backups := w1.backups.filter (fun b => b.id != backup.id) })
  else (.error (), w1)

/-! ## Control flow -/

deriving instance DecidableEq for Except

/-- The loop `for (const x of xs) body`: the body runs on each element in
order; the first iteration that throws ends the loop with that error. -/
def forOf {α β : Type} (body : α → World → Except Unit β × World) :
    List α → World → Except Unit (List β) × World
  | [], w => (.ok [], w)
  | x :: xs, w =>
    match body x w with
    | (.ok b, w1) =>
      match forOf body xs w1 with
      | (.ok bs, w2) => (.ok (b :: bs), w2)
      | (.error e, w2) => (.error e, w2)
    | (.error e, w1) => (.error e, w1)

/-! ## Backup service (`src/services/backupService.js`) -/

namespace backupService

/-- The value returned by `createBackup`. -/
structure BackupResult where
  filePath : String
  size : Nat
  deriving DecidableEq, Repr

/-- The call `execPromise(command)`.  The command is recorded.  `tar -czf`
fails when the server directory does not exist and otherwise writes an archive
of the tree below it; `rm -rf "dir/"*` removes the entries the pattern
matches; `tar -xzf` fails when there is no archive at the path or no target
directory and otherwise writes the entries of the archive into the tree. -/
def exec (o : BackupOracle) (command : ShellCommand) (w : World) : Except Unit Unit × World :=
  let w1 := w.emit (.exec command)
  match command with
  | .tarCreate backupPath serverDir =>
    match o.tarCreate backupPath, w1.fs.tree serverDir with
    | some size, some t =>
      (.ok (), { w1 with fs := w1.fs.writeArchive backupPath { entries := t, size := size } })
    | _, _ => (.error (), w1)
  | .rmContents serverDir =>
    if o.rmContents serverDir then
      match w1.fs.tree serverDir with
      | some t => (.ok (), { w1 with fs := w1.fs.setTree serverDir t.clearVisible })
      | none => (.ok (), w1)
    else (.error (), w1)
  | .tarExtract filePath serverDir =>
    if o.tarExtract filePath then
      match w1.fs.files.lookup filePath, w1.fs.tree serverDir with
      | some a, some t =>
        (.ok (), { w1 with fs := w1.fs.setTree serverDir (Tree.extract a.entries t) })
      | _, _ => (.error (), w1)
    else (.error (), w1)

/-- The call `fs.mkdirSync(path, recursive)`, which may throw. -/
def mkdirSync (o : BackupOracle) (path : String) (w : World) : Except Unit Unit × World :=
  let w1 := w.emit (.mkdir path)
  if o.mkdir path then (.ok (), { w1 with fs := w1.fs.mkdirSync path })
  else (.error (), w1)

/-- The call `fs.unlinkSync(path)`: throws when the store of files refuses and
when there is no file at the path. -/
def unlinkSync (o : BackupOracle) (path : String) (w : World) : Except Unit Unit × World :=
  let w1 := w.emit (.unlink path)
  if o.unlink path && (w1.fs.files.lookup path).isSome then
    (.ok (), { w1 with fs := w1.fs.unlinkSync path })
  else (.error (), w1)

/-- The function `ensureBackupDir()`: create the backups root when it is
missing, and return its path. -/
def ensureBackupDir (o : BackupOracle) (w : World) : Except Unit String × World :=
  let backupDir := w.fs.backupDir
  if !w.fs.existsSync backupDir then
    match mkdirSync o backupDir w with
    | (.ok _, w1) => (.ok backupDir, w1)
    | (.error e, w1) => (.error e, w1)
  else (.ok backupDir, w)

/-- The text of `new Date().toISOString().replace(/[:.]/g, '-')`: every colon
and every dot of the ISO text becomes a hyphen. -/
def timestampOf (iso : String) : String :=
  String.mk (iso.data.map (fun c => if c = ':' ∨ c = '.' then '-' else c))

/-- The archive file name: the template `name-timestamp-backupId.tar.gz`. -/
def backupFilename (serverName timestamp backupId : String) : String :=
  serverName ++ "-" ++ timestamp ++ "-" ++ backupId ++ ".tar.gz"

/-- The path `createBackup` gives the archive of a server: the file name
joined to the backups root. -/
def archivePath (fs : FileSystem) (o : BackupOracle) (server : Server) (backupId : String) :
    String :=
  pathJoin [fs.backupDir,
    backupFilename server.name (timestampOf (o.isoTimestamp server.id)) backupId]

/-- The service's `createBackup(server, backupId)`: ensure the backups root,
name the archive, run `tar -czf` on the server directory, read the size of the
archive and return its path and size.  The `catch` block logs and rethrows. -/
def createBackup (o : BackupOracle) (server : Server) (backupId : String) (w : World) :
    Except Unit BackupResult × World :=
  match ensureBackupDir o w with
  | (.error e, w1) => (.error e, w1)
  | (.ok backupDir, w1) =>
    let timestamp := timestampOf (o.isoTimestamp server.id)
    let backupPath := pathJoin [backupDir, backupFilename server.name timestamp backupId]
    let serverDir := w1.fs.serverDir server.id
    match exec o (.tarCreate backupPath serverDir) w1 with
    | (.error e, w2) => (.error e, w2)
    | (.ok _, w2) =>
      match w2.fs.statSize backupPath with
      | some size => (.ok { filePath := backupPath, size := size }, w2)
      | none => (.error (), w2)

/-- The service's `restoreBackup(server, backup)`: throw when no file exists at
`backup.filePath`; otherwise create the server directory when it is missing,
clear it with `rm -rf`, extract the archive into it and return `true`. -/
def restoreBackup (o : BackupOracle) (server : Server) (backup : Backup) (w : World) :
    Except Unit Bool × World :=
  if !w.fs.existsSync backup.filePath then (.error (), w)
  else
    let serverDir := w.fs.serverDir server.id
    match (if !w.fs.existsSync serverDir then mkdirSync o serverDir w else (.ok (), w)) with
    | (.error e, w1) => (.error e, w1)
    | (.ok _, w1) =>
      match exec o (.rmContents serverDir) w1 with
      | (.error e, w2) => (.error e, w2)
      | (.ok _, w2) =>
        match exec o (.tarExtract backup.filePath serverDir) w2 with
        | (.error e, w3) => (.error e, w3)
        | (.ok _, w3) => (.ok true, w3)

/-- The `try` block inside the loop of `scheduleBackups`: create the record,
perform the backup, update the record. -/
def scheduleServerTry (o : BackupOracle) (server : Server) (w : World) :
    Except Unit Unit × World :=
  match Backup.create o ("Automatic backup - " ++ o.isoTimestamp server.id) server.id true
      w with
  | (.error e, w1) => (.error e, w1)
  | (.ok backup, w1) =>
    match createBackup o server backup.id w1 with
    | (.error e, w2) => (.error e, w2)
    | (.ok backupResult, w2) =>
      match Backup.update o backup
          { filePath := some backupResult.filePath, size := some backupResult.size,
            status := some .completed } w2 with
      | (.error e, w3) => (.error e, w3)
      | (.ok _, w3) => (.ok (), w3)

/-- One iteration of the loop of `scheduleBackups`, `try` and `catch`: the
`catch` block only logs.  The value is the id of the server when the `catch`
block ran, standing for the line it writes to the error log. -/
def scheduleServer (o : BackupOracle) (server : Server) (w : World) :
    Except Unit (Option String) × World :=
  match scheduleServerTry o server w with
  | (.ok _, w1) => (.ok none, w1)
  | (.error _, w1) => (.ok (some server.id), w1)

/-- What a sweep leaves in the error log: whether the outer `catch` block ran,
and the ids of the servers whose own `catch` block ran. -/
structure SweepReport where
  outerCaught : Bool
  failed : List String
  deriving DecidableEq, Repr

/-- The function `scheduleBackups()`: enumerate the servers with
`backupEnabled: true` and run one iteration for each.  The outer `catch` block
only logs, so the function returns normally. -/
def scheduleBackups (o : BackupOracle) (w : World) : Except Unit SweepReport × World :=
  if o.serverFindAll then
    match forOf (scheduleServer o) (w.db.filter (fun s => s.backupEnabled)) w with
    | (.ok failures, w1) =>
      (.ok { outerCaught := false, failed := failures.filterMap id }, w1)
    | (.error _, w1) => (.ok { outerCaught := true, failed := [] }, w1)
  else (.ok { outerCaught := true, failed := [] }, w)

/-- The body of the inner loop of `cleanupBackups` for one record: remove the
archive file when `filePath` is set and the file exists, then destroy the row. -/
def deleteOldBackup (o : BackupOracle) (backup : Backup) (w : World) :
    Except Unit Unit × World :=
  match (if backup.filePath != "" && w.fs.existsSync backup.filePath then
          unlinkSync o backup.filePath w else (.ok (), w)) with
  | (.error e, w1) => (.error e, w1)
  | (.ok _, w1) => Backup.destroy o backup w1

/-- The `try` block inside the loop of `cleanupBackups`: list the records of
the server, most recent first, and when there are more than
`maxBackupsPerServer` delete those past that position, in order. -/
def cleanupServerTry (o : BackupOracle) (maxBackupsPerServer : Nat) (server : Server)
    (w : World) : Except Unit Unit × World :=
  if o.backupFindAll server.id then
    let backups := Backup.findAll w.backups server.id
    if backups.length > maxBackupsPerServer then
      match forOf (deleteOldBackup o) (backups.drop maxBackupsPerServer) w with
      | (.ok _, w1) => (.ok (), w1)
      | (.error e, w1) => (.error e, w1)
    else (.ok (), w)
  else (.error (), w)

/-- One iteration of the loop of `cleanupBackups`, `try` and `catch`. -/
def cleanupServer (o : BackupOracle) (maxBackupsPerServer : Nat) (server : Server)
    (w : World) : Except Unit (Option String) × World :=
  match cleanupServerTry o maxBackupsPerServer server w with
  | (.ok _, w1) => (.ok none, w1)
  | (.error _, w1) => (.ok (some server.id), w1)

/-- The function `cleanupBackups(maxBackupsPerServer = 5)`: `none` stands for a
call without an argument. -/
def cleanupBackups (o : BackupOracle) (maxBackupsPerServer : Option Nat) (w : World) :
    Except Unit SweepReport × World :=
  if o.serverFindAll then
    match forOf (cleanupServer o (maxBackupsPerServer.getD 5)) w.db w with
    | (.ok failures, w1) =>
      (.ok { outerCaught := false, failed := failures.filterMap id }, w1)
    | (.error _, w1) => (.ok { outerCaught := true, failed := [] }, w1)
  else (.ok { outerCaught := true, failed := [] }, w)

end backupService

/-! ## Backup handlers (`src/controllers/backupController.js`) -/

namespace backupController

/-- The part of the request `createBackup` reads: `req.params.serverId`,
`req.user.id`, and from `req.body` the `name`, the optional `isAutomatic` flag
and the optional `backupId` the `catch` block looks at. -/
structure CreateRequest where
  serverId : String
  userId : String
  name : String
  isAutomatic : Option Bool := none
  backupId : Option String := none
  deriving DecidableEq, Repr

/-- The part of the request `restoreBackup` reads: `req.params.backupId` and `req.user.id`. -/
structure RestoreRequest where
  backupId : String
  userId : String
  deriving DecidableEq, Repr

/-- What a backup handler sends: a status code and a body with an `error` key,
or with a `message` and, for `createBackup`, the `backup` instance. -/
structure Response where
  code : Nat
  error : Option String
  message : Option String
  backup : Option Backup
  deriving DecidableEq, Repr

/-- A response whose body has the single key `error`. -/
def Response.failure (code : Nat) (error : String) : Response :=
  { code := code, error := some error, message := none, backup := none }

/-- The `try` block of `createBackup`: look the server up, create the record,
perform the backup, update the record with the result and answer 201. -/
def createBackupTry (o : BackupOracle) (req : CreateRequest) (w : World) :
    Except Unit Response × World :=
  if o.serverFindOne then
    match Server.findOne w.db req.serverId req.userId with
    | none => (.ok (Response.failure 404 "Server not found"), w)
    | some server =>
      match Backup.create o req.name req.serverId (req.isAutomatic.getD false) w with
      | (.error e, w1) => (.error e, w1)
      | (.ok backup, w1) =>
        match backupService.createBackup o server backup.id w1 with
        | (.error e, w2) => (.error e, w2)
        | (.ok backupResult, w2) =>
          match Backup.update o backup
              { filePath := some backupResult.filePath, size := some backupResult.size,
                status := some .completed } w2 with
          | (.error e, w3) => (.error e, w3)
          | (.ok backup1, w3) =>
            (.ok { code := 201, error := none, message := some "Backup created successfully",
                   backup := some backup1 }, w3)
  else (.error (), w)

/-- The `catch` block of `createBackup`: when `req.body.backupId` is truthy the
rows with that id are written `status: 'failed'`; a failure of that write is
caught and only logged. -/
def createBackupCatch (o : BackupOracle) (req : CreateRequest) (w : World) : World :=
  match req.backupId with
  | some backupId =>
    if truthy (some backupId) then
      (Backup.updateWhere o backupId { status := some .failed } w).2
    else w
  | none => w

/-- The handler `createBackup(req, res)`. -/
def createBackup (o : BackupOracle) (req : CreateRequest) (w : World) : Response × World :=
  match createBackupTry o req w with
  | (.ok res, w1) => (res, w1)
  | (.error _, w1) => (Response.failure 500 "Failed to create backup", createBackupCatch o req w1)

/-- The `try` block of `restoreBackup`: look the backup and its server up,
refuse a running server, otherwise restore and answer 200. -/
def restoreBackupTry (o : BackupOracle) (req : RestoreRequest) (w : World) :
    Except Unit Response × World :=
  if o.backupFindByPk then
    match Backup.findByPk w.backups req.backupId with
    | none => (.ok (Response.failure 404 "Backup not found"), w)
    | some backup =>
      if o.serverFindOne then
        match Server.findOne w.db backup.serverId req.userId with
        | none => (.ok (Response.failure 403 "Access denied"), w)
        | some server =>
          if server.status = .running then
            (.ok (Response.failure 400 "Server must be stopped before restoring a backup"), w)
          else
            match backupService.restoreBackup o server backup w with
            | (.error e, w1) => (.error e, w1)
            | (.ok _, w1) =>
              (.ok { code := 200, error := none,
                     message := some "Backup restored successfully", backup := none }, w1)
      else (.error (), w)
  else (.error (), w)

/-- The handler `restoreBackup(req, res)`: the `catch` block answers 500. -/
def restoreBackup (o : BackupOracle) (req : RestoreRequest) (w : World) : Response × World :=
  match restoreBackupTry o req w with
  | (.ok res, w1) => (res, w1)
  | (.error _, w1) => (Response.failure 500 "Failed to restore backup", w1)

end backupController

/-! ## Container statistics (`getContainerStats`, `getServerStats`)

The runtime's sample is JSON and the service computes on it with JavaScript
numbers.  The arithmetic is a parameter: the service is embedded over any type
of numbers with the operations it uses, so what is proved of it holds for IEEE
doubles as for exact arithmetic. -/

/-- The operations on numbers `getContainerStats` uses: literals and lengths,
`+`, `-`, `*`, `/` and `toFixed(digits)`. -/
structure JsArith (N : Type) where
  ofNat : Nat → N
  add : N → N → N
  sub : N → N → N
  mul : N → N → N
  div : N → N → N
  toFixed : N → Nat → String

/-- The object `cpu_usage` of a sample; `percpu_usage` may be absent. -/
structure CpuUsage (N : Type) where
  total_usage : N
  percpu_usage : Option (List N)

/-- The objects `cpu_stats` and `precpu_stats` of a sample. -/
structure CpuStats (N : Type) where
  cpu_usage : CpuUsage N
  system_cpu_usage : N

/-- The object `memory_stats` of a sample. -/
structure MemoryStats (N : Type) where
  usage : N
  limit : N

/-- The counters of one network interface. -/
structure NetworkStats (N : Type) where
  rx_bytes : N
  tx_bytes : N

/-- The sample `container.stats` resolves to; `networks` may be absent, and
its interfaces are held in the order of `Object.keys`. -/
structure ContainerStats (N : Type) where
  cpu_stats : CpuStats N
  precpu_stats : CpuStats N
  memory_stats : MemoryStats N
  networks : Option (List (String × NetworkStats N))

/-- The `cpu` object of a snapshot. -/
structure CpuSnapshot where
  usage : String
  percent : String
  deriving DecidableEq, Repr

/-- The `memory` object of a snapshot. -/
structure MemorySnapshot where
  usage : String
  limit : String
  percent : String
  deriving DecidableEq, Repr

/-- The `network` object of a snapshot. -/
structure NetworkSnapshot where
  rx : String
  tx : String
  deriving DecidableEq, Repr

/-- The snapshot `getContainerStats` returns. -/
structure StatsSnapshot where
  cpu : CpuSnapshot
  memory : MemorySnapshot
  network : NetworkSnapshot
  timestamp : Nat
  deriving DecidableEq, Repr

namespace dockerService

/-- The computation of `getContainerStats` on a sample, taken at time `now`. -/
def statsOf {N : Type} (A : JsArith N) (now : Nat) (stats : ContainerStats N) : StatsSnapshot :=
  let cpuDelta := A.sub stats.cpu_stats.cpu_usage.total_usage
    stats.precpu_stats.cpu_usage.total_usage
  let systemCpuDelta := A.sub stats.cpu_stats.system_cpu_usage
    stats.precpu_stats.system_cpu_usage
  let cpuCount := match stats.cpu_stats.cpu_usage.percpu_usage with
    | some percpu => A.ofNat percpu.length
    | none => A.ofNat 1
  let cpuUsage := A.mul (A.mul (A.div cpuDelta systemCpuDelta) cpuCount) (A.ofNat 100)
  let mb := A.mul (A.ofNat 1024) (A.ofNat 1024)
  let memoryUsage := A.div stats.memory_stats.usage mb
  let memoryLimit := A.div stats.memory_stats.limit mb
  let memoryPercent := A.mul (A.div memoryUsage memoryLimit) (A.ofNat 100)
  let networkRx := match stats.networks with
    | some ifaces => ifaces.foldl (fun acc i => A.add acc i.2.rx_bytes) (A.ofNat 0)
    | none => A.ofNat 0
  let networkTx := match stats.networks with
    | some ifaces => ifaces.foldl (fun acc i => A.add acc i.2.tx_bytes) (A.ofNat 0)
    | none => A.ofNat 0
  { cpu := { usage := A.toFixed cpuUsage 2, percent := A.toFixed cpuUsage 2 }
    memory := { usage := A.toFixed memoryUsage 2, limit := A.toFixed memoryLimit 2,
                percent := A.toFixed memoryPercent 2 }
    network := { rx := A.toFixed (A.div networkRx mb) 2, tx := A.toFixed (A.div networkTx mb) 2 }
    timestamp := now }

/-- The service's `getContainerStats(containerId)`: request one sample from the
runtime (`none` when the request throws) and compute the snapshot.  The
`catch` block logs and rethrows. -/
def getContainerStats {N : Type} (A : JsArith N) (now : Nat) (sample : Option (ContainerStats N))
    (containerId : Option String) (w : World) : Except Unit StatsSnapshot × World :=
  let w1 := w.emit (.containerStats containerId)
  match sample with
  | some stats => (.ok (statsOf A now stats), w1)
  | none => (.error (), w1)

end dockerService

namespace serverController

/-- What `getServerStats` sends: a status code and a body with an `error` key
or with the `stats` snapshot. -/
structure StatsResponse where
  code : Nat
  error : Option String
  stats : Option StatsSnapshot
  deriving DecidableEq, Repr

/-- The handler `getServerStats(req, res)`: 404 when the server is not found,
400 when its status is not `running`, otherwise the snapshot of the service;
the `catch` block answers 500. -/
def getServerStats {N : Type} (A : JsArith N) (o : Oracle) (sample : Option (ContainerStats N))
    (req : Request) (w : World) : StatsResponse × World :=
  if o.findOne then
    match Server.findOne w.db req.serverId req.userId with
    | none => ({ code := 404, error := some "Server not found", stats := none }, w)
    | some server =>
      if server.status ≠ .running then
        ({ code := 400, error := some "Server is not running", stats := none }, w)
      else
        match dockerService.getContainerStats A o.now sample server.containerId w with
        | (.ok stats, w1) => ({ code := 200, error := none, stats := some stats }, w1)
        | (.error _, w1) =>
          ({ code := 500, error := some "Failed to get server stats", stats := none }, w1)
  else ({ code := 500, error := some "Failed to get server stats", stats := none }, w)

end serverController

/-! ## Build-context assembly (`getContainerConfig` in `src/services/dockerService.js`)

The lifecycle handlers above see the assembly only through its outcome.  This
section embeds the function itself: the three queries on the `Script` model,
the files it writes below the directory of the server, and the container
configuration it builds. -/

/-- Outcomes of the external calls of `getContainerConfig`: the query for the
script of a kind, and the file-system calls by path.  `true` means the call
returns and `false` means it throws. -/
structure AssemblyOracle where
  /-- The query `Script.findOne` for the script of this kind. -/
  scriptFindOne : ScriptType → Bool
  /-- The call `fs.mkdirSync` on this path. -/
  mkdir : String → Bool
  /-- The call `fs.writeFileSync` on this path. -/
  writeFile : String → Bool
  /-- The call `fs.chmodSync` on this path. -/
  chmod : String → Bool

/-- The query `Script.findOne` with `where: serverId, type`.  The query asks
for no order, so the row is the first match in the order of the store. -/
def Script.findOne (rows : List Script) (serverId : String) (type : ScriptType) :
    Option Script :=
  rows.find? (fun s => s.serverId == some serverId && s.type == type)

/-- The tree after a regular file was written at a relative path: the entry
is replaced where it stands, or added when the path was free. -/
def Tree.write (t : Tree) (name content : String) : Tree :=
  if (t.lookup name).isSome then
    t.map (fun e => if e.1 = name then (name, Item.file content) else e)
  else t ++ [(name, Item.file content)]

/-- The entry at a relative path below a directory, `none` when the directory
or the entry does not exist. -/
def FileSystem.readFile (fs : FileSystem) (dir name : String) : Option Item :=
  match fs.tree dir with
  | some t => t.lookup name
  | none => none

/-- The effect of `fs.writeFileSync(path.join(dir, name), content)`, `none`
when the call throws: the directory does not exist, or the path is a directory. -/
def FileSystem.writeFileSync (fs : FileSystem) (dir name content : String) :
    Option FileSystem :=
  match fs.tree dir with
  | some t =>
    match t.lookup name with
    | some .dir => none
    | _ => some (fs.setTree dir (t.write name content))
  | none => none

/-- The effect of `fs.chmodSync(path, mode)`. -/
def FileSystem.chmodSync (fs : FileSystem) (path mode : String) : FileSystem :=
  { fs with modes := (path, mode) :: fs.modes.filter (fun m => m.1 != path) }

/-- The mode last set on a path, `none` when none was set. -/
def FileSystem.mode (fs : FileSystem) (path : String) : Option String :=
  fs.modes.lookup path

/-- One element of a `PortBindings` list: the object with the key `HostPort`. -/
structure PortBinding where
  HostPort : String
  deriving DecidableEq, Repr

/-- The object `RestartPolicy` of a container configuration. -/
structure RestartSettings where
  Name : String
  deriving DecidableEq, Repr

/-- The object `HostConfig` of a container configuration; `PortBindings` is
held as the list of its keys with their values. -/
structure HostSettings where
  PortBindings : List (String × List PortBinding)
  Binds : List String
  Memory : Int
  MemorySwap : Int
  CpuPercent : Int
  RestartPolicy : RestartSettings
  deriving DecidableEq, Repr

/-- The object `containerConfig`; `ExposedPorts` is held as the list of its keys. -/
structure ContainerConfig where
  Image : String
  name : String
  Hostname : String
  ExposedPorts : List String
  HostConfig : HostSettings
  Env : List String
  Tty : Bool
  deriving DecidableEq, Repr

/-- The value returned by `getContainerConfig`. -/
structure AssemblyResult where
  containerConfig : ContainerConfig
  serverDir : String
  deriving DecidableEq, Repr

namespace dockerService

/-- The call `fs.mkdirSync(path, recursive)` of the assembly, which may throw. -/
def mkdirSync (o : AssemblyOracle) (path : String) (w : World) : Except Unit Unit × World :=
  let w1 := w.emit (.mkdir path)
  if o.mkdir path then (.ok (), { w1 with fs := w1.fs.mkdirSync path })
  else (.error (), w1)

/-- The call `fs.writeFileSync(path.join(dir, name), content)`, which may throw. -/
def writeFileSync (o : AssemblyOracle) (dir name content : String) (w : World) :
    Except Unit Unit × World :=
  let w1 := w.emit (.writeFile (pathJoin [dir, name]) content)
  if o.writeFile (pathJoin [dir, name]) then
    match w1.fs.writeFileSync dir name content with
    | some fs1 => (.ok (), { w1 with fs := fs1 })
    | none => (.error (), w1)
  else (.error (), w1)

/-- The call `fs.chmodSync(path, mode)`, which may throw. -/
def chmodSync (o : AssemblyOracle) (path mode : String) (w : World) : Except Unit Unit × World :=
  let w1 := w.emit (.chmod path mode)
  if o.chmod path then (.ok (), { w1 with fs := w1.fs.chmodSync path mode })
  else (.error (), w1)

/-- The blocks `if (dockerfileScript)` and `if (configScript)`: write the
content of the script to the file of that name when there is a script. -/
def writeScript (o : AssemblyOracle) (serverDir name : String) (script : Option Script)
    (w : World) : Except Unit Unit × World :=
  match script with
  | some s => writeFileSync o serverDir name s.content w
  | none => (.ok (), w)

/-- The block `if (startupScript)`: write the content of the script to
`start.sh` and set the mode of that file to `755`. -/
def writeStartup (o : AssemblyOracle) (serverDir : String) (script : Option Script)
    (w : World) : Except Unit Unit × World :=
  match script with
  | some s =>
    match writeFileSync o serverDir "start.sh" s.content w with
    | (.error e, w1) => (.error e, w1)
    | (.ok _, w1) => chmodSync o (pathJoin [serverDir, "start.sh"]) "755" w1
  | none => (.ok (), w)

/-- The object literal `containerConfig` built for a server and its directory. -/
def containerConfigOf (server : Server) (serverDir : String) : ContainerConfig :=
  { Image := "gameserver-" ++ server.id
    name := getContainerName server
    Hostname := "gameserver-" ++ server.id
    ExposedPorts := [toString server.port ++ "/tcp"]
    HostConfig :=
      { PortBindings := [(toString server.port ++ "/tcp", [{ HostPort := toString server.port }])]
        Binds := [serverDir ++ ":/data"]
        Memory := server.memory * 1024 * 1024
        MemorySwap := server.memory * 1024 * 1024 * 2
        CpuPercent := server.cpu
        RestartPolicy := { Name := if server.autoRestart then "unless-stopped" else "no" } }
    Env := ["SERVER_PORT=" ++ toString server.port,
            "SERVER_MEMORY=" ++ toString server.memory,
            "SERVER_CPU=" ++ toString server.cpu,
            "GAME_TYPE=" ++ server.gameType]
    Tty := true }

/-- The service's `getContainerConfig(server)`: query the scripts of the three
kinds, create the directory of the server when it is missing, write each
script that exists to its file, and return the container configuration with
the directory.  The `catch` block logs and rethrows. -/
def getContainerConfig (o : AssemblyOracle) (server : Server) (w : World) :
    Except Unit AssemblyResult × World :=
  if o.scriptFindOne .dockerfile && o.scriptFindOne .startup && o.scriptFindOne .config then
    let dockerfileScript := Script.findOne w.scripts server.id .dockerfile
    let startupScript := Script.findOne w.scripts server.id .startup
    let configScript := Script.findOne w.scripts server.id .config
    let serverDir := w.fs.serverDir server.id
    match (if !w.fs.existsSync serverDir then mkdirSync o serverDir w else (.ok (), w)) with
    | (.error e, w1) => (.error e, w1)
    | (.ok _, w1) =>
      match writeScript o serverDir "Dockerfile" dockerfileScript w1 with
      | (.error e, w2) => (.error e, w2)
      | (.ok _, w2) =>
        match writeStartup o serverDir startupScript w2 with
        | (.error e, w3) => (.error e, w3)
        | (.ok _, w3) =>
          match writeScript o serverDir "server.config" configScript w3 with
          | (.error e, w4) => (.error e, w4)
          | (.ok _, w4) =>
            (.ok { containerConfig := containerConfigOf server serverDir,
                   serverDir := serverDir }, w4)
  else (.error (), w)

end dockerService

/-! ## Concrete inputs used to evaluate the handlers -/

namespace Sample

/-- Attributes of a sample server. -/
def body : ServerAttributes :=
  { name := "alpha", gameType := "minecraft", port := 25565, memory := 1024, cpu := 100,
    disk := 10240, autoRestart := false, backupEnabled := true, backupSchedule := "0 0 * * *" }

/-- A newly created server `s1` owned by `u1`. -/
def fresh : Server := Server.create "s1" "u1" body

/-- The request of user `u1` for server `s1`. -/
def req : Request := { serverId := "s1", userId := "u1" }

/-- A world holding one row and an empty log. -/
def world (s : Server) : World := { db := [s], log := [] }

/-- Every external call returns; the runtime creates container `c1` at time 7. -/
def allOk : Oracle :=
  { now := 7, findOne := true, updateStopping := true, updateStarting := true,
    updateRunning := true, updateStopped := true, getContainerConfig := true,
    buildImage := true, createContainer := some "c1", containerStart := true,
    containerInspect := true, containerStop := true, containerRemove := true,
    catchFindOne := true, catchUpdate := true }

/-- Server `s1` running in container `c1`. -/
def running : Server :=
  { fresh with status := .running, containerId := some "c1", lastStarted := some 3 }

/-- Every call returns except the image build, which throws. -/
def buildFails : Oracle := { allOk with buildImage := false }

/-- Every call returns except the container stop, which throws. -/
def stopFails : Oracle := { allOk with containerStop := false }

/-- Every call returns except the container inspection: the container is gone. -/
def containerGone : Oracle := { allOk with containerInspect := false }

end Sample

/-! ## Concrete inputs used to evaluate the backup paths -/

namespace Sample

/-- Every external call of the backup paths returns; a new record of server
`x` gets the key `b-x`, archives are 2048 bytes long. -/
def backupOk : BackupOracle :=
  { now := fun _ => 100
    isoTimestamp := fun _ => "2024-01-02T03:04:05.678Z"
    serverFindOne := true
    serverFindAll := true
    backupFindByPk := true
    backupFindAll := fun _ => true
    backupCreate := fun serverId => some ("b-" ++ serverId)
    backupUpdate := fun _ => true
    backupUpdateWhere := true
    backupDestroy := fun _ => true
    mkdir := fun _ => true
    unlink := fun _ => true
    tarCreate := fun _ => some 2048
    rmContents := fun _ => true
    tarExtract := fun _ => true }

/-- Every call returns except the `tar -czf` command, which fails. -/
def tarFails : BackupOracle := { backupOk with tarCreate := fun _ => none }

/-- The tree of a server directory: a hidden file, a directory and a file in it. -/
def tree : Tree :=
  [(".env", .file "MODE=prod"), ("world", .dir), ("world/level.dat", .file "level-1")]

/-- A file system in which the directory of server `s1` exists and holds `tree`. -/
def disk : FileSystem :=
  { dirs := [("/app/data/servers/s1", tree)] }

/-- A completed backup record of server `s1` with its archive path. -/
def record (id : String) (createdAt : Nat) : Backup :=
  { id := id, name := "manual", filePath := "/app/data/backups/" ++ id ++ ".tar.gz",
    size := 2048, status := .completed, isAutomatic := false, serverId := "s1",
    createdAt := createdAt }

/-- A world with the stopped server `s1`, three backups of it made at times 10,
30 and 20, and their archive files. -/
def backedUp : World :=
  { db := [fresh], log := []
    backups := [record "b1" 10, record "b2" 30, record "b3" 20]
    fs := { dirs := [("/app/data/servers/s1", tree), ("/app/data/backups", [])]
            files := [("/app/data/backups/b1.tar.gz", { entries := tree, size := 2048 }),
                      ("/app/data/backups/b2.tar.gz", { entries := tree, size := 2048 }),
                      ("/app/data/backups/b3.tar.gz", { entries := tree, size := 2048 })] } }

end Sample

/-! ## Concrete inputs used to evaluate the assembly -/

namespace Sample

/-- Every external call of the assembly returns. -/
def assemblyOk : AssemblyOracle :=
  { scriptFindOne := fun _ => true, mkdir := fun _ => true, writeFile := fun _ => true,
    chmod := fun _ => true }

/-- A script of server `s1` owned by `u1`. -/
def script (id : String) (type : ScriptType) (content : String) (createdAt : Nat) : Script :=
  { id := id, name := "script " ++ id, type := type, content := content, language := "bash",
    gameType := "minecraft", isTemplate := false, parameters := "", serverId := some "s1",
    userId := "u1", createdAt := createdAt }

/-- A world in which server `s1` has a build file made at time 10, a startup
file made at time 11 and a second build file made at time 20, held by the store
in that order, and a directory holding `tree`. -/
def scripted : World :=
  { db := [fresh], log := [], fs := disk
    scripts := [script "d1" .dockerfile "FROM debian" 10, script "u1" .startup "./run" 11,
                script "d2" .dockerfile "FROM alpine" 20] }

end Sample

/-! ## A concrete arithmetic

Numbers as exact rationals extended with the special values of IEEE
arithmetic.  Finite results are not rounded to a double and zero has no sign:
this instance idealises JavaScript numbers and serves to evaluate the service
on concrete samples. -/

/-- A JavaScript number: a finite value, an infinity with its sign, or `NaN`. -/
inductive JsNumber where
  | finite (q : ℚ)
  | infinity (negative : Bool)
  | nan
  deriving DecidableEq

namespace JsNumber

/-- The sum of two numbers: opposite infinities give `NaN`. -/
def add : JsNumber → JsNumber → JsNumber
  | finite a, finite b => finite (a + b)
  | finite _, infinity s => infinity s
  | infinity s, finite _ => infinity s
  | infinity s, infinity t => if s = t then infinity s else nan
  | _, _ => nan

/-- The opposite of a number. -/
def neg : JsNumber → JsNumber
  | finite a => finite (-a)
  | infinity s => infinity (!s)
  | nan => nan

/-- The difference of two numbers. -/
def sub (x y : JsNumber) : JsNumber := add x (neg y)

/-- The product of two numbers: zero times an infinity gives `NaN`. -/
def mul : JsNumber → JsNumber → JsNumber
  | finite a, finite b => finite (a * b)
  | finite a, infinity s => if a = 0 then nan else infinity (if a < 0 then !s else s)
  | infinity s, finite b => if b = 0 then nan else infinity (if b < 0 then !s else s)
  | infinity s, infinity t => infinity (s != t)
  | _, _ => nan

/-- The quotient of two numbers: a non-zero value over zero is an infinity,
zero over zero is `NaN`. -/
def div : JsNumber → JsNumber → JsNumber
  | finite a, finite b =>
    if b = 0 then (if a = 0 then nan else infinity (decide (a < 0))) else finite (a / b)
  | finite _, infinity _ => finite 0
  | infinity s, finite b => infinity (if b < 0 then !s else s)
  | infinity _, infinity _ => nan
  | _, _ => nan

/-- The decimal digits of a natural number, padded on the left with zeros to
at least the given length. -/
def paddedDigits (n width : Nat) : List Char :=
  let ds := (Nat.toDigits 10 n)
  List.replicate (width - ds.length) '0' ++ ds

/-- The text of `x.toFixed(digits)`: the closest decimal with that many
fraction digits, a tie going away from zero; `NaN` and the infinities are
written by name. -/
def toFixed : JsNumber → Nat → String
  | nan, _ => "NaN"
  | infinity s, _ => if s then "-Infinity" else "Infinity"
  | finite q, digits =>
    let n : Nat := (Rat.floor (|q| * 10 ^ digits + 1 / 2)).toNat
    let ds := paddedDigits n (digits + 1)
    let whole := ds.take (ds.length - digits)
    let fraction := ds.drop (ds.length - digits)
    String.mk ((if q < 0 then ['-'] else []) ++ whole ++
      (if digits = 0 then [] else '.' :: fraction))

/-- The arithmetic of `JsNumber` as the operations the stats service uses. -/
def arith : JsArith JsNumber :=
  { ofNat := fun n => finite n
    add := add
    sub := sub
    mul := mul
    div := div
    toFixed := toFixed }

end JsNumber

namespace Sample

/-- A runtime sample: 200 units of CPU time used out of 1000 elapsed on 2
cores, 512 MiB of memory used out of 1024, one network interface. -/
def stats : ContainerStats JsNumber :=
  { cpu_stats := { cpu_usage := { total_usage := .finite 400,
                                  percpu_usage := some [.finite 250, .finite 150] },
                   system_cpu_usage := .finite 2000 }
    precpu_stats := { cpu_usage := { total_usage := .finite 200, percpu_usage := none },
                      system_cpu_usage := .finite 1000 }
    memory_stats := { usage := .finite 536870912, limit := .finite 1073741824 }
    networks := some [("eth0", { rx_bytes := .finite 1048576, tx_bytes := .finite 524288 })] }

/-- A runtime sample whose two readings of the system CPU time are equal and
whose memory limit is 0. -/
def stalled : ContainerStats JsNumber :=
  { stats with
    precpu_stats := { cpu_usage := { total_usage := .finite 200, percpu_usage := none },
                      system_cpu_usage := .finite 2000 }
    memory_stats := { usage := .finite 536870912, limit := .finite 0 } }

end Sample

/-! ## Facts about the store -/

theorem ServerValues.apply_id (v : ServerValues) (s : Server) : (v.apply s).id = s.id := rfl

theorem ServerValues.apply_userId (v : ServerValues) (s : Server) :
    (v.apply s).userId = s.userId := rfl

/-- A row returned by `findOne` has the id and the owner that were asked for. -/
theorem Server.findOne_some {db : List Server} {id userId : String} {s : Server}
    (h : Server.findOne db id userId = some s) : s.id = id ∧ s.userId = userId := by
  have := List.find?_some h
  simpa using this

theorem Server.findOne_cons (r : Server) (rest : List Server) (id userId : String) :
    Server.findOne (r :: rest) id userId =
      if r.id = id ∧ r.userId = userId then some r else Server.findOne rest id userId := by
  unfold Server.findOne
  by_cases hr : r.id = id ∧ r.userId = userId
  · rw [List.find?_cons_of_pos _ (by simpa using hr), if_pos hr]
  · rw [List.find?_cons_of_neg _ (by simpa using hr), if_neg hr]

/-- Looking a row up after an update by primary key `pk`: the row found before,
rewritten when its key is `pk`. -/
theorem Server.findOne_writeRows_key (db : List Server) (pk id userId : String)
    (v : ServerValues) :
    Server.findOne (Server.writeRows db pk v) id userId
      = (Server.findOne db id userId).map (fun r => if r.id = pk then v.apply r else r) := by
  induction db with
  | nil => rfl
  | cons r rest ih =>
    simp only [Server.writeRows, List.map_cons]
    rw [Server.findOne_cons, Server.findOne_cons]
    simp only [Server.writeRows] at ih
    rw [ih]
    by_cases hk : r.id = pk
    · rw [if_pos hk]
      simp only [ServerValues.apply_id, ServerValues.apply_userId]
      by_cases hr : r.id = id ∧ r.userId = userId
      · rw [if_pos hr, if_pos hr, Option.map_some', if_pos hk]
      · rw [if_neg hr, if_neg hr]
    · rw [if_neg hk]
      by_cases hr : r.id = id ∧ r.userId = userId
      · rw [if_pos hr, if_pos hr, Option.map_some', if_neg hk]
      · rw [if_neg hr, if_neg hr]

/-- Looking a row up by the key it was just updated under. -/
theorem Server.findOne_writeRows (db : List Server) (id userId : String) (v : ServerValues) :
    Server.findOne (Server.writeRows db id v) id userId
      = (Server.findOne db id userId).map v.apply := by
  rw [Server.findOne_writeRows_key]
  cases h : Server.findOne db id userId with
  | none => rfl
  | some s => simp [(Server.findOne_some h).1]

/-! ## Frame rule: what a handler call can change -/

theorem writtenValues_running {o : Oracle} {containerId : String}
    (h : o.createContainer = some containerId) :
    ServerValues.mk (some .running) (some containerId) (some o.now) none ∈ writtenValues o := by
  simp [writtenValues, h]

/-- The id returned by the service's `startServer` is the id of the created container. -/
theorem dockerService.startServer_ok {o : Oracle} {s : Server} {w w1 : World}
    {containerId : String}
    (h : dockerService.startServer o s w = (.ok containerId, w1)) :
    o.createContainer = some containerId ∧ o.getContainerConfig = true ∧
      o.buildImage = true ∧ o.containerStart = true := by
  unfold dockerService.startServer at h
  cases h1 : o.getContainerConfig <;> cases h2 : o.buildImage <;>
    cases h3 : o.createContainer <;> cases h4 : o.containerStart <;> simp_all

section Frame

variable (o : Oracle) {R : World → Prop}

theorem Server.update_frame (hemit : ∀ w e, R w → R (w.emit e))
    (hwrite : ∀ w pk v, v ∈ writtenValues o → R w →
      R { w with db := Server.writeRows w.db pk v })
    (ok : Bool) (s : Server) (v : ServerValues) (hv : v ∈ writtenValues o) (w : World)
    (h : R w) : R (Server.update ok s v w).2 := by
  unfold Server.update
  cases ok
  · exact hemit _ _ h
  · exact hwrite _ _ _ hv (hemit _ _ h)

theorem dockerService.startServer_frame (hemit : ∀ w e, R w → R (w.emit e))
    (s : Server) (w : World) (h : R w) : R (dockerService.startServer o s w).2 := by
  unfold dockerService.startServer
  simp only
  split
  · split
    · split
      · split
        · exact hemit _ _ (hemit _ _ (hemit _ _ (hemit _ _ h)))
        · exact hemit _ _ (hemit _ _ (hemit _ _ (hemit _ _ h)))
      · exact hemit _ _ (hemit _ _ (hemit _ _ h))
    · exact hemit _ _ (hemit _ _ h)
  · exact hemit _ _ h

theorem dockerService.stopContainer_frame (hemit : ∀ w e, R w → R (w.emit e))
    (c : Option String) (w : World) (h : R w) : R (dockerService.stopContainer o c w).2 := by
  unfold dockerService.stopContainer
  simp only
  split
  · split
    · exact hemit _ _ (hemit _ _ h)
    · exact hemit _ _ (hemit _ _ h)
  · exact hemit _ _ h

theorem serverController.catchBlock_frame (hemit : ∀ w e, R w → R (w.emit e))
    (hwrite : ∀ w pk v, v ∈ writtenValues o → R w →
      R { w with db := Server.writeRows w.db pk v })
    (req : Request) (w : World) (h : R w) : R (serverController.catchBlock o req w) := by
  unfold serverController.catchBlock
  split
  · split
    · exact Server.update_frame o hemit hwrite _ _ _ (by simp [writtenValues]) _ h
    · exact h
  · exact h

theorem serverController.startServerTry_frame (hemit : ∀ w e, R w → R (w.emit e))
    (hwrite : ∀ w pk v, v ∈ writtenValues o → R w →
      R { w with db := Server.writeRows w.db pk v })
    (req : Request) (w : World) (h : R w) : R (serverController.startServerTry o req w).2 := by
  unfold serverController.startServerTry
  split
  · split
    · exact h
    · split
      · exact h
      · next server _ _ =>
        have e1 := Server.update_frame o hemit hwrite o.updateStarting server
          { status := some .starting } (by simp [writtenValues]) w h
        split
        · next w1 h1 => rw [h1] at e1; exact e1
        · next server1 w1 h1 =>
          rw [h1] at e1
          have e2 := dockerService.startServer_frame o hemit server1 w1 e1
          split
          · next w2 h2 => rw [h2] at e2; exact e2
          · next containerId w2 h2 =>
            rw [h2] at e2
            have e3 := Server.update_frame o hemit hwrite o.updateRunning server1 _
              (writtenValues_running (dockerService.startServer_ok h2).1) w2 e2
            split
            · next w3 h3 => rw [h3] at e3; exact e3
            · next server2 w3 h3 => rw [h3] at e3; exact e3
  · exact h

theorem serverController.stopServerTry_frame (hemit : ∀ w e, R w → R (w.emit e))
    (hwrite : ∀ w pk v, v ∈ writtenValues o → R w →
      R { w with db := Server.writeRows w.db pk v })
    (req : Request) (w : World) (h : R w) : R (serverController.stopServerTry o req w).2 := by
  unfold serverController.stopServerTry
  split
  · split
    · exact h
    · split
      · exact h
      · next server _ _ =>
        have e1 := Server.update_frame o hemit hwrite o.updateStopping server
          { status := some .stopping } (by simp [writtenValues]) w h
        split
        · next w1 h1 => rw [h1] at e1; exact e1
        · next server1 w1 h1 =>
          rw [h1] at e1
          have e2 := dockerService.stopContainer_frame o hemit server1.containerId w1 e1
          split
          · next w2 h2 => rw [h2] at e2; exact e2
          · next w2 h2 =>
            rw [h2] at e2
            have e3 := Server.update_frame o hemit hwrite o.updateStopped server1
              { status := some .stopped, lastStopped := some o.now }
              (by simp [writtenValues]) w2 e2
            split
            · next w3 h3 => rw [h3] at e3; exact e3
            · next server2 w3 h3 => rw [h3] at e3; exact e3
  · exact h

theorem serverController.restartServerTry_frame (hemit : ∀ w e, R w → R (w.emit e))
    (hwrite : ∀ w pk v, v ∈ writtenValues o → R w →
      R { w with db := Server.writeRows w.db pk v })
    (req : Request) (w : World) (h : R w) :
    R (serverController.restartServerTry o req w).2 := by
  unfold serverController.restartServerTry
  split
  · split
    · exact h
    · next server _ =>
      have e1 := Server.update_frame o hemit hwrite o.updateStopping server
        { status := some .stopping } (by simp [writtenValues]) w h
      split
      · next w1 h1 => rw [h1] at e1; exact e1
      · next server1 w1 h1 =>
        rw [h1] at e1
        have e2 : R (if truthy server1.containerId then
            dockerService.stopContainer o server1.containerId w1 else (.ok (), w1)).2 := by
          split
          · exact dockerService.stopContainer_frame o hemit _ _ e1
          · exact e1
        split
        · next w2 h2 => rw [h2] at e2; exact e2
        · next w2 h2 =>
          rw [h2] at e2
          have e3 := Server.update_frame o hemit hwrite o.updateStarting server1
            { status := some .starting } (by simp [writtenValues]) w2 e2
          split
          · next w3 h3 => rw [h3] at e3; exact e3
          · next server2 w3 h3 =>
            rw [h3] at e3
            have e4 := dockerService.startServer_frame o hemit server2 w3 e3
            split
            · next w4 h4 => rw [h4] at e4; exact e4
            · next containerId w4 h4 =>
              rw [h4] at e4
              have e5 := Server.update_frame o hemit hwrite o.updateRunning server2 _
                (writtenValues_running (dockerService.startServer_ok h4).1) w4 e4
              split
              · next w5 h5 => rw [h5] at e5; exact e5
              · next server3 w5 h5 => rw [h5] at e5; exact e5
  · exact h

/-- Frame rule for the lifecycle handlers: a property of worlds that survives
recording a request and survives every row write the handlers can make
survives a whole call of any of the three handlers. -/
theorem serverController.handle_frame (hemit : ∀ w e, R w → R (w.emit e))
    (hwrite : ∀ w pk v, v ∈ writtenValues o → R w →
      R { w with db := Server.writeRows w.db pk v })
    (op : serverController.Op) (req : Request) (w : World) (h : R w) :
    R (serverController.handle op o req w).2 := by
  cases op
  · have e := serverController.startServerTry_frame o hemit hwrite req w h
    simp only [serverController.handle, serverController.startServer]
    split
    · next h1 => rw [h1] at e; exact e
    · next h1 =>
      rw [h1] at e
      exact serverController.catchBlock_frame o hemit hwrite req _ e
  · have e := serverController.stopServerTry_frame o hemit hwrite req w h
    simp only [serverController.handle, serverController.stopServer]
    split
    · next h1 => rw [h1] at e; exact e
    · next h1 =>
      rw [h1] at e
      exact serverController.catchBlock_frame o hemit hwrite req _ e
  · have e := serverController.restartServerTry_frame o hemit hwrite req w h
    simp only [serverController.handle, serverController.restartServer]
    split
    · next h1 => rw [h1] at e; exact e
    · next h1 =>
      rw [h1] at e
      exact serverController.catchBlock_frame o hemit hwrite req _ e

end Frame

/-! ## Facts about single steps -/

theorem World.persisted_emit (w : World) (e : Effect) (req : Request) :
    (w.emit e).persisted req = w.persisted req := rfl

theorem World.persisted_writeRows_isSome (w : World) (pk : String) (v : ServerValues)
    (req : Request) (h : (w.persisted req).isSome = true) :
    (World.persisted { w with db := Server.writeRows w.db pk v } req).isSome = true := by
  simp only [World.persisted, Server.findOne_writeRows_key] at h ⊢
  simpa using h

/-- The `try` block of `startServer` never removes the row it is about. -/
theorem serverController.startServerTry_keeps (o : Oracle) (req : Request) (w : World)
    (h : (w.persisted req).isSome = true) :
    ((serverController.startServerTry o req w).2.persisted req).isSome = true :=
  @serverController.startServerTry_frame o (fun x => (x.persisted req).isSome = true)
    (fun _ _ hw => hw) (fun x pk v _ hx => World.persisted_writeRows_isSome x pk v req hx) req w h

/-- The `try` block of `stopServer` never removes the row it is about. -/
theorem serverController.stopServerTry_keeps (o : Oracle) (req : Request) (w : World)
    (h : (w.persisted req).isSome = true) :
    ((serverController.stopServerTry o req w).2.persisted req).isSome = true :=
  @serverController.stopServerTry_frame o (fun x => (x.persisted req).isSome = true)
    (fun _ _ hw => hw) (fun x pk v _ hx => World.persisted_writeRows_isSome x pk v req hx) req w h

/-- The `try` block of `restartServer` never removes the row it is about. -/
theorem serverController.restartServerTry_keeps (o : Oracle) (req : Request) (w : World)
    (h : (w.persisted req).isSome = true) :
    ((serverController.restartServerTry o req w).2.persisted req).isSome = true :=
  @serverController.restartServerTry_frame o (fun x => (x.persisted req).isSome = true)
    (fun _ _ hw => hw) (fun x pk v _ hx => World.persisted_writeRows_isSome x pk v req hx) req w h

/-- When its lookup and its update succeed, the `catch` block leaves the
persisted status `error`. -/
theorem serverController.catchBlock_status (o : Oracle) (req : Request) (w : World)
    (h : (w.persisted req).isSome = true)
    (hcatchFind : o.catchFindOne = true) (hcatchUpdate : o.catchUpdate = true) :
    ((serverController.catchBlock o req w).persisted req).map (fun s => s.status)
      = some .error := by
  obtain ⟨s, hs⟩ := Option.isSome_iff_exists.mp h
  have hid := (Server.findOne_some hs).1
  simp only [World.persisted] at hs
  simp [serverController.catchBlock, hcatchFind, hcatchUpdate, hs, Server.update, World.emit,
    World.persisted, hid, Server.findOne_writeRows, ServerValues.apply]

/-- With the record found, the `try` block of `startServer` raises as soon as
one of its steps throws. -/
theorem serverController.startServerTry_throws (o : Oracle) (req : Request) (w : World)
    (server : Server) (hfound : w.persisted req = some server) (hfind : o.findOne = true)
    (hgate : server.status ≠ .running)
    (hthrow : o.updateStarting = false ∨ o.getContainerConfig = false ∨ o.buildImage = false ∨
          o.createContainer = none ∨ o.containerStart = false ∨ o.updateRunning = false) :
    (serverController.startServerTry o req w).1 = .error () := by
  simp only [World.persisted] at hfound
  unfold serverController.startServerTry
  rw [if_pos hfind]
  simp only [hfound]
  rw [if_neg hgate]
  cases h1 : o.updateStarting
  · rfl
  cases h2 : o.getContainerConfig
  · simp [Server.update, dockerService.startServer, h2]
  cases h3 : o.buildImage
  · simp [Server.update, dockerService.startServer, h2, h3]
  cases h4 : o.createContainer
  · simp [Server.update, dockerService.startServer, h2, h3, h4]
  cases h5 : o.containerStart
  · simp [Server.update, dockerService.startServer, h2, h3, h4, h5]
  cases h6 : o.updateRunning
  · simp [Server.update, dockerService.startServer, h2, h3, h4, h5, h6]
  simp [h1, h2, h3, h4, h5, h6] at hthrow

/-- With the record found, the `try` block of `stopServer` raises as soon as
one of its steps throws. -/
theorem serverController.stopServerTry_throws (o : Oracle) (req : Request) (w : World)
    (server : Server) (hfound : w.persisted req = some server) (hfind : o.findOne = true)
    (hgate : server.status ≠ .stopped)
    (hthrow : o.updateStopping = false ∨ (o.containerInspect = true ∧ o.containerStop = false) ∨
          o.updateStopped = false) :
    (serverController.stopServerTry o req w).1 = .error () := by
  simp only [World.persisted] at hfound
  unfold serverController.stopServerTry
  rw [if_pos hfind]
  simp only [hfound]
  rw [if_neg hgate]
  cases h1 : o.updateStopping
  · rfl
  cases h2 : o.containerInspect <;> cases h3 : o.containerStop <;>
    cases h4 : o.updateStopped <;>
    simp_all [Server.update, dockerService.stopContainer]

/-- With the record found, the `try` block of `restartServer` raises as soon
as one of its steps throws. -/
theorem serverController.restartServerTry_throws (o : Oracle) (req : Request) (w : World)
    (server : Server) (hfound : w.persisted req = some server) (hfind : o.findOne = true)
    (hthrow : o.updateStopping = false ∨
        (truthy server.containerId = true ∧ o.containerInspect = true ∧ o.containerStop = false) ∨
        o.updateStarting = false ∨ o.getContainerConfig = false ∨ o.buildImage = false ∨
        o.createContainer = none ∨ o.containerStart = false ∨ o.updateRunning = false) :
    (serverController.restartServerTry o req w).1 = .error () := by
  simp only [World.persisted] at hfound
  unfold serverController.restartServerTry
  rw [if_pos hfind]
  simp only [hfound]
  cases h1 : o.updateStopping
  · rfl
  have hc : (ServerValues.apply { status := some Status.stopping } server).containerId
      = server.containerId := rfl
  by_cases hs : truthy server.containerId = true ∧ o.containerInspect = true ∧
      o.containerStop = false
  · simp [Server.update, dockerService.stopContainer, hc, hs.1, hs.2.1, hs.2.2]
  have hstop : ∀ w1 : World, (if truthy server.containerId = true then
        dockerService.stopContainer o server.containerId w1
      else (Except.ok (), w1)).1 = .ok () := by
    intro w1
    cases h0 : truthy server.containerId <;> cases h2 : o.containerInspect <;>
      cases h3 : o.containerStop <;> simp_all [dockerService.stopContainer]
  have hpair : ∀ w1 : World, (if truthy server.containerId = true then
        dockerService.stopContainer o server.containerId w1
      else (Except.ok (), w1)) = (.ok (), (if truthy server.containerId = true then
        dockerService.stopContainer o server.containerId w1
      else (Except.ok (), w1)).2) := fun w1 => Prod.ext (hstop w1) rfl
  simp only [Server.update, if_true, hc]
  rw [hpair]
  simp only []
  cases h1' : o.updateStarting
  · rfl
  cases h2 : o.getContainerConfig
  · simp [dockerService.startServer, h2]
  cases h3 : o.buildImage
  · simp [dockerService.startServer, h2, h3]
  cases h4 : o.createContainer
  · simp [dockerService.startServer, h2, h3, h4]
  cases h5 : o.containerStart
  · simp [dockerService.startServer, h2, h3, h4, h5]
  cases h6 : o.updateRunning
  · simp [dockerService.startServer, h2, h3, h4, h5, h6]
  simp [h1, h1', h2, h3, h4, h5, h6, hs] at hthrow

/-! ## C1: a caught error persists `status = error` -/

/-- C1. For `startServer`, `stopServer` and `restartServer`: when the server
record is found and a later step throws (a status update, build-context
assembly, the image build, container creation or start, or the container stop),
and the lookup and update of the `catch` block succeed, the handler answers
with its 500 failure and the persisted status of the server is `error`. -/
theorem C1_caught_error_persists_error (o : Oracle) (req : Request) (w : World) (server : Server)
    (hfound : w.persisted req = some server)
    (hfind : o.findOne = true)
    (hcatchFind : o.catchFindOne = true) (hcatchUpdate : o.catchUpdate = true) :
    ((server.status ≠ .running ∧
        (o.updateStarting = false ∨ o.getContainerConfig = false ∨ o.buildImage = false ∨
          o.createContainer = none ∨ o.containerStart = false ∨ o.updateRunning = false)) →
      (serverController.startServer o req w).1 = Response.failure 500 "Failed to start server" ∧
      ((serverController.startServer o req w).2.persisted req).map (fun s => s.status)
        = some .error) ∧
    ((server.status ≠ .stopped ∧
        (o.updateStopping = false ∨ (o.containerInspect = true ∧ o.containerStop = false) ∨
          o.updateStopped = false)) →
      (serverController.stopServer o req w).1 = Response.failure 500 "Failed to stop server" ∧
      ((serverController.stopServer o req w).2.persisted req).map (fun s => s.status)
        = some .error) ∧
    ((o.updateStopping = false ∨
        (truthy server.containerId = true ∧ o.containerInspect = true ∧ o.containerStop = false) ∨
        o.updateStarting = false ∨ o.getContainerConfig = false ∨ o.buildImage = false ∨
        o.createContainer = none ∨ o.containerStart = false ∨ o.updateRunning = false) →
      (serverController.restartServer o req w).1
        = Response.failure 500 "Failed to restart server" ∧
      ((serverController.restartServer o req w).2.persisted req).map (fun s => s.status)
        = some .error) := by
  have hsome : (w.persisted req).isSome = true := by rw [hfound]; rfl
  refine ⟨?_, ?_, ?_⟩
  · rintro ⟨hgate, hthrow⟩
    have herr := serverController.startServerTry_throws o req w server hfound hfind hgate hthrow
    have hk := serverController.startServerTry_keeps o req w hsome
    unfold serverController.startServer
    split
    · next res w1 h1 => rw [h1] at herr; cases herr
    · next e w1 h1 =>
      rw [h1] at hk
      exact ⟨rfl, serverController.catchBlock_status o req w1 hk hcatchFind hcatchUpdate⟩
  · rintro ⟨hgate, hthrow⟩
    have herr := serverController.stopServerTry_throws o req w server hfound hfind hgate hthrow
    have hk := serverController.stopServerTry_keeps o req w hsome
    unfold serverController.stopServer
    split
    · next res w1 h1 => rw [h1] at herr; cases herr
    · next e w1 h1 =>
      rw [h1] at hk
      exact ⟨rfl, serverController.catchBlock_status o req w1 hk hcatchFind hcatchUpdate⟩
  · intro hthrow
    have herr := serverController.restartServerTry_throws o req w server hfound hfind hthrow
    have hk := serverController.restartServerTry_keeps o req w hsome
    unfold serverController.restartServer
    split
    · next res w1 h1 => rw [h1] at herr; cases herr
    · next e w1 h1 =>
      rw [h1] at hk
      exact ⟨rfl, serverController.catchBlock_status o req w1 hk hcatchFind hcatchUpdate⟩

/-- C1 at concrete inputs: the image build throws during a start of a new
server and during a restart of a running one, and the container stop throws
during a stop of a running server. -/
theorem C1_caught_error_persists_error_witness :
    ((serverController.startServer Sample.buildFails Sample.req (Sample.world Sample.fresh)).1
        = Response.failure 500 "Failed to start server" ∧
      ((serverController.startServer Sample.buildFails Sample.req
        (Sample.world Sample.fresh)).2.persisted Sample.req).map (fun s => s.status)
        = some .error) ∧
    ((serverController.stopServer Sample.stopFails Sample.req (Sample.world Sample.running)).1
        = Response.failure 500 "Failed to stop server" ∧
      ((serverController.stopServer Sample.stopFails Sample.req
        (Sample.world Sample.running)).2.persisted Sample.req).map (fun s => s.status)
        = some .error) ∧
    ((serverController.restartServer Sample.buildFails Sample.req
        (Sample.world Sample.running)).1 = Response.failure 500 "Failed to restart server" ∧
      ((serverController.restartServer Sample.buildFails Sample.req
        (Sample.world Sample.running)).2.persisted Sample.req).map (fun s => s.status)
        = some .error) :=
  ⟨(C1_caught_error_persists_error Sample.buildFails Sample.req (Sample.world Sample.fresh)
      Sample.fresh (by decide) rfl rfl rfl).1 ⟨by decide, by decide⟩,
   (C1_caught_error_persists_error Sample.stopFails Sample.req (Sample.world Sample.running)
      Sample.running (by decide) rfl rfl rfl).2.1 ⟨by decide, by decide⟩,
   (C1_caught_error_persists_error Sample.buildFails Sample.req (Sample.world Sample.running)
      Sample.running (by decide) rfl rfl rfl).2.2 (by decide)⟩

/-! ## C3: `startServer` on a running server -/

/-- C3. For a server whose status is `running`, `startServer` answers 400
`Server is already running` and leaves the world as it was: no field of the
record is written and no request (assembly, build, create, start) is issued. -/
theorem C3_start_running_rejected (o : Oracle) (req : Request) (w : World) (server : Server)
    (hfound : w.persisted req = some server) (hfind : o.findOne = true)
    (hrunning : server.status = .running) :
    serverController.startServer o req w
      = (Response.failure 400 "Server is already running", w) := by
  simp only [World.persisted] at hfound
  simp [serverController.startServer, serverController.startServerTry, hfind, hfound, hrunning]

/-- C3 at a concrete input: a start request for the running sample server. -/
theorem C3_start_running_rejected_witness :
    serverController.startServer Sample.allOk Sample.req (Sample.world Sample.running)
      = (Response.failure 400 "Server is already running", Sample.world Sample.running) :=
  C3_start_running_rejected Sample.allOk Sample.req (Sample.world Sample.running)
    Sample.running (by decide) rfl rfl

/-! ## C4: a successful start -/

/-- C4. For a server with status `stopped`, when assembly, image build,
container creation and container start succeed (and the two writes to the
store are accepted), `startServer` answers 200 and the persisted record has
status `running`, `containerId` equal to the id of the created container
(non-empty when that id is) and `lastStarted` set.  The service is invoked in
the world produced by the write of `starting`, where the persisted status is
`starting`; the requests are issued in the order: write `starting`, assemble,
build, create, start, write `running`. -/
theorem C4_start_from_stopped (o : Oracle) (req : Request) (w : World) (server : Server)
    (containerId : String)
    (hfound : w.persisted req = some server) (hfind : o.findOne = true)
    (hstopped : server.status = .stopped)
    (hwriteStarting : o.updateStarting = true)
    (hassemble : o.getContainerConfig = true) (hbuild : o.buildImage = true)
    (hcreate : o.createContainer = some containerId) (hstart : o.containerStart = true)
    (hwriteRunning : o.updateRunning = true) :
    (serverController.startServer o req w).1
      = Response.success "Server started successfully"
          { server with status := .running, containerId := some containerId,
                        lastStarted := some o.now } ∧
    (serverController.startServer o req w).2.persisted req
      = some { server with status := .running, containerId := some containerId,
                           lastStarted := some o.now } ∧
    (containerId ≠ "" → truthy (some containerId) = true) ∧
    ((Server.update true server { status := some .starting } w).2.persisted req
      = some { server with status := .starting }) ∧
    (serverController.startServer o req w).2
      = (Server.update true { server with status := .starting }
          { containerId := some containerId, status := some .running,
            lastStarted := some o.now }
          (dockerService.startServer o { server with status := .starting }
            (Server.update true server { status := some .starting } w).2).2).2 ∧
    (serverController.startServer o req w).2.log
      = w.log ++
        [ .dbUpdate server.id { status := some .starting },
          .getContainerConfig server.id,
          .buildImage server.id,
          .createContainer (dockerService.getContainerName server),
          .containerStart containerId,
          .dbUpdate server.id { containerId := some containerId, status := some .running,
                                lastStarted := some o.now } ] := by
  obtain ⟨hid, huid⟩ := Server.findOne_some hfound
  simp only [World.persisted] at hfound
  have hgate : server.status ≠ .running := by rw [hstopped]; decide
  refine ⟨?_, ?_, ?_, ?_, ?_, ?_⟩
  · simp [serverController.startServer, serverController.startServerTry, hfind, hfound, hgate,
      hwriteStarting, hassemble, hbuild, hcreate, hstart, hwriteRunning, Server.update,
      dockerService.startServer, World.emit, ServerValues.apply]
  · simp [serverController.startServer, serverController.startServerTry, hfind, hfound, hgate,
      hwriteStarting, hassemble, hbuild, hcreate, hstart, hwriteRunning, Server.update,
      dockerService.startServer, World.emit, ServerValues.apply, World.persisted, hid,
      Server.findOne_writeRows]
  · intro h
    simpa [truthy] using h
  · simp [Server.update, World.emit, World.persisted, hid, Server.findOne_writeRows, hfound,
      ServerValues.apply]
  · simp [serverController.startServer, serverController.startServerTry, hfind, hfound, hgate,
      hwriteStarting, hassemble, hbuild, hcreate, hstart, hwriteRunning, Server.update,
      dockerService.startServer, World.emit, ServerValues.apply]
  · simp [serverController.startServer, serverController.startServerTry, hfind, hfound, hgate,
      hwriteStarting, hassemble, hbuild, hcreate, hstart, hwriteRunning, Server.update,
      dockerService.startServer, World.emit, ServerValues.apply,
      dockerService.getContainerName]

/-- C4 at a concrete input: the new sample server is started and the runtime
creates container `c1` at time 7. -/
theorem C4_start_from_stopped_witness :
    (serverController.startServer Sample.allOk Sample.req (Sample.world Sample.fresh)).2.persisted
        Sample.req
      = some { Sample.fresh with status := .running, containerId := some "c1",
                                 lastStarted := some 7 } ∧
    (serverController.startServer Sample.allOk Sample.req (Sample.world Sample.fresh)).2.log
      = [ .dbUpdate "s1" { status := some .starting },
          .getContainerConfig "s1",
          .buildImage "s1",
          .createContainer "gameserver-s1",
          .containerStart "c1",
          .dbUpdate "s1" { containerId := some "c1", status := some .running,
                           lastStarted := some 7 } ] :=
  ⟨(C4_start_from_stopped Sample.allOk Sample.req (Sample.world Sample.fresh) Sample.fresh "c1"
      (by decide) rfl rfl rfl rfl rfl rfl rfl rfl).2.1,
   (C4_start_from_stopped Sample.allOk Sample.req (Sample.world Sample.fresh) Sample.fresh "c1"
      (by decide) rfl rfl rfl rfl rfl rfl rfl rfl).2.2.2.2.2⟩

/-! ## C10: a missing container is not an error -/

/-- C10. For every container id whose `inspect` call throws, `stopContainer`
and `removeContainer` return normally, and the only request either of them
issues is that inspection: no stop and no remove request reaches the runtime. -/
theorem C10_missing_container_not_error (o : Oracle) (containerId : Option String) (w : World)
    (hgone : o.containerInspect = false) :
    dockerService.stopContainer o containerId w
      = (.ok (), { w with log := w.log ++ [.containerInspect containerId] }) ∧
    dockerService.removeContainer o containerId w
      = (.ok (), { w with log := w.log ++ [.containerInspect containerId] }) := by
  simp [dockerService.stopContainer, dockerService.removeContainer, hgone, World.emit]

/-- C10 at a concrete input: container `c1` no longer exists. -/
theorem C10_missing_container_not_error_witness :
    dockerService.stopContainer Sample.containerGone (some "c1") (Sample.world Sample.running)
      = (.ok (), { db := [Sample.running], log := [.containerInspect (some "c1")] }) ∧
    dockerService.removeContainer Sample.containerGone (some "c1") (Sample.world Sample.running)
      = (.ok (), { db := [Sample.running], log := [.containerInspect (some "c1")] }) :=
  C10_missing_container_not_error Sample.containerGone (some "c1") (Sample.world Sample.running)
    rfl

/-! ## The order of the first requests of a call -/

/-- The log after `server.update`. -/
theorem Server.update_log (ok : Bool) (s : Server) (v : ServerValues) (w : World) :
    (Server.update ok s v w).2.log = w.log ++ [.dbUpdate s.id v] := by
  cases ok <;> rfl

/-- The `catch` block only appends to the log. -/
theorem serverController.catchBlock_log (o : Oracle) (req : Request) (w : World) :
    ∃ rest, (serverController.catchBlock o req w).log = w.log ++ rest :=
  @serverController.catchBlock_frame o (fun x => ∃ rest, x.log = w.log ++ rest)
    (fun x e ⟨r, hr⟩ => ⟨r ++ [e], by simp [World.emit, hr]⟩)
    (fun x pk v _ ⟨r, hr⟩ => ⟨r, hr⟩) req w ⟨[], by simp⟩

/-- The first request of the service's `startServer` is the build-context assembly. -/
theorem dockerService.startServer_log (o : Oracle) (s : Server) (w : World) :
    ∃ rest, (dockerService.startServer o s w).2.log
      = w.log ++ Effect.getContainerConfig s.id :: rest := by
  unfold dockerService.startServer
  cases o.getContainerConfig
  · exact ⟨[], rfl⟩
  cases o.buildImage
  · exact ⟨[.buildImage s.id], by simp [World.emit]⟩
  cases o.createContainer with
  | none => exact ⟨[.buildImage s.id, .createContainer (getContainerName s)], by simp [World.emit]⟩
  | some c =>
    cases o.containerStart
    · exact ⟨[.buildImage s.id, .createContainer (getContainerName s), .containerStart c],
        by simp [World.emit]⟩
    · exact ⟨[.buildImage s.id, .createContainer (getContainerName s), .containerStart c],
        by simp [World.emit]⟩

/-- The first request of `stopContainer` is the inspection of the container. -/
theorem dockerService.stopContainer_log (o : Oracle) (c : Option String) (w : World) :
    ∃ rest, (dockerService.stopContainer o c w).2.log
      = w.log ++ Effect.containerInspect c :: rest := by
  unfold dockerService.stopContainer
  cases o.containerInspect
  · exact ⟨[], rfl⟩
  cases o.containerStop
  · exact ⟨[.containerStop c 10], by simp [World.emit]⟩
  · exact ⟨[.containerStop c 10], by simp [World.emit]⟩

/-- A `server.update` that throws was refused by the store. -/
theorem Server.update_none {ok : Bool} {s : Server} {v : ServerValues} {w w1 : World}
    (h : Server.update ok s v w = (none, w1)) : ok = false := by
  cases ok
  · rfl
  · simp [Server.update] at h

/-- The instance returned by an accepted `server.update`. -/
theorem Server.update_some {ok : Bool} {s s1 : Server} {v : ServerValues} {w w1 : World}
    (h : Server.update ok s v w = (some s1, w1)) : s1 = v.apply s := by
  cases ok
  · simp [Server.update] at h
  · simp only [Server.update, if_true, Prod.mk.injEq, Option.some.injEq] at h
    exact h.1.symm

/-- Past the status gate, the first request of the `try` block of
`startServer` is the write of `starting`, and when that write is accepted the
next request is the build-context assembly of the service. -/
theorem serverController.startServerTry_log (o : Oracle) (req : Request) (w : World)
    (server : Server) (hfound : w.persisted req = some server) (hfind : o.findOne = true)
    (hgate : server.status ≠ .running) :
    ∃ rest, (serverController.startServerTry o req w).2.log
        = w.log ++ Effect.dbUpdate server.id { status := some .starting } :: rest ∧
      (o.updateStarting = true → ∃ rest', rest = Effect.getContainerConfig server.id :: rest') := by
  simp only [World.persisted] at hfound
  unfold serverController.startServerTry
  rw [if_pos hfind]
  simp only [hfound]
  rw [if_neg hgate]
  have e1 := Server.update_log o.updateStarting server { status := some .starting } w
  split
  · next w1 h1 =>
    rw [h1] at e1
    refine ⟨[], by simpa using e1, ?_⟩
    intro hok
    rw [Server.update_none h1] at hok
    cases hok
  · next server1 w1 h1 =>
    rw [h1] at e1
    have hid : server1.id = server.id := by rw [Server.update_some h1]; rfl
    obtain ⟨r, hr⟩ := dockerService.startServer_log o server1 w1
    simp only at e1
    rw [e1, hid] at hr
    split
    · next w2 h2 =>
      rw [h2] at hr
      exact ⟨_ :: r, by simpa using hr, fun _ => ⟨r, rfl⟩⟩
    · next containerId w2 h2 =>
      rw [h2] at hr
      have e3 := Server.update_log o.updateRunning server1
        { containerId := some containerId, status := some .running,
          lastStarted := some o.now } w2
      simp only at hr
      rw [hr] at e3
      split
      · next w3 h3 =>
        rw [h3] at e3
        exact ⟨_ :: (r ++ [_]), by simpa using e3, fun _ => ⟨_, rfl⟩⟩
      · next server2 w3 h3 =>
        rw [h3] at e3
        exact ⟨_ :: (r ++ [_]), by simpa using e3, fun _ => ⟨_, rfl⟩⟩

/-- Past the status gate, a response sent from inside the `try` block of
`startServer` is the success response. -/
theorem serverController.startServerTry_code (o : Oracle) (req : Request) (w : World)
    (server : Server) (hfound : w.persisted req = some server) (hfind : o.findOne = true)
    (hgate : server.status ≠ .running) (res : Response)
    (hres : (serverController.startServerTry o req w).1 = .ok res) : res.code = 200 := by
  simp only [World.persisted] at hfound
  unfold serverController.startServerTry at hres
  rw [if_pos hfind] at hres
  simp only [hfound] at hres
  rw [if_neg hgate] at hres
  split at hres
  · cases hres
  · split at hres
    · cases hres
    · split at hres
      · cases hres
      · simp only [Except.ok.injEq] at hres
        rw [← hres]
        rfl

/-! ## C2: the status gate of `startServer` -/

/-- C2 (amended). `startServer` rejects a call only for status `running`: then
it answers 400, writes nothing and invokes nothing.  For every other status
(`stopped`, `error`, `starting`, `stopping`) the call proceeds: it answers 200
or 500, its first request is the write of `status: 'starting'`, and once that
write is accepted the next request is the first step of
`dockerService.startServer`. -/
theorem C2_start_rejects_only_running (o : Oracle) (req : Request) (w : World)
    (server : Server) (hfound : w.persisted req = some server) (hfind : o.findOne = true) :
    (server.status = .running →
      serverController.startServer o req w
        = (Response.failure 400 "Server is already running", w)) ∧
    (server.status ≠ .running →
      ((serverController.startServer o req w).1.code = 200 ∨
        (serverController.startServer o req w).1.code = 500) ∧
      (∃ rest, (serverController.startServer o req w).2.log
        = w.log ++ Effect.dbUpdate server.id { status := some .starting } :: rest) ∧
      (o.updateStarting = true →
        ∃ rest, (serverController.startServer o req w).2.log
          = w.log ++ Effect.dbUpdate server.id { status := some .starting }
              :: Effect.getContainerConfig server.id :: rest)) := by
  constructor
  · intro hrunning
    simp only [World.persisted] at hfound
    simp [serverController.startServer, serverController.startServerTry, hfind, hfound, hrunning]
  · intro hgate
    obtain ⟨r, hr, hr2⟩ := serverController.startServerTry_log o req w server hfound hfind hgate
    have hcode := serverController.startServerTry_code o req w server hfound hfind hgate
    unfold serverController.startServer
    split
    · next res w1 h1 =>
      rw [h1] at hr hcode
      refine ⟨Or.inl (hcode res rfl), ⟨r, hr⟩, fun hok => ?_⟩
      obtain ⟨r', hr'⟩ := hr2 hok
      exact ⟨r', by rw [← hr']; exact hr⟩
    · next e w1 h1 =>
      rw [h1] at hr
      obtain ⟨r2, hr3⟩ := serverController.catchBlock_log o req w1
      simp only at hr
      rw [hr] at hr3
      refine ⟨Or.inr rfl, ⟨r ++ r2, by simpa using hr3⟩, fun hok => ?_⟩
      obtain ⟨r', hr'⟩ := hr2 hok
      exact ⟨r' ++ r2, by rw [hr'] at hr3; simpa using hr3⟩

/-- C2 as stated fails: a start request for a server whose status is already
`starting` is not rejected; `starting` is written again and the service's
`startServer` runs to completion. -/
theorem C2_counterexample :
    (serverController.startServer Sample.allOk Sample.req
        (Sample.world { Sample.fresh with status := .starting })).1.code = 200 ∧
    (serverController.startServer Sample.allOk Sample.req
        (Sample.world { Sample.fresh with status := .starting })).2.log
      = [ .dbUpdate "s1" { status := some .starting },
          .getContainerConfig "s1",
          .buildImage "s1",
          .createContainer "gameserver-s1",
          .containerStart "c1",
          .dbUpdate "s1" { containerId := some "c1", status := some .running,
                           lastStarted := some 7 } ] := by
  decide

/-- C2 (amended) at concrete inputs: the running sample server is rejected, and
a start of a server in status `stopping` proceeds. -/
theorem C2_start_rejects_only_running_witness :
    serverController.startServer Sample.allOk Sample.req (Sample.world Sample.running)
        = (Response.failure 400 "Server is already running", Sample.world Sample.running) ∧
    (∃ rest, (serverController.startServer Sample.allOk Sample.req
        (Sample.world { Sample.fresh with status := .stopping })).2.log
      = [] ++ Effect.dbUpdate "s1" { status := some .starting }
          :: Effect.getContainerConfig "s1" :: rest) :=
  ⟨(C2_start_rejects_only_running Sample.allOk Sample.req (Sample.world Sample.running)
      Sample.running (by decide) rfl).1 rfl,
   ((C2_start_rejects_only_running Sample.allOk Sample.req
      (Sample.world { Sample.fresh with status := .stopping })
      { Sample.fresh with status := .stopping } (by decide) rfl).2 (by decide)).2.2 rfl⟩

/-! ## C5: a successful stop -/

/-- When the `try` block of `stopServer` raises, the handler answers 500. -/
theorem serverController.stopServer_of_error (o : Oracle) (req : Request) (w : World)
    (h : (serverController.stopServerTry o req w).1 = .error ()) :
    (serverController.stopServer o req w).1 = Response.failure 500 "Failed to stop server" := by
  unfold serverController.stopServer
  split
  · next res w1 h1 => rw [h1] at h; cases h
  · rfl

/-- A stop that answers 200 went through every step: the lookup returned, the
server was not `stopped`, both writes were accepted and the container stop,
when it was requested, returned. -/
theorem serverController.stopServer_success_steps (o : Oracle) (req : Request) (w : World)
    (server : Server) (hfound : w.persisted req = some server)
    (hsuccess : (serverController.stopServer o req w).1.code = 200) :
    o.findOne = true ∧ server.status ≠ .stopped ∧ o.updateStopping = true ∧
      (o.containerInspect = true → o.containerStop = true) ∧ o.updateStopped = true := by
  have hfind : o.findOne = true := by
    cases hf : o.findOne
    · simp [serverController.stopServer, serverController.stopServerTry, hf,
        Response.failure] at hsuccess
    · rfl
  have hgate : server.status ≠ .stopped := by
    intro hst
    simp only [World.persisted] at hfound
    simp [serverController.stopServer, serverController.stopServerTry, hfind, hfound, hst,
      Response.failure] at hsuccess
  have hno : ¬ (o.updateStopping = false ∨
      (o.containerInspect = true ∧ o.containerStop = false) ∨ o.updateStopped = false) := by
    intro hthrow
    have herr := serverController.stopServerTry_throws o req w server hfound hfind hgate hthrow
    rw [serverController.stopServer_of_error o req w herr] at hsuccess
    simp [Response.failure] at hsuccess
  refine ⟨hfind, hgate, ?_, ?_, ?_⟩
  · cases h : o.updateStopping
    · exact absurd (Or.inl h) hno
    · rfl
  · intro hi
    cases h : o.containerStop
    · exact absurd (Or.inr (Or.inl ⟨hi, h⟩)) hno
    · rfl
  · cases h : o.updateStopped
    · exact absurd (Or.inr (Or.inr h)) hno
    · rfl

/-- The world after a stop in which every step succeeds. -/
theorem serverController.stopServer_persisted (o : Oracle) (req : Request) (w : World)
    (server : Server) (hfound : w.persisted req = some server)
    (hfind : o.findOne = true) (hgate : server.status ≠ .stopped)
    (hwriteStopping : o.updateStopping = true)
    (hstop : o.containerInspect = true → o.containerStop = true)
    (hwriteStopped : o.updateStopped = true) :
    (serverController.stopServer o req w).1
      = Response.success "Server stopped successfully"
          { server with status := .stopped, lastStopped := some o.now } ∧
    (serverController.stopServer o req w).2.persisted req
      = some { server with status := .stopped, lastStopped := some o.now } := by
  obtain ⟨hid, huid⟩ := Server.findOne_some hfound
  simp only [World.persisted] at hfound
  cases hi : o.containerInspect
  · simp [serverController.stopServer, serverController.stopServerTry, hfind, hfound, hgate,
      hwriteStopping, hwriteStopped, hi, Server.update, dockerService.stopContainer,
      World.emit, ServerValues.apply, World.persisted, hid, Server.findOne_writeRows]
  · simp [serverController.stopServer, serverController.stopServerTry, hfind, hfound, hgate,
      hwriteStopping, hwriteStopped, hi, hstop hi, Server.update, dockerService.stopContainer,
      World.emit, ServerValues.apply, World.persisted, hid, Server.findOne_writeRows]

/-- C5 (amended). For every server on which `stopServer` succeeds (answers
200), the persisted record afterwards is the previous record with status
`stopped` and `lastStopped` set; every other column, `containerId` included,
keeps its value: the container id is not cleared. -/
theorem C5_stop_success_keeps_containerId (o : Oracle) (req : Request) (w : World)
    (server : Server) (hfound : w.persisted req = some server)
    (hsuccess : (serverController.stopServer o req w).1.code = 200) :
    (serverController.stopServer o req w).2.persisted req
      = some { server with status := .stopped, lastStopped := some o.now } ∧
    ((serverController.stopServer o req w).2.persisted req).map (fun s => s.containerId)
      = some server.containerId := by
  obtain ⟨hfind, hgate, h1, h2, h3⟩ :=
    serverController.stopServer_success_steps o req w server hfound hsuccess
  have h := (serverController.stopServer_persisted o req w server hfound hfind hgate h1 h2 h3).2
  exact ⟨h, by rw [h]; rfl⟩

/-- C5 as stated fails: after a successful stop of the sample server running
in container `c1`, the persisted `containerId` is still `c1`. -/
theorem C5_counterexample :
    (serverController.stopServer Sample.allOk Sample.req
        (Sample.world Sample.running)).1.code = 200 ∧
    ((serverController.stopServer Sample.allOk Sample.req
        (Sample.world Sample.running)).2.persisted Sample.req).map
          (fun s => (s.status, s.containerId, s.lastStopped))
      = some (.stopped, some "c1", some 7) := by
  decide

/-- C5 (amended) at a concrete input: a successful stop of the running sample server. -/
theorem C5_stop_success_keeps_containerId_witness :
    (serverController.stopServer Sample.allOk Sample.req
        (Sample.world Sample.running)).2.persisted Sample.req
      = some { Sample.running with status := .stopped, lastStopped := some 7 } :=
  (C5_stop_success_keeps_containerId Sample.allOk Sample.req (Sample.world Sample.running)
    Sample.running (by decide) (by decide)).1

/-! ## C6: stopping twice -/

/-- For a server whose status is `stopped`, `stopServer` answers 400
`Server is already stopped` and leaves the world as it was. -/
theorem serverController.stopServer_stopped (o : Oracle) (req : Request) (w : World)
    (server : Server) (hfound : w.persisted req = some server) (hfind : o.findOne = true)
    (hstopped : server.status = .stopped) :
    serverController.stopServer o req w
      = (Response.failure 400 "Server is already stopped", w) := by
  simp only [World.persisted] at hfound
  simp [serverController.stopServer, serverController.stopServerTry, hfind, hfound, hstopped]

/-- C6 (amended). For every running server, when the first `stopServer` call
succeeds, the status is `stopped` after it, and a second call in a row is
rejected with 400 `Server is already stopped` whatever the runtime would
answer: it writes nothing and sends nothing, so the status is `stopped` after
the second call too.  The second call is a rejection, not a success. -/
theorem C6_second_stop_rejected (o1 o2 : Oracle) (req : Request) (w : World) (server : Server)
    (hfound : w.persisted req = some server) (hrunning : server.status = .running)
    (hfind1 : o1.findOne = true) (hwriteStopping : o1.updateStopping = true)
    (hstop : o1.containerInspect = true → o1.containerStop = true)
    (hwriteStopped : o1.updateStopped = true)
    (hfind2 : o2.findOne = true) :
    (serverController.stopServer o1 req w).1.code = 200 ∧
    ((serverController.stopServer o1 req w).2.persisted req).map (fun s => s.status)
      = some .stopped ∧
    (serverController.stopServer o2 req (serverController.stopServer o1 req w).2).1
      = Response.failure 400 "Server is already stopped" ∧
    (serverController.stopServer o2 req (serverController.stopServer o1 req w).2).2
      = (serverController.stopServer o1 req w).2 ∧
    ((serverController.stopServer o2 req
        (serverController.stopServer o1 req w).2).2.persisted req).map (fun s => s.status)
      = some .stopped := by
  have hgate : server.status ≠ .stopped := by rw [hrunning]; decide
  obtain ⟨hres, hrow⟩ := serverController.stopServer_persisted o1 req w server hfound hfind1
    hgate hwriteStopping hstop hwriteStopped
  have hsecond := serverController.stopServer_stopped o2 req
    (serverController.stopServer o1 req w).2 _ hrow hfind2 rfl
  refine ⟨by rw [hres]; rfl, by rw [hrow]; rfl, by rw [hsecond], by rw [hsecond], ?_⟩
  rw [hsecond, hrow]
  rfl

/-- C6 as stated fails: the second of two stops in a row, made when the
container is already gone, is answered with the 400 error
`Server is already stopped`, not with a success. -/
theorem C6_counterexample :
    (serverController.stopServer Sample.containerGone Sample.req
        (serverController.stopServer Sample.allOk Sample.req (Sample.world Sample.running)).2).1
      = { code := 400, error := some "Server is already stopped", message := none,
          server := none } := by
  decide

/-- C6 (amended) at a concrete input: two stops in a row of the running sample
server, the container being gone at the second. -/
theorem C6_second_stop_rejected_witness :
    (serverController.stopServer Sample.allOk Sample.req (Sample.world Sample.running)).1.code
      = 200 ∧
    (serverController.stopServer Sample.containerGone Sample.req
        (serverController.stopServer Sample.allOk Sample.req (Sample.world Sample.running)).2).1
      = Response.failure 400 "Server is already stopped" :=
  ⟨(C6_second_stop_rejected Sample.allOk Sample.containerGone Sample.req
      (Sample.world Sample.running) Sample.running (by decide) rfl rfl rfl (fun _ => rfl) rfl
      rfl).1,
   (C6_second_stop_rejected Sample.allOk Sample.containerGone Sample.req
      (Sample.world Sample.running) Sample.running (by decide) rfl rfl rfl (fun _ => rfl) rfl
      rfl).2.2.1⟩

/-! ## C7: the status gate of `stopServer` -/

/-- The requests of `stopContainer`: the inspection, followed by the stop
request when the inspection returns. -/
theorem dockerService.stopContainer_requests (o : Oracle) (c : Option String) (w : World) :
    (dockerService.stopContainer o c w).2.log
      = w.log ++ Effect.containerInspect c ::
          (if o.containerInspect then [Effect.containerStop c 10] else []) := by
  unfold dockerService.stopContainer
  cases o.containerInspect
  · rfl
  cases o.containerStop
  · simp [World.emit]
  · simp [World.emit]

/-- Past the status gate, the `try` block of `stopServer` first writes
`stopping` and, when that write is accepted, calls `stopContainer` with the
container id of the record. -/
theorem serverController.stopServerTry_log (o : Oracle) (req : Request) (w : World)
    (server : Server) (hfound : w.persisted req = some server) (hfind : o.findOne = true)
    (hgate : server.status ≠ .stopped) :
    ∃ rest, (serverController.stopServerTry o req w).2.log
        = w.log ++ Effect.dbUpdate server.id { status := some .stopping } :: rest ∧
      (o.updateStopping = true → ∃ rest', rest = Effect.containerInspect server.containerId ::
        ((if o.containerInspect then [Effect.containerStop server.containerId 10] else [])
          ++ rest')) := by
  simp only [World.persisted] at hfound
  unfold serverController.stopServerTry
  rw [if_pos hfind]
  simp only [hfound]
  rw [if_neg hgate]
  have e1 := Server.update_log o.updateStopping server { status := some .stopping } w
  split
  · next w1 h1 =>
    rw [h1] at e1
    refine ⟨[], by simpa using e1, ?_⟩
    intro hok
    rw [Server.update_none h1] at hok
    cases hok
  · next server1 w1 h1 =>
    rw [h1] at e1
    have hc : server1.containerId = server.containerId := by rw [Server.update_some h1]; rfl
    have hr := dockerService.stopContainer_requests o server1.containerId w1
    simp only at e1
    rw [e1, hc] at hr
    split
    · next w2 h2 =>
      rw [hc] at h2
      rw [h2] at hr
      exact ⟨_, by simpa using hr, fun _ => ⟨[], by simp⟩⟩
    · next w2 h2 =>
      rw [hc] at h2
      rw [h2] at hr
      have e3 := Server.update_log o.updateStopped server1
        { status := some .stopped, lastStopped := some o.now } w2
      simp only at hr
      rw [hr] at e3
      split
      · next w3 h3 =>
        rw [h3] at e3
        exact ⟨_, by simpa using e3, fun _ => ⟨[Effect.dbUpdate server1.id
          { status := some .stopped, lastStopped := some o.now }], by simp⟩⟩
      · next server2 w3 h3 =>
        rw [h3] at e3
        exact ⟨_, by simpa using e3, fun _ => ⟨[Effect.dbUpdate server1.id
          { status := some .stopped, lastStopped := some o.now }], by simp⟩⟩

/-- Past the status gate, a response sent from inside the `try` block of
`stopServer` is the success response. -/
theorem serverController.stopServerTry_code (o : Oracle) (req : Request) (w : World)
    (server : Server) (hfound : w.persisted req = some server) (hfind : o.findOne = true)
    (hgate : server.status ≠ .stopped) (res : Response)
    (hres : (serverController.stopServerTry o req w).1 = .ok res) : res.code = 200 := by
  simp only [World.persisted] at hfound
  unfold serverController.stopServerTry at hres
  rw [if_pos hfind] at hres
  simp only [hfound] at hres
  rw [if_neg hgate] at hres
  split at hres
  · cases hres
  · split at hres
    · cases hres
    · split at hres
      · cases hres
      · simp only [Except.ok.injEq] at hres
        rw [← hres]
        rfl

/-- C7 (amended). `stopServer` rejects a call only for status `stopped`: then
it answers 400, writes nothing and sends nothing.  For every other status,
`stopping` included, and whether or not the record has a `containerId`, the
call proceeds: it answers 200 or 500, its first request is the write of
`status: 'stopping'`, and once that write is accepted `stopContainer` is
called with the record's `containerId`, which inspects the container and, when
the inspection returns, sends the stop request. -/
theorem C7_stop_rejects_only_stopped (o : Oracle) (req : Request) (w : World)
    (server : Server) (hfound : w.persisted req = some server) (hfind : o.findOne = true) :
    (server.status = .stopped →
      serverController.stopServer o req w
        = (Response.failure 400 "Server is already stopped", w)) ∧
    (server.status ≠ .stopped →
      ((serverController.stopServer o req w).1.code = 200 ∨
        (serverController.stopServer o req w).1.code = 500) ∧
      (∃ rest, (serverController.stopServer o req w).2.log
        = w.log ++ Effect.dbUpdate server.id { status := some .stopping } :: rest) ∧
      (o.updateStopping = true →
        ∃ rest, (serverController.stopServer o req w).2.log
          = w.log ++ Effect.dbUpdate server.id { status := some .stopping }
              :: Effect.containerInspect server.containerId
              :: ((if o.containerInspect then [Effect.containerStop server.containerId 10]
                    else []) ++ rest))) := by
  constructor
  · exact serverController.stopServer_stopped o req w server hfound hfind
  · intro hgate
    obtain ⟨r, hr, hr2⟩ := serverController.stopServerTry_log o req w server hfound hfind hgate
    have hcode := serverController.stopServerTry_code o req w server hfound hfind hgate
    unfold serverController.stopServer
    split
    · next res w1 h1 =>
      rw [h1] at hr hcode
      refine ⟨Or.inl (hcode res rfl), ⟨r, hr⟩, fun hok => ?_⟩
      obtain ⟨r', hr'⟩ := hr2 hok
      exact ⟨r', by rw [← hr']; exact hr⟩
    · next e w1 h1 =>
      rw [h1] at hr
      obtain ⟨r2, hr3⟩ := serverController.catchBlock_log o req w1
      simp only at hr
      rw [hr] at hr3
      refine ⟨Or.inr rfl, ⟨r ++ r2, by simpa using hr3⟩, fun hok => ?_⟩
      obtain ⟨r', hr'⟩ := hr2 hok
      exact ⟨r' ++ r2, by rw [hr'] at hr3; simpa using hr3⟩

/-- C7 as stated fails.  A stop request for a server in status `error` with
no `containerId` is accepted: `stopping` is written and the call ends with
status `stopped`.  A stop request for a server already in status `stopping` is
accepted as well, and the stop request is sent to the runtime. -/
theorem C7_counterexample :
    ((serverController.stopServer Sample.containerGone Sample.req
        (Sample.world { Sample.fresh with status := .error })).1.code = 200 ∧
      (serverController.stopServer Sample.containerGone Sample.req
        (Sample.world { Sample.fresh with status := .error })).2.log
        = [ .dbUpdate "s1" { status := some .stopping },
            .containerInspect none,
            .dbUpdate "s1" { status := some .stopped, lastStopped := some 7 } ]) ∧
    ((serverController.stopServer Sample.allOk Sample.req
        (Sample.world { Sample.running with status := .stopping })).1.code = 200 ∧
      (serverController.stopServer Sample.allOk Sample.req
        (Sample.world { Sample.running with status := .stopping })).2.log
        = [ .dbUpdate "s1" { status := some .stopping },
            .containerInspect (some "c1"),
            .containerStop (some "c1") 10,
            .dbUpdate "s1" { status := some .stopped, lastStopped := some 7 } ]) := by
  decide

/-- C7 (amended) at concrete inputs: a stop of a new (stopped) server is
rejected, and a stop of a server in status `stopping` proceeds. -/
theorem C7_stop_rejects_only_stopped_witness :
    serverController.stopServer Sample.allOk Sample.req (Sample.world Sample.fresh)
        = (Response.failure 400 "Server is already stopped", Sample.world Sample.fresh) ∧
    (∃ rest, (serverController.stopServer Sample.allOk Sample.req
        (Sample.world { Sample.running with status := .stopping })).2.log
      = [] ++ Effect.dbUpdate "s1" { status := some .stopping }
          :: Effect.containerInspect (some "c1")
          :: ((if Sample.allOk.containerInspect then [Effect.containerStop (some "c1") 10]
                else []) ++ rest)) :=
  ⟨(C7_stop_rejects_only_stopped Sample.allOk Sample.req (Sample.world Sample.fresh)
      Sample.fresh (by decide) rfl).1 rfl,
   ((C7_stop_rejects_only_stopped Sample.allOk Sample.req
      (Sample.world { Sample.running with status := .stopping })
      { Sample.running with status := .stopping } (by decide) rfl).2 (by decide)).2.2 rfl⟩

/-! ## C8: the descriptor invariant -/

/-- The row created by `createServer` is the one later requests for its id find,
when the id was not in use. -/
theorem serverController.createServer_persisted (w : World) (req : Request)
    (body : ServerAttributes) (hnew : w.persisted req = none) :
    (serverController.createServer (some req.serverId) req.userId body w).2.persisted req
      = some (Server.create req.serverId req.userId body) := by
  simp only [World.persisted, Server.findOne] at hnew ⊢
  simp [serverController.createServer, List.find?_append, hnew, Server.create]

/-- A row write of the handlers keeps the property: a `running` record has a
non-empty container id, when the runtime returns non-empty ids. -/
theorem World.running_has_container_write (o : Oracle) (req : Request)
    (hids : ∀ c, o.createContainer = some c → c ≠ "")
    (w : World) (pk : String) (v : ServerValues) (hv : v ∈ writtenValues o)
    (h : ∃ s, w.persisted req = some s ∧ (s.status = .running → truthy s.containerId = true)) :
    ∃ s, World.persisted { w with db := Server.writeRows w.db pk v } req = some s ∧
      (s.status = .running → truthy s.containerId = true) := by
  obtain ⟨s, hs, hinv⟩ := h
  simp only [World.persisted] at hs
  simp only [World.persisted, Server.findOne_writeRows_key, hs, Option.map_some']
  by_cases hk : s.id = pk
  · rw [if_pos hk]
    refine ⟨_, rfl, ?_⟩
    simp only [writtenValues, List.mem_append, List.mem_cons, List.mem_singleton,
      List.not_mem_nil, or_false] at hv
    rcases hv with (hv | hv | hv | hv) | hv
    · subst hv; intro h; cases h
    · subst hv; intro h; cases h
    · subst hv; intro h; cases h
    · subst hv; intro h; cases h
    · cases hc : o.createContainer with
      | none => simp [hc] at hv
      | some c =>
        simp only [hc, List.mem_singleton] at hv
        subst hv
        intro _
        have := hids c hc
        simpa [ServerValues.apply, truthy] using this
  · rw [if_neg hk]
    exact ⟨s, rfl, hinv⟩

/-- C8 (amended). Starting from a newly created server, after any sequence of
`startServer`, `stopServer` and `restartServer` calls, successful or failed,
the record is still persisted and, whenever its status is `running`, its
`containerId` is non-empty (the runtime returning non-empty container ids).
Nothing more of the equivalence holds: a `stopped` record keeps its container
id, and a `starting` or `stopping` record may have none. -/
theorem C8_running_has_container (w : World) (req : Request) (body : ServerAttributes)
    (ops : List (serverController.Op × Oracle))
    (hnew : w.persisted req = none)
    (hids : ∀ p ∈ ops, ∀ c, p.2.createContainer = some c → c ≠ "") :
    ∃ s, (serverController.handleAll req ops
          (serverController.createServer (some req.serverId) req.userId body w).2).persisted req
        = some s ∧
      (s.status = .running → truthy s.containerId = true) := by
  have h0 : ∃ s, (serverController.createServer (some req.serverId) req.userId body
      w).2.persisted req = some s ∧ (s.status = .running → truthy s.containerId = true) :=
    ⟨_, serverController.createServer_persisted w req body hnew, fun h => by cases h⟩
  generalize (serverController.createServer (some req.serverId) req.userId body w).2 = w0 at h0
  induction ops generalizing w0 with
  | nil => exact h0
  | cons p rest ih =>
    obtain ⟨op, o⟩ := p
    simp only [serverController.handleAll]
    apply ih
    · intro q hq
      exact hids q (List.mem_cons_of_mem _ hq)
    · exact @serverController.handle_frame o
        (fun x => ∃ s, x.persisted req = some s ∧
          (s.status = .running → truthy s.containerId = true))
        (fun _ _ hx => hx)
        (fun x pk v hv hx => World.running_has_container_write o req
          (hids (op, o) (List.mem_cons_self _ _)) x pk v hv hx)
        op req w0 h0

/-- C8 as stated fails in both directions.  After a successful start followed
by a successful stop of a newly created server, the status is `stopped` and
the container id is still `c1`.  After a start in which the image build throws
and the lookup of the `catch` block throws too, the status is `starting` and
there is no container id. -/
theorem C8_counterexample :
    ((serverController.handleAll Sample.req [(.start, Sample.allOk), (.stop, Sample.allOk)]
        (serverController.createServer (some "s1") "u1" Sample.body
          { db := [], log := [] }).2).persisted Sample.req).map
          (fun s => (s.status, truthy s.containerId)) = some (.stopped, true) ∧
    ((serverController.handleAll Sample.req
        [(.start, { Sample.buildFails with catchFindOne := false })]
        (serverController.createServer (some "s1") "u1" Sample.body
          { db := [], log := [] }).2).persisted Sample.req).map
          (fun s => (s.status, truthy s.containerId)) = some (.starting, false) := by
  decide

/-- C8 (amended) at a concrete input: a start, a stop and a restart of a
newly created server, every step succeeding. -/
theorem C8_running_has_container_witness :
    ∃ s, (serverController.handleAll Sample.req
          [(.start, Sample.allOk), (.stop, Sample.allOk), (.restart, Sample.allOk)]
          (serverController.createServer (some "s1") "u1" Sample.body
            { db := [], log := [] }).2).persisted Sample.req = some s ∧
      (s.status = .running → truthy s.containerId = true) :=
  C8_running_has_container { db := [], log := [] } Sample.req Sample.body
    [(.start, Sample.allOk), (.stop, Sample.allOk), (.restart, Sample.allOk)] rfl (by decide)

/-! ## C9: `restartServer` against `stopServer` followed by `startServer` -/

/-- The response and the persisted record after a start in which every step succeeds. -/
theorem serverController.startServer_persisted (o : Oracle) (req : Request) (w : World)
    (server : Server) (containerId : String)
    (hfound : w.persisted req = some server) (hfind : o.findOne = true)
    (hgate : server.status ≠ .running)
    (hwriteStarting : o.updateStarting = true)
    (hassemble : o.getContainerConfig = true) (hbuild : o.buildImage = true)
    (hcreate : o.createContainer = some containerId) (hstart : o.containerStart = true)
    (hwriteRunning : o.updateRunning = true) :
    (serverController.startServer o req w).1
      = Response.success "Server started successfully"
          { server with status := .running, containerId := some containerId,
                        lastStarted := some o.now } ∧
    (serverController.startServer o req w).2.persisted req
      = some { server with status := .running, containerId := some containerId,
                           lastStarted := some o.now } := by
  obtain ⟨hid, huid⟩ := Server.findOne_some hfound
  simp only [World.persisted] at hfound
  constructor
  · simp [serverController.startServer, serverController.startServerTry, hfind, hfound, hgate,
      hwriteStarting, hassemble, hbuild, hcreate, hstart, hwriteRunning, Server.update,
      dockerService.startServer, World.emit, ServerValues.apply]
  · simp [serverController.startServer, serverController.startServerTry, hfind, hfound, hgate,
      hwriteStarting, hassemble, hbuild, hcreate, hstart, hwriteRunning, Server.update,
      dockerService.startServer, World.emit, ServerValues.apply, World.persisted, hid,
      Server.findOne_writeRows]

/-- The response and the persisted record after a restart in which every step succeeds. -/
theorem serverController.restartServer_persisted (o : Oracle) (req : Request) (w : World)
    (server : Server) (containerId : String)
    (hfound : w.persisted req = some server) (hfind : o.findOne = true)
    (hwriteStopping : o.updateStopping = true)
    (hstop : o.containerInspect = true → o.containerStop = true)
    (hwriteStarting : o.updateStarting = true)
    (hassemble : o.getContainerConfig = true) (hbuild : o.buildImage = true)
    (hcreate : o.createContainer = some containerId) (hstart : o.containerStart = true)
    (hwriteRunning : o.updateRunning = true) :
    (serverController.restartServer o req w).1
      = Response.success "Server restarted successfully"
          { server with status := .running, containerId := some containerId,
                        lastStarted := some o.now } ∧
    (serverController.restartServer o req w).2.persisted req
      = some { server with status := .running, containerId := some containerId,
                           lastStarted := some o.now } := by
  obtain ⟨hid, huid⟩ := Server.findOne_some hfound
  simp only [World.persisted] at hfound
  have hc : (ServerValues.apply { status := some Status.stopping } server).containerId
      = server.containerId := rfl
  cases h0 : truthy server.containerId <;> cases hi : o.containerInspect <;>
    simp [serverController.restartServer, serverController.restartServerTry, hfind, hfound,
      hwriteStopping, hwriteStarting, hassemble, hbuild, hcreate, hstart, hwriteRunning,
      Server.update, dockerService.startServer, dockerService.stopContainer, World.emit,
      ServerValues.apply, World.persisted, hid, Server.findOne_writeRows, h0, hi, hstop]

/-- When the `try` block of `startServer` raises and the `catch` block's lookup
and update succeed, the handler answers 500 and the status is `error`. -/
theorem serverController.startServer_error (o : Oracle) (req : Request) (w : World)
    (hsome : (w.persisted req).isSome = true)
    (herr : (serverController.startServerTry o req w).1 = .error ())
    (hcatchFind : o.catchFindOne = true) (hcatchUpdate : o.catchUpdate = true) :
    (serverController.startServer o req w).1 = Response.failure 500 "Failed to start server" ∧
    ((serverController.startServer o req w).2.persisted req).map (fun s => s.status)
      = some .error := by
  have hk := serverController.startServerTry_keeps o req w hsome
  unfold serverController.startServer
  split
  · next res w1 h1 => rw [h1] at herr; cases herr
  · next e w1 h1 =>
    rw [h1] at hk
    exact ⟨rfl, serverController.catchBlock_status o req w1 hk hcatchFind hcatchUpdate⟩

/-- When the `try` block of `restartServer` raises and the `catch` block's
lookup and update succeed, the handler answers 500 and the status is `error`. -/
theorem serverController.restartServer_error (o : Oracle) (req : Request) (w : World)
    (hsome : (w.persisted req).isSome = true)
    (herr : (serverController.restartServerTry o req w).1 = .error ())
    (hcatchFind : o.catchFindOne = true) (hcatchUpdate : o.catchUpdate = true) :
    (serverController.restartServer o req w).1
      = Response.failure 500 "Failed to restart server" ∧
    ((serverController.restartServer o req w).2.persisted req).map (fun s => s.status)
      = some .error := by
  have hk := serverController.restartServerTry_keeps o req w hsome
  unfold serverController.restartServer
  split
  · next res w1 h1 => rw [h1] at herr; cases herr
  · next e w1 h1 =>
    rw [h1] at hk
    exact ⟨rfl, serverController.catchBlock_status o req w1 hk hcatchFind hcatchUpdate⟩

/-- C9 (amended). `restartServer` is not the composition of the two handlers:
it has no status gate, it writes neither `stopped` nor `lastStopped`, and a
failure of its stop half ends the call.  What holds, for a server that is not
`stopped` and a stop half that succeeds: when every step of the start half
succeeds too, both `restartServer` and `stopServer` followed by `startServer`
answer 200 and persist status `running`, the new container id and
`lastStarted`, and they differ in `lastStopped`, which `restartServer` leaves
as it was and the composition sets; when a step of the start half throws, both
answer 500 and the final status is `error`. -/
theorem C9_restart_against_stop_then_start (o : Oracle) (req : Request) (w : World)
    (server : Server) (containerId : String)
    (hfound : w.persisted req = some server) (hfind : o.findOne = true)
    (hgate : server.status ≠ .stopped)
    (hwriteStopping : o.updateStopping = true)
    (hstop : o.containerInspect = true → o.containerStop = true)
    (hwriteStopped : o.updateStopped = true) :
    ((o.updateStarting = true ∧ o.getContainerConfig = true ∧ o.buildImage = true ∧
        o.createContainer = some containerId ∧ o.containerStart = true ∧
        o.updateRunning = true) →
      (serverController.restartServer o req w).1.code = 200 ∧
      (serverController.stopThenStart o o req w).1.1.code = 200 ∧
      (serverController.stopThenStart o o req w).1.2.code = 200 ∧
      (serverController.restartServer o req w).2.persisted req
        = some { server with status := .running, containerId := some containerId,
                             lastStarted := some o.now } ∧
      (serverController.stopThenStart o o req w).2.persisted req
        = some { server with status := .running, containerId := some containerId,
                             lastStarted := some o.now, lastStopped := some o.now }) ∧
    (((o.updateStarting = false ∨ o.getContainerConfig = false ∨ o.buildImage = false ∨
        o.createContainer = none ∨ o.containerStart = false ∨ o.updateRunning = false) ∧
        o.catchFindOne = true ∧ o.catchUpdate = true) →
      (serverController.restartServer o req w).1
        = Response.failure 500 "Failed to restart server" ∧
      ((serverController.restartServer o req w).2.persisted req).map (fun s => s.status)
        = some .error ∧
      (serverController.stopThenStart o o req w).1.1.code = 200 ∧
      (serverController.stopThenStart o o req w).1.2
        = Response.failure 500 "Failed to start server" ∧
      ((serverController.stopThenStart o o req w).2.persisted req).map (fun s => s.status)
        = some .error) := by
  obtain ⟨hres1, hrow1⟩ := serverController.stopServer_persisted o req w server hfound hfind
    hgate hwriteStopping hstop hwriteStopped
  have hsome : (w.persisted req).isSome = true := by rw [hfound]; rfl
  have hsome1 : ((serverController.stopServer o req w).2.persisted req).isSome = true := by
    rw [hrow1]; rfl
  constructor
  · rintro ⟨h1, h2, h3, h4, h5, h6⟩
    obtain ⟨hr, hrow⟩ := serverController.restartServer_persisted o req w server containerId
      hfound hfind hwriteStopping hstop h1 h2 h3 h4 h5 h6
    obtain ⟨hs, hrow2⟩ := serverController.startServer_persisted o req
      (serverController.stopServer o req w).2 _ containerId hrow1 hfind (by intro h; cases h)
      h1 h2 h3 h4 h5 h6
    refine ⟨by rw [hr]; rfl, ?_, ?_, hrow, ?_⟩
    · simp only [serverController.stopThenStart]
      rw [hres1]; rfl
    · simp only [serverController.stopThenStart]
      rw [hs]; rfl
    · simp only [serverController.stopThenStart]
      rw [hrow2]
  · rintro ⟨hthrow, hc1, hc2⟩
    have herr := serverController.restartServerTry_throws o req w server hfound hfind
      (Or.inr (Or.inr hthrow))
    obtain ⟨hr, hst⟩ := serverController.restartServer_error o req w hsome herr hc1 hc2
    have herr2 := serverController.startServerTry_throws o req
      (serverController.stopServer o req w).2 _ hrow1 hfind (by intro h; cases h) hthrow
    obtain ⟨hr2, hst2⟩ := serverController.startServer_error o req
      (serverController.stopServer o req w).2 hsome1 herr2 hc1 hc2
    refine ⟨hr, hst, ?_, ?_, ?_⟩
    · simp only [serverController.stopThenStart]
      rw [hres1]; rfl
    · simp only [serverController.stopThenStart]
      exact hr2
    · simp only [serverController.stopThenStart]
      exact hst2

/-- C9 as stated fails.  On the running sample server with every step
succeeding, `restartServer` leaves `lastStopped` unset while `stopServer`
followed by `startServer` sets it.  When the container stop throws,
`restartServer` ends in status `error` while the composition, whose
`startServer` accepts a server in status `error`, ends in status `running`. -/
theorem C9_counterexample :
    (((serverController.restartServer Sample.allOk Sample.req
          (Sample.world Sample.running)).2.persisted Sample.req).map (fun s => s.lastStopped)
        = some none ∧
      ((serverController.stopThenStart Sample.allOk Sample.allOk Sample.req
          (Sample.world Sample.running)).2.persisted Sample.req).map (fun s => s.lastStopped)
        = some (some 7)) ∧
    (((serverController.restartServer Sample.stopFails Sample.req
          (Sample.world Sample.running)).2.persisted Sample.req).map (fun s => s.status)
        = some .error ∧
      ((serverController.stopThenStart Sample.stopFails Sample.stopFails Sample.req
          (Sample.world Sample.running)).2.persisted Sample.req).map (fun s => s.status)
        = some .running) := by
  decide

/-- C9 (amended) at concrete inputs: a restart of the running sample server
with every step succeeding, and one in which the image build throws. -/
theorem C9_restart_against_stop_then_start_witness :
    ((serverController.restartServer Sample.allOk Sample.req
          (Sample.world Sample.running)).2.persisted Sample.req
        = some { Sample.running with status := .running, containerId := some "c1",
                                     lastStarted := some 7 } ∧
      (serverController.stopThenStart Sample.allOk Sample.allOk Sample.req
          (Sample.world Sample.running)).2.persisted Sample.req
        = some { Sample.running with status := .running, containerId := some "c1",
                                     lastStarted := some 7, lastStopped := some 7 }) ∧
    (((serverController.restartServer Sample.buildFails Sample.req
          (Sample.world Sample.running)).2.persisted Sample.req).map (fun s => s.status)
        = some .error ∧
      ((serverController.stopThenStart Sample.buildFails Sample.buildFails Sample.req
          (Sample.world Sample.running)).2.persisted Sample.req).map (fun s => s.status)
        = some .error) :=
  ⟨⟨((C9_restart_against_stop_then_start Sample.allOk Sample.req (Sample.world Sample.running)
        Sample.running "c1" (by decide) rfl (by decide) rfl (fun _ => rfl) rfl).1
        ⟨rfl, rfl, rfl, rfl, rfl, rfl⟩).2.2.2.1,
     ((C9_restart_against_stop_then_start Sample.allOk Sample.req (Sample.world Sample.running)
        Sample.running "c1" (by decide) rfl (by decide) rfl (fun _ => rfl) rfl).1
        ⟨rfl, rfl, rfl, rfl, rfl, rfl⟩).2.2.2.2⟩,
   ⟨((C9_restart_against_stop_then_start Sample.buildFails Sample.req
        (Sample.world Sample.running) Sample.running "c1" (by decide) rfl (by decide) rfl
        (fun _ => rfl) rfl).2 ⟨by decide, rfl, rfl⟩).2.1,
     ((C9_restart_against_stop_then_start Sample.buildFails Sample.req
        (Sample.world Sample.running) Sample.running "c1" (by decide) rfl (by decide) rfl
        (fun _ => rfl) rfl).2 ⟨by decide, rfl, rfl⟩).2.2.2.2⟩⟩

/-! ## C14: restoring onto a running server -/

/-- C14. For every backup whose server has status `running`,
`backupController.restoreBackup` answers the 400 failure
`Server must be stopped before restoring a backup` and leaves the world as it
was: `backupService.restoreBackup` is not reached, no command is run and the
file system, the server's directory included, is the one before the call. -/
theorem C14_restore_running_refused (o : BackupOracle) (req : backupController.RestoreRequest)
    (w : World) (backup : Backup) (server : Server)
    (hbackup : Backup.findByPk w.backups req.backupId = some backup)
    (hserver : Server.findOne w.db backup.serverId req.userId = some server)
    (hfindBackup : o.backupFindByPk = true) (hfindServer : o.serverFindOne = true)
    (hrunning : server.status = .running) :
    backupController.restoreBackup o req w
      = (backupController.Response.failure 400
          "Server must be stopped before restoring a backup", w) ∧
    (backupController.restoreBackup o req w).2.fs = w.fs ∧
    (backupController.restoreBackup o req w).2.log = w.log := by
  have h : backupController.restoreBackup o req w
      = (backupController.Response.failure 400
          "Server must be stopped before restoring a backup", w) := by
    simp [backupController.restoreBackup, backupController.restoreBackupTry, hbackup, hserver,
      hfindBackup, hfindServer, hrunning]
  rw [h]
  exact ⟨rfl, rfl, rfl⟩

/-- C14 at a concrete input: a restore of backup `b1` while server `s1` is running. -/
theorem C14_restore_running_refused_witness :
    backupController.restoreBackup Sample.backupOk { backupId := "b1", userId := "u1" }
        { Sample.backedUp with db := [Sample.running] }
      = (backupController.Response.failure 400
          "Server must be stopped before restoring a backup",
         { Sample.backedUp with db := [Sample.running] }) :=
  (C14_restore_running_refused Sample.backupOk { backupId := "b1", userId := "u1" }
    { Sample.backedUp with db := [Sample.running] } (Sample.record "b1" 10) Sample.running
    (by decide) (by decide) rfl rfl rfl).1

/-! ## C19: statistics of a server that is not running -/

/-- C19. For every server whose status is not `running` (`stopped`,
`starting`, `stopping` or `error`), `getServerStats` answers the 400 error
`Server is not running` with no snapshot, and the world is the one before the
call: `dockerService.getContainerStats` is not called and no request reaches
the runtime. -/
theorem C19_stats_require_running {N : Type} (A : JsArith N) (o : Oracle)
    (sample : Option (ContainerStats N)) (req : Request) (w : World) (server : Server)
    (hfound : w.persisted req = some server) (hfind : o.findOne = true)
    (hstatus : server.status ≠ .running) :
    serverController.getServerStats A o sample req w
      = ({ code := 400, error := some "Server is not running", stats := none }, w) := by
  simp only [World.persisted] at hfound
  simp [serverController.getServerStats, hfind, hfound, hstatus]

/-- C19 at a concrete input: statistics asked for the stopped sample server. -/
theorem C19_stats_require_running_witness :
    serverController.getServerStats JsNumber.arith Sample.allOk (some Sample.stats) Sample.req
        (Sample.world Sample.fresh)
      = ({ code := 400, error := some "Server is not running", stats := none },
         Sample.world Sample.fresh) :=
  C19_stats_require_running JsNumber.arith Sample.allOk (some Sample.stats) Sample.req
    (Sample.world Sample.fresh) Sample.fresh (by decide) rfl (by decide)

/-! ## C20: the CPU percent of a snapshot -/

/-- C20. For every runtime sample, those with a non-zero system CPU delta in
particular, the CPU percent of the snapshot is the two-digit `toFixed` text of
`((total_usage - previous total_usage) / (system_cpu_usage - previous
system_cpu_usage)) * n * 100`, where `n` is the number of entries of
`percpu_usage` when that list is present and 1 otherwise; the `usage` and
`percent` CPU fields are equal; and `getContainerStats` returns that snapshot
whenever the runtime answers.  This holds in every arithmetic. -/
theorem C20_cpu_percent {N : Type} (A : JsArith N) (now : Nat) (stats : ContainerStats N)
    (containerId : Option String) (w : World) :
    (dockerService.statsOf A now stats).cpu.percent
      = A.toFixed
          (A.mul
            (A.mul
              (A.div
                (A.sub stats.cpu_stats.cpu_usage.total_usage
                  stats.precpu_stats.cpu_usage.total_usage)
                (A.sub stats.cpu_stats.system_cpu_usage stats.precpu_stats.system_cpu_usage))
              (A.ofNat (match stats.cpu_stats.cpu_usage.percpu_usage with
                | some percpu => percpu.length
                | none => 1)))
            (A.ofNat 100)) 2 ∧
    (dockerService.statsOf A now stats).cpu.usage
      = (dockerService.statsOf A now stats).cpu.percent ∧
    (dockerService.getContainerStats A now (some stats) containerId w).1
      = .ok (dockerService.statsOf A now stats) := by
  refine ⟨?_, rfl, rfl⟩
  cases h : stats.cpu_stats.cpu_usage.percpu_usage <;> simp [dockerService.statsOf, h]

/-- C20 at a concrete input, in exact arithmetic: 200 units of CPU time out of
a system delta of 1000 on two cores render as `40.00`. -/
theorem C20_cpu_percent_witness :
    JsNumber.arith.sub Sample.stats.cpu_stats.system_cpu_usage
        Sample.stats.precpu_stats.system_cpu_usage ≠ JsNumber.arith.ofNat 0 ∧
    (dockerService.statsOf JsNumber.arith 7 Sample.stats).cpu.percent
      = JsNumber.toFixed (JsNumber.mul (JsNumber.mul
          (JsNumber.div (JsNumber.sub (.finite 400) (.finite 200))
            (JsNumber.sub (.finite 2000) (.finite 1000))) (.finite 2)) (.finite 100)) 2 ∧
    (dockerService.statsOf JsNumber.arith 7 Sample.stats).cpu
      = { usage := "40.00", percent := "40.00" } :=
  ⟨by decide!,
   (C20_cpu_percent JsNumber.arith 7 Sample.stats (some "c1")
      (Sample.world Sample.running)).1,
   by decide!⟩

/-! ## Facts about the file system -/

theorem pathJoin_ne_empty (a b : String) (rest : List String) :
    pathJoin (a :: b :: rest) ≠ "" := by
  intro h
  have hl := congrArg String.length h
  have h1 : "/".length = 1 := rfl
  simp [pathJoin, String.length_append, h1] at hl

theorem FileSystem.serverDir_ne_empty (fs : FileSystem) (serverId : String) :
    fs.serverDir serverId ≠ "" :=
  pathJoin_ne_empty _ _ _

/-- The log after an `exec`: the command is recorded, whatever its outcome. -/
theorem backupService.exec_log (o : BackupOracle) (c : ShellCommand) (w : World) :
    (backupService.exec o c w).2.log = w.log ++ [.exec c] := by
  unfold backupService.exec
  cases c with
  | tarCreate p d =>
    simp only
    split <;> rfl
  | rmContents d =>
    simp only
    split
    · split <;> rfl
    · rfl
  | tarExtract p d =>
    simp only
    split
    · split <;> rfl
    · rfl

/-- The log after `mkdirSync`. -/
theorem backupService.mkdirSync_log (o : BackupOracle) (p : String) (w : World) :
    (backupService.mkdirSync o p w).2.log = w.log ++ [.mkdir p] := by
  unfold backupService.mkdirSync
  simp only
  split <;> rfl

/-- The command `rm -rf` throws exactly when the oracle says so. -/
theorem backupService.exec_rmContents_result (o : BackupOracle) (d : String) (w : World) :
    (backupService.exec o (.rmContents d) w).1
      = if o.rmContents d then .ok () else .error () := by
  unfold backupService.exec
  simp only
  split
  · split <;> rfl
  · rfl

/-- The call `mkdirSync` throws exactly when the oracle says so. -/
theorem backupService.mkdirSync_result (o : BackupOracle) (p : String) (w : World) :
    (backupService.mkdirSync o p w).1 = if o.mkdir p then .ok () else .error () := by
  unfold backupService.mkdirSync
  simp only
  split <;> rfl

/-! ## C15: `restoreBackup` checks the archive before touching the directory -/

/-- C15. The service's `restoreBackup` checks the archive first.  When no file
exists at `backup.filePath` it throws and the world is the one before the
call: the server directory is not created, not cleared and not extracted
into.  When the file exists, the requests are, in this order: the creation of
the server directory when it is missing, then `rm -rf` on its contents, then,
once that command has succeeded, `tar -xzf` of the archive into it. -/
theorem C15_restore_checks_archive_first (o : BackupOracle) (server : Server) (backup : Backup)
    (w : World) :
    (w.fs.existsSync backup.filePath = false →
      backupService.restoreBackup o server backup w = (.error (), w)) ∧
    (w.fs.existsSync backup.filePath = true →
      (backupService.restoreBackup o server backup w).2.log
        = w.log ++
          (if w.fs.existsSync (w.fs.serverDir server.id) then []
            else [Effect.mkdir (w.fs.serverDir server.id)]) ++
          (if w.fs.existsSync (w.fs.serverDir server.id) || o.mkdir (w.fs.serverDir server.id)
            then
              Effect.exec (.rmContents (w.fs.serverDir server.id)) ::
                (if o.rmContents (w.fs.serverDir server.id) then
                  [Effect.exec (.tarExtract backup.filePath (w.fs.serverDir server.id))]
                else [])
            else [])) := by
  constructor
  · intro h
    simp [backupService.restoreBackup, h]
  · intro h
    unfold backupService.restoreBackup
    simp only [h, Bool.not_true, Bool.false_eq_true, if_false]
    cases hd : w.fs.existsSync (w.fs.serverDir server.id)
    · simp only [Bool.not_false, if_true, Bool.false_or]
      have hm := backupService.mkdirSync_result o (w.fs.serverDir server.id) w
      have hml := backupService.mkdirSync_log o (w.fs.serverDir server.id) w
      split
      · next e w1 h1 =>
        rw [h1] at hm hml
        cases hmk : o.mkdir (w.fs.serverDir server.id)
        · simpa using hml
        · simp [hmk] at hm
      · next u w1 h1 =>
        rw [h1] at hm hml
        cases hmk : o.mkdir (w.fs.serverDir server.id)
        · simp [hmk] at hm
        · simp only [if_true]
          have hr := backupService.exec_rmContents_result o (w.fs.serverDir server.id) w1
          have hrl := backupService.exec_log o (.rmContents (w.fs.serverDir server.id)) w1
          split
          · next e w2 h2 =>
            rw [h2] at hr hrl
            cases hrm : o.rmContents (w.fs.serverDir server.id)
            · simp only at hrl hml
              simp [hrl, hml]
            · simp [hrm] at hr
          · next u2 w2 h2 =>
            rw [h2] at hr hrl
            cases hrm : o.rmContents (w.fs.serverDir server.id)
            · simp [hrm] at hr
            · have hxl := backupService.exec_log o
                (.tarExtract backup.filePath (w.fs.serverDir server.id)) w2
              simp only at hrl hml
              split
              · next e w3 h3 => rw [h3] at hxl; simp only at hxl; simp [hxl, hrl, hml]
              · next u3 w3 h3 => rw [h3] at hxl; simp only at hxl; simp [hxl, hrl, hml]
    · simp only [Bool.not_true, Bool.false_eq_true, if_false, Bool.true_or, if_true,
        List.append_nil]
      have hr := backupService.exec_rmContents_result o (w.fs.serverDir server.id) w
      have hrl := backupService.exec_log o (.rmContents (w.fs.serverDir server.id)) w
      split
      · next e w2 h2 =>
        rw [h2] at hr hrl
        cases hrm : o.rmContents (w.fs.serverDir server.id)
        · simp only at hrl
          simp [hrl]
        · simp [hrm] at hr
      · next u2 w2 h2 =>
        rw [h2] at hr hrl
        cases hrm : o.rmContents (w.fs.serverDir server.id)
        · simp [hrm] at hr
        · have hxl := backupService.exec_log o
            (.tarExtract backup.filePath (w.fs.serverDir server.id)) w2
          simp only at hrl
          split
          · next e w3 h3 => rw [h3] at hxl; simp only at hxl; simp [hxl, hrl]
          · next u3 w3 h3 => rw [h3] at hxl; simp only at hxl; simp [hxl, hrl]

/-! ## Facts about trees and lookups -/

/-- Looking a directory up after its tree was replaced. -/
theorem FileSystem.tree_setTree (fs : FileSystem) (dir : String) (t : Tree) :
    (fs.setTree dir t).tree dir = (fs.tree dir).map (fun _ => t) := by
  unfold FileSystem.setTree FileSystem.tree
  simp only
  induction fs.dirs with
  | nil => rfl
  | cons x xs ih =>
    obtain ⟨a, b⟩ := x
    simp only [List.map_cons, List.lookup_cons]
    by_cases ha : a = dir
    · simp [ha]
    · have hk : (dir == a) = false := by simpa using fun h => ha h.symm
      simp only [if_neg ha, List.lookup_cons, hk]
      exact ih

/-- An entry of a tree is found when its path is looked up. -/
theorem Tree.lookup_isSome_of_mem (t : Tree) (e : String × Item) (he : e ∈ t) :
    (t.lookup e.1).isSome = true := by
  cases h : t.lookup e.1 with
  | some v => rfl
  | none =>
    rw [List.lookup_eq_none_iff] at h
    have := h e he
    simp at this

/-- Extracting an archive of a tree over what `rm -rf "dir/"*` left of that
tree gives back, at every path, the entry the tree had there. -/
theorem Tree.extract_clearVisible_lookup (t : Tree) (p : String) :
    (Tree.extract t t.clearVisible).lookup p = t.lookup p := by
  unfold Tree.extract
  have hnil : (Tree.clearVisible t).filter (fun e => (List.lookup e.1 t).isNone) = [] := by
    rw [List.filter_eq_nil_iff]
    intro e he
    have hmem : e ∈ t := (List.mem_filter.mp he).1
    have := Tree.lookup_isSome_of_mem t e hmem
    cases hh : List.lookup e.1 t
    · rw [hh] at this; cases this
    · simp
  rw [hnil, List.append_nil]

/-! ## A successful archive -/

/-- The result and the world of the service's `createBackup` when the backups
root exists or can be created, the server directory exists and `tar` succeeds:
the archive path and size are returned, the archive holds the tree of the
server directory, and that tree, the rows and the working directory are as
before. -/
theorem backupService.createBackup_ok (o : BackupOracle) (server : Server) (backupId : String)
    (w : World) (t : Tree) (size : Nat)
    (htree : w.fs.tree (w.fs.serverDir server.id) = some t)
    (hroot : w.fs.existsSync w.fs.backupDir = true ∨ o.mkdir w.fs.backupDir = true)
    (htar : o.tarCreate (backupService.archivePath w.fs o server backupId) = some size) :
    (backupService.createBackup o server backupId w).1
      = .ok { filePath := backupService.archivePath w.fs o server backupId, size := size } ∧
    (backupService.createBackup o server backupId w).2.fs.tree (w.fs.serverDir server.id)
      = some t ∧
    (backupService.createBackup o server backupId w).2.fs.files.lookup
        (backupService.archivePath w.fs o server backupId)
      = some { entries := t, size := size } ∧
    (backupService.createBackup o server backupId w).2.fs.cwd = w.fs.cwd ∧
    (backupService.createBackup o server backupId w).2.backups = w.backups ∧
    (backupService.createBackup o server backupId w).2.db = w.db ∧
    (backupService.createBackup o server backupId w).2.log
      = w.log ++ (if w.fs.existsSync w.fs.backupDir then [] else [Effect.mkdir w.fs.backupDir])
          ++ [Effect.exec (.tarCreate (backupService.archivePath w.fs o server backupId)
                (w.fs.serverDir server.id))] := by
  unfold FileSystem.tree at htree
  cases hex : w.fs.existsSync w.fs.backupDir
  · have hmk : o.mkdir w.fs.backupDir = true := by
      rcases hroot with h | h
      · rw [hex] at h; cases h
      · exact h
    have hnone : (w.fs.dirs.lookup w.fs.backupDir).isSome = false := by
      have hne : w.fs.backupDir ≠ "" := pathJoin_ne_empty _ _ _
      simp only [FileSystem.existsSync, Bool.and_eq_false_imp, bne_iff_ne, ne_eq,
        Bool.or_eq_false_iff] at hex
      exact (hex hne).1
    have htree2 : (w.fs.dirs ++ [(w.fs.backupDir, [])]).lookup (w.fs.serverDir server.id)
        = some t := by
      rw [List.lookup_append, htree]; rfl
    simp only [backupService.archivePath, FileSystem.backupDir, FileSystem.serverDir] at *
    simp [backupService.createBackup, backupService.ensureBackupDir, hex,
      backupService.mkdirSync, hmk, World.emit, FileSystem.mkdirSync, hnone,
      backupService.exec, htar, FileSystem.tree, htree2, FileSystem.writeArchive,
      FileSystem.statSize, FileSystem.backupDir, FileSystem.serverDir]
  · simp only [backupService.archivePath, FileSystem.backupDir, FileSystem.serverDir] at *
    simp [backupService.createBackup, backupService.ensureBackupDir, hex,
      World.emit, backupService.exec, htar, FileSystem.tree, htree, FileSystem.writeArchive,
      FileSystem.statSize, FileSystem.backupDir, FileSystem.serverDir]

/-- The result and the world of the service's `restoreBackup` when the archive
exists, the server directory exists and both commands succeed: the tree of the
directory is what `rm -rf "dir/"*` left of it, overwritten with the entries of
the archive. -/
theorem backupService.restoreBackup_ok (o : BackupOracle) (server : Server) (backup : Backup)
    (w : World) (a : Archive) (t : Tree)
    (hfile : w.fs.files.lookup backup.filePath = some a) (hpath : backup.filePath ≠ "")
    (htree : w.fs.tree (w.fs.serverDir server.id) = some t)
    (hrm : o.rmContents (w.fs.serverDir server.id) = true)
    (hextract : o.tarExtract backup.filePath = true) :
    (backupService.restoreBackup o server backup w).1 = .ok true ∧
    (backupService.restoreBackup o server backup w).2.fs.tree (w.fs.serverDir server.id)
      = some (Tree.extract a.entries t.clearVisible) ∧
    (backupService.restoreBackup o server backup w).2.log
      = w.log ++ [Effect.exec (.rmContents (w.fs.serverDir server.id)),
          Effect.exec (.tarExtract backup.filePath (w.fs.serverDir server.id))] := by
  have hex : w.fs.existsSync backup.filePath = true := by
    simp [FileSystem.existsSync, hpath, hfile]
  have hdir : w.fs.existsSync (w.fs.serverDir server.id) = true := by
    unfold FileSystem.tree at htree
    simp [FileSystem.existsSync, FileSystem.serverDir_ne_empty, htree]
  have h1 : (w.fs.setTree (w.fs.serverDir server.id) t.clearVisible).tree
      (w.fs.serverDir server.id) = some t.clearVisible := by
    rw [FileSystem.tree_setTree, htree]; rfl
  have h2 : ((w.fs.setTree (w.fs.serverDir server.id) t.clearVisible).setTree
      (w.fs.serverDir server.id) (Tree.extract a.entries t.clearVisible)).tree
      (w.fs.serverDir server.id) = some (Tree.extract a.entries t.clearVisible) := by
    rw [FileSystem.tree_setTree, h1]; rfl
  have h3 : (w.fs.setTree (w.fs.serverDir server.id) t.clearVisible).files = w.fs.files := rfl
  simp [backupService.restoreBackup, hex, hdir, backupService.exec, World.emit, hrm, htree,
    hextract, h1, h2, h3, hfile]

/-! ## C16: the round trip -/

/-- C16. Round trip.  For every tree of a server's persistent directory (any
files and subdirectories, names beginning with a dot included), when the
commands succeed, `createBackup` returns the archive and `restoreBackup` of
that archive, run on the world `createBackup` left, returns `true` and leaves
the directory with, at every path, the entry it had before `createBackup`: the
same file set and the same contents. -/
theorem C16_backup_restore_round_trip (oCreate oRestore : BackupOracle) (server : Server)
    (backupId : String) (backup : Backup) (w : World) (t : Tree) (size : Nat)
    (htree : w.fs.tree (w.fs.serverDir server.id) = some t)
    (hroot : w.fs.existsSync w.fs.backupDir = true ∨ oCreate.mkdir w.fs.backupDir = true)
    (htar : oCreate.tarCreate (backupService.archivePath w.fs oCreate server backupId)
      = some size)
    (hbackup : backup.filePath = backupService.archivePath w.fs oCreate server backupId)
    (hrm : oRestore.rmContents (w.fs.serverDir server.id) = true)
    (hextract : oRestore.tarExtract backup.filePath = true) :
    (backupService.createBackup oCreate server backupId w).1
      = .ok { filePath := backup.filePath, size := size } ∧
    (backupService.restoreBackup oRestore server backup
      (backupService.createBackup oCreate server backupId w).2).1 = .ok true ∧
    ∃ t2, (backupService.restoreBackup oRestore server backup
        (backupService.createBackup oCreate server backupId w).2).2.fs.tree
          (w.fs.serverDir server.id) = some t2 ∧
      ∀ p, t2.lookup p = t.lookup p := by
  obtain ⟨hres, htree1, hfile1, hcwd, -, -, -⟩ :=
    backupService.createBackup_ok oCreate server backupId w t size htree hroot htar
  have hdir : (backupService.createBackup oCreate server backupId w).2.fs.serverDir server.id
      = w.fs.serverDir server.id := by
    simp only [FileSystem.serverDir, hcwd]
  have hne : backup.filePath ≠ "" := by
    rw [hbackup]; exact pathJoin_ne_empty _ _ _
  rw [← hbackup] at hfile1 hres
  rw [← hdir] at htree1 hrm
  obtain ⟨hr, htree2, -⟩ := backupService.restoreBackup_ok oRestore server backup
    (backupService.createBackup oCreate server backupId w).2 _ t hfile1 hne htree1 hrm hextract
  rw [hdir] at htree2
  exact ⟨hres, hr, _, htree2, Tree.extract_clearVisible_lookup t⟩

/-- C16 at a concrete input: the sample tree, with its hidden file `.env`, is
archived and restored; the directory holds the same three entries. -/
theorem C16_backup_restore_round_trip_witness :
    ∃ t2, (backupService.restoreBackup Sample.backupOk Sample.fresh
        { Sample.record "b9" 40 with
          filePath := "/app/data/backups/alpha-2024-01-02T03-04-05-678Z-b9.tar.gz" }
        (backupService.createBackup Sample.backupOk Sample.fresh "b9"
          { db := [Sample.fresh], log := [], fs := Sample.disk }).2).2.fs.tree
          "/app/data/servers/s1" = some t2 ∧
      ∀ p, t2.lookup p = Sample.tree.lookup p :=
  (C16_backup_restore_round_trip Sample.backupOk Sample.backupOk Sample.fresh "b9"
    { Sample.record "b9" 40 with
      filePath := "/app/data/backups/alpha-2024-01-02T03-04-05-678Z-b9.tar.gz" }
    { db := [Sample.fresh], log := [], fs := Sample.disk } Sample.tree 2048
    (by decide) (Or.inr rfl) rfl (by decide) rfl rfl).2.2

/-- C15 at concrete inputs: a restore of a record whose archive is gone throws
and changes nothing; a restore of backup `b1` clears the directory and then
extracts the archive. -/
theorem C15_restore_checks_archive_first_witness :
    backupService.restoreBackup Sample.backupOk Sample.fresh
        { Sample.record "b1" 10 with filePath := "/app/data/backups/gone.tar.gz" }
        Sample.backedUp = (.error (), Sample.backedUp) ∧
    (backupService.restoreBackup Sample.backupOk Sample.fresh (Sample.record "b1" 10)
        Sample.backedUp).2.log
      = [ Effect.exec (.rmContents "/app/data/servers/s1"),
          Effect.exec (.tarExtract "/app/data/backups/b1.tar.gz" "/app/data/servers/s1") ] :=
  ⟨(C15_restore_checks_archive_first Sample.backupOk Sample.fresh
      { Sample.record "b1" 10 with filePath := "/app/data/backups/gone.tar.gz" }
      Sample.backedUp).1 (by decide),
   (C15_restore_checks_archive_first Sample.backupOk Sample.fresh (Sample.record "b1" 10)
      Sample.backedUp).2 (by decide)⟩

/-! ## Facts about the `Backup` rows -/

/-- A pair whose first component is known. -/
theorem pair_of_fst {α β : Type} {p : α × β} {a : α} (h : p.1 = a) : p = (a, p.2) := by
  cases p
  cases h
  rfl

theorem BackupValues.apply_keeps_id (v : BackupValues) (b : Backup) : (v.apply b).id = b.id := rfl

theorem BackupValues.apply_serverId (v : BackupValues) (b : Backup) :
    (v.apply b).serverId = b.serverId := rfl

/-- No row has a key that `findByPk` does not find. -/
theorem Backup.findByPk_eq_none {rows : List Backup} {id : String}
    (h : Backup.findByPk rows id = none) : ∀ b ∈ rows, b.id ≠ id := by
  intro b hb
  unfold Backup.findByPk at h
  rw [List.find?_eq_none] at h
  simpa using h b hb

/-- A write under a key no row has changes no row. -/
theorem Backup.writeRows_of_fresh {rows : List Backup} {id : String} (v : BackupValues)
    (h : Backup.findByPk rows id = none) : Backup.writeRows rows id v = rows := by
  unfold Backup.writeRows
  have hne := Backup.findByPk_eq_none h
  calc rows.map (fun b => if b.id = id then v.apply b else b)
      = rows.map (fun b => b) := List.map_congr_left (fun b hb => if_neg (hne b hb))
    _ = rows := List.map_id' rows

/-- The row found under a key after a write under key `pk`. -/
theorem Backup.findByPk_writeRows (rows : List Backup) (pk id : String) (v : BackupValues) :
    Backup.findByPk (Backup.writeRows rows pk v) id
      = (Backup.findByPk rows id).map (fun b => if b.id = pk then v.apply b else b) := by
  unfold Backup.findByPk Backup.writeRows
  induction rows with
  | nil => rfl
  | cons r rest ih =>
    simp only [List.map_cons]
    have hid : (if r.id = pk then v.apply r else r).id = r.id := by
      by_cases hk : r.id = pk
      · rw [if_pos hk]; rfl
      · rw [if_neg hk]
    simp only [List.find?_cons, hid]
    cases hr : r.id == id
    · exact ih
    · rfl

/-- The result and the world of `Backup.create` when the store returns a key
that is not in use: the new row, in progress, with no file path and size 0, is
appended to the rows. -/
theorem Backup.create_ok (o : BackupOracle) (name serverId : String) (isAutomatic : Bool)
    (w : World) (id : String) (hcreate : o.backupCreate serverId = some id)
    (hfresh : Backup.findByPk w.backups id = none) :
    Backup.create o name serverId isAutomatic w
      = (.ok { id := id, name := name, filePath := "", size := 0, status := .in_progress,
               isAutomatic := isAutomatic, serverId := serverId,
               createdAt := o.now serverId },
         { w with
           log := w.log ++ [.backupCreate serverId isAutomatic]
           backups := w.backups ++
             [{ id := id, name := name, filePath := "", size := 0, status := .in_progress,
                isAutomatic := isAutomatic, serverId := serverId,
                createdAt := o.now serverId }] }) := by
  simp [Backup.create, hcreate, World.emit, hfresh]

/-! ## C13: the lifecycle of a manual backup -/

/-- C13. In `backupController.createBackup` the record is created with status
`in_progress`, an empty `filePath` and size 0 before the archive command is
run, and when archiving succeeds the same record is updated to status
`completed` with `filePath` equal to the archive path and `size` equal to the
byte size of the archive file.  The requests are, in order: the creation of
the record, the creation of the backups root when it is missing, the `tar`
command, the update of the record. -/
theorem C13_manual_backup_lifecycle (o : BackupOracle) (req : backupController.CreateRequest)
    (w : World) (server : Server) (id : String) (t : Tree) (size : Nat)
    (hserver : Server.findOne w.db req.serverId req.userId = some server)
    (hfind : o.serverFindOne = true)
    (hcreate : o.backupCreate req.serverId = some id)
    (hfresh : Backup.findByPk w.backups id = none)
    (htree : w.fs.tree (w.fs.serverDir server.id) = some t)
    (hroot : w.fs.existsSync w.fs.backupDir = true ∨ o.mkdir w.fs.backupDir = true)
    (htar : o.tarCreate (backupService.archivePath w.fs o server id) = some size)
    (hupdate : o.backupUpdate id = true) :
    (Backup.create o req.name req.serverId (req.isAutomatic.getD false) w).1
      = .ok { id := id, name := req.name, filePath := "", size := 0, status := .in_progress,
              isAutomatic := req.isAutomatic.getD false, serverId := req.serverId,
              createdAt := o.now req.serverId } ∧
    (backupController.createBackup o req w).1
      = { code := 201, error := none, message := some "Backup created successfully",
          backup := some
            { id := id, name := req.name,
              filePath := backupService.archivePath w.fs o server id, size := size,
              status := .completed, isAutomatic := req.isAutomatic.getD false,
              serverId := req.serverId, createdAt := o.now req.serverId } } ∧
    Backup.findByPk (backupController.createBackup o req w).2.backups id
      = some { id := id, name := req.name,
               filePath := backupService.archivePath w.fs o server id, size := size,
               status := .completed, isAutomatic := req.isAutomatic.getD false,
               serverId := req.serverId, createdAt := o.now req.serverId } ∧
    (backupController.createBackup o req w).2.fs.statSize
        (backupService.archivePath w.fs o server id) = some size ∧
    (backupController.createBackup o req w).2.log
      = w.log ++ [Effect.backupCreate req.serverId (req.isAutomatic.getD false)]
          ++ (if w.fs.existsSync w.fs.backupDir then [] else [Effect.mkdir w.fs.backupDir])
          ++ [Effect.exec (.tarCreate (backupService.archivePath w.fs o server id)
                (w.fs.serverDir server.id)),
              Effect.backupUpdate id
                { filePath := some (backupService.archivePath w.fs o server id),
                  size := some size, status := some .completed }] := by
  have hc := Backup.create_ok o req.name req.serverId (req.isAutomatic.getD false) w id
    hcreate hfresh
  obtain ⟨hres, -, hfile, -, hback, -, hlog⟩ := backupService.createBackup_ok o server id
    { w with
      log := w.log ++ [.backupCreate req.serverId (req.isAutomatic.getD false)]
      backups := w.backups ++
        [{ id := id, name := req.name, filePath := "", size := 0, status := .in_progress,
           isAutomatic := req.isAutomatic.getD false, serverId := req.serverId,
           createdAt := o.now req.serverId }] } t size htree hroot htar
  have hpair := pair_of_fst hres
  have hfound : Backup.findByPk (w.backups ++
      [{ id := id, name := req.name, filePath := "", size := 0, status := .in_progress,
         isAutomatic := req.isAutomatic.getD false, serverId := req.serverId,
         createdAt := o.now req.serverId }]) id
      = some { id := id, name := req.name, filePath := "", size := 0, status := .in_progress,
               isAutomatic := req.isAutomatic.getD false, serverId := req.serverId,
               createdAt := o.now req.serverId } := by
    unfold Backup.findByPk at hfresh ⊢
    rw [List.find?_append, hfresh]
    simp
  refine ⟨by rw [hc], ?_, ?_, ?_, ?_⟩
  · unfold backupController.createBackup backupController.createBackupTry
    rw [if_pos hfind]
    simp only [hserver]
    rw [hc]
    simp only []
    rw [hpair]
    simp [Backup.update, hupdate, BackupValues.apply]
  · unfold backupController.createBackup backupController.createBackupTry
    rw [if_pos hfind]
    simp only [hserver]
    rw [hc]
    simp only []
    rw [hpair]
    simp only [Backup.update, hupdate, if_true, World.emit]
    rw [Backup.findByPk_writeRows, hback, hfound]
    simp [BackupValues.apply]
  · unfold backupController.createBackup backupController.createBackupTry
    rw [if_pos hfind]
    simp only [hserver]
    rw [hc]
    simp only []
    rw [hpair]
    simp only [Backup.update, hupdate, if_true, World.emit, FileSystem.statSize]
    rw [hfile]
    rfl
  · unfold backupController.createBackup backupController.createBackupTry
    rw [if_pos hfind]
    simp only [hserver]
    rw [hc]
    simp only []
    rw [hpair]
    simp only [Backup.update, hupdate, if_true, World.emit]
    rw [hlog]
    simp

/-- C13 at a concrete input: a manual backup of the sample server. -/
theorem C13_manual_backup_lifecycle_witness :
    Backup.findByPk (backupController.createBackup Sample.backupOk
        { serverId := "s1", userId := "u1", name := "before-update" }
        { db := [Sample.fresh], log := [], fs := Sample.disk }).2.backups "b-s1"
      = some { id := "b-s1", name := "before-update",
               filePath := "/app/data/backups/alpha-2024-01-02T03-04-05-678Z-b-s1.tar.gz",
               size := 2048, status := .completed, isAutomatic := false, serverId := "s1",
               createdAt := 100 } ∧
    (backupController.createBackup Sample.backupOk
        { serverId := "s1", userId := "u1", name := "before-update" }
        { db := [Sample.fresh], log := [], fs := Sample.disk }).2.log
      = [ Effect.backupCreate "s1" false,
          Effect.mkdir "/app/data/backups",
          Effect.exec (.tarCreate
            "/app/data/backups/alpha-2024-01-02T03-04-05-678Z-b-s1.tar.gz"
            "/app/data/servers/s1"),
          Effect.backupUpdate "b-s1"
            { filePath := some "/app/data/backups/alpha-2024-01-02T03-04-05-678Z-b-s1.tar.gz",
              size := some 2048, status := some .completed } ] :=
  ⟨(C13_manual_backup_lifecycle Sample.backupOk
      { serverId := "s1", userId := "u1", name := "before-update" }
      { db := [Sample.fresh], log := [], fs := Sample.disk } Sample.fresh "b-s1" Sample.tree 2048
      (by decide) rfl rfl (by decide) (by decide) (Or.inr rfl) rfl rfl).2.2.1,
   (C13_manual_backup_lifecycle Sample.backupOk
      { serverId := "s1", userId := "u1", name := "before-update" }
      { db := [Sample.fresh], log := [], fs := Sample.disk } Sample.fresh "b-s1" Sample.tree 2048
      (by decide) rfl rfl (by decide) (by decide) (Or.inr rfl) rfl rfl).2.2.2.2⟩

/-! ## What the backup steps leave unchanged -/

/-- What `Backup.create` did when it returned a row: the key was not in use,
the row is in progress and belongs to the server, and it was appended to the
rows; nothing else changed but the log. -/
theorem Backup.create_result {o : BackupOracle} {name serverId : String} {isAutomatic : Bool}
    {w w1 : World} {b : Backup}
    (h : Backup.create o name serverId isAutomatic w = (.ok b, w1)) :
    o.backupCreate serverId = some b.id ∧ Backup.findByPk w.backups b.id = none ∧
      b.serverId = serverId ∧ b.isAutomatic = isAutomatic ∧ b.status = .in_progress ∧
      w1.backups = w.backups ++ [b] ∧ w1.db = w.db ∧ w1.fs = w.fs ∧
      w1.log = w.log ++ [.backupCreate serverId isAutomatic] := by
  unfold Backup.create at h
  simp only [World.emit] at h
  split at h
  · next id hid =>
    split at h
    · cases h
    · next hfree =>
      simp only [Prod.mk.injEq, Except.ok.injEq] at h
      obtain ⟨hb, hw⟩ := h
      subst hb
      subst hw
      refine ⟨hid, ?_, rfl, rfl, rfl, rfl, rfl, rfl, rfl⟩
      cases hf : Backup.findByPk w.backups id
      · rfl
      · rw [hf] at hfree; simp at hfree
  · cases h

/-- The rows and the servers after `exec`, `mkdirSync` and `unlinkSync`: unchanged. -/
theorem backupService.exec_rows (o : BackupOracle) (c : ShellCommand) (w : World) :
    (backupService.exec o c w).2.backups = w.backups ∧
      (backupService.exec o c w).2.db = w.db ∧
      (backupService.exec o c w).2.fs.cwd = w.fs.cwd := by
  unfold backupService.exec
  cases c with
  | tarCreate p d =>
    simp only
    split <;> exact ⟨rfl, rfl, rfl⟩
  | rmContents d =>
    simp only
    split
    · split <;> exact ⟨rfl, rfl, rfl⟩
    · exact ⟨rfl, rfl, rfl⟩
  | tarExtract p d =>
    simp only
    split
    · split <;> exact ⟨rfl, rfl, rfl⟩
    · exact ⟨rfl, rfl, rfl⟩

theorem backupService.mkdirSync_rows (o : BackupOracle) (p : String) (w : World) :
    (backupService.mkdirSync o p w).2.backups = w.backups ∧
      (backupService.mkdirSync o p w).2.db = w.db ∧
      (backupService.mkdirSync o p w).2.fs.cwd = w.fs.cwd := by
  unfold backupService.mkdirSync
  simp only
  split
  · refine ⟨rfl, rfl, ?_⟩
    simp only [FileSystem.mkdirSync, World.emit]
    split <;> rfl
  · exact ⟨rfl, rfl, rfl⟩

theorem backupService.ensureBackupDir_rows (o : BackupOracle) (w : World) :
    (backupService.ensureBackupDir o w).2.backups = w.backups ∧
      (backupService.ensureBackupDir o w).2.db = w.db ∧
      (backupService.ensureBackupDir o w).2.fs.cwd = w.fs.cwd := by
  unfold backupService.ensureBackupDir
  simp only
  split
  · have hm := backupService.mkdirSync_rows o w.fs.backupDir w
    split
    · next u w2 h2 => rw [h2] at hm; exact hm
    · next e w2 h2 => rw [h2] at hm; exact hm
  · exact ⟨rfl, rfl, rfl⟩

/-- The service's `createBackup` changes no row, whatever its outcome. -/
theorem backupService.createBackup_rows (o : BackupOracle) (server : Server)
    (backupId : String) (w : World) :
    (backupService.createBackup o server backupId w).2.backups = w.backups ∧
      (backupService.createBackup o server backupId w).2.db = w.db ∧
      (backupService.createBackup o server backupId w).2.fs.cwd = w.fs.cwd := by
  unfold backupService.createBackup
  have hw1 := backupService.ensureBackupDir_rows o w
  split
  · next e w1 h1 => rw [h1] at hw1; exact hw1
  · next backupDir w1 h1 =>
    rw [h1] at hw1
    simp only at hw1 ⊢
    have hx := backupService.exec_rows o
      (.tarCreate (pathJoin [backupDir, backupService.backupFilename server.name
        (backupService.timestampOf (o.isoTimestamp server.id)) backupId])
        (w1.fs.serverDir server.id)) w1
    split
    · next e w2 h2 =>
      rw [h2] at hx
      exact ⟨hx.1.trans hw1.1, hx.2.1.trans hw1.2.1, hx.2.2.trans hw1.2.2⟩
    · next u w2 h2 =>
      rw [h2] at hx
      split <;> exact ⟨hx.1.trans hw1.1, hx.2.1.trans hw1.2.1, hx.2.2.trans hw1.2.2⟩

/-- A row found under a key is still found after `backup.update`. -/
theorem Backup.update_keeps (o : BackupOracle) (b : Backup) (v : BackupValues) (w : World)
    (id : String) (h : (Backup.findByPk w.backups id).isSome = true) :
    (Backup.findByPk (Backup.update o b v w).2.backups id).isSome = true := by
  unfold Backup.update
  simp only [World.emit]
  split
  · simp only
    rw [Backup.findByPk_writeRows]
    simpa using h
  · exact h

/-- A row found under a key is still found after the `catch` block of `createBackup`. -/
theorem backupController.createBackupCatch_keeps (o : BackupOracle)
    (req : backupController.CreateRequest) (w : World) (id : String)
    (h : (Backup.findByPk w.backups id).isSome = true) :
    (Backup.findByPk (backupController.createBackupCatch o req w).backups id).isSome = true := by
  unfold backupController.createBackupCatch
  split
  · split
    · unfold Backup.updateWhere
      simp only [World.emit]
      split
      · simp only
        rw [Backup.findByPk_writeRows]
        simpa using h
      · exact h
    · exact h
  · exact h

/-- A row just created is found under its key. -/
theorem Backup.create_found {o : BackupOracle} {name serverId : String} {isAutomatic : Bool}
    {w w1 : World} {b : Backup}
    (h : Backup.create o name serverId isAutomatic w = (.ok b, w1)) :
    Backup.findByPk w1.backups b.id = some b := by
  obtain ⟨-, hfresh, -, -, -, hrows, -⟩ := Backup.create_result h
  rw [hrows]
  unfold Backup.findByPk at hfresh ⊢
  rw [List.find?_append, hfresh]
  simp

/-! ## C12: a failure while archiving -/

/-- C12 (amended). Whenever archiving fails after the record has been created
(the service's `createBackup` throws, or the final record update throws), the
record stays in the store.  On the manual path the failure is reported to the
caller: `backupController.createBackup` answers 500 `Failed to create backup`.
On the scheduled path the failure is caught inside the iteration of that
server, which ends normally with the server's id in the error log; nothing is
reported to the caller of `scheduleBackups`. -/
theorem C12_archiving_failure (o : BackupOracle) (server : Server) (w w1 : World)
    (backup : Backup)
    (hfail : (backupService.createBackup o server backup.id w1).1 = .error () ∨
      o.backupUpdate backup.id = false) :
    (∀ req : backupController.CreateRequest,
      Server.findOne w.db req.serverId req.userId = some server → o.serverFindOne = true →
      Backup.create o req.name req.serverId (req.isAutomatic.getD false) w = (.ok backup, w1) →
      (backupController.createBackup o req w).1
        = backupController.Response.failure 500 "Failed to create backup" ∧
      (Backup.findByPk (backupController.createBackup o req w).2.backups backup.id).isSome
        = true) ∧
    (Backup.create o ("Automatic backup - " ++ o.isoTimestamp server.id) server.id true w
        = (.ok backup, w1) →
      (backupService.scheduleServer o server w).1 = .ok (some server.id) ∧
      (Backup.findByPk (backupService.scheduleServer o server w).2.backups backup.id).isSome
        = true) := by
  have hrows := backupService.createBackup_rows o server backup.id w1
  constructor
  · intro req hserver hfind hcreate
    have hfound := Backup.create_found hcreate
    unfold backupController.createBackup backupController.createBackupTry
    rw [if_pos hfind]
    simp only [hserver]
    rw [hcreate]
    simp only []
    split
    · next res w3 h3 =>
      exfalso
      split at h3
      · cases h3
      · next r w2 h2 =>
        have hup : o.backupUpdate backup.id = false := by
          rcases hfail with hf | hf
          · rw [h2] at hf; cases hf
          · exact hf
        simp [Backup.update, hup] at h3
    · next e w3 h3 =>
      refine ⟨rfl, ?_⟩
      apply backupController.createBackupCatch_keeps
      split at h3
      · next e2 w2 h2 =>
        rw [h2] at hrows
        simp only [Prod.mk.injEq] at h3
        rw [← h3.2, hrows.1, hfound]
        rfl
      · next r w2 h2 =>
        rw [h2] at hrows
        have hk := Backup.update_keeps o backup
          { filePath := some r.filePath, size := some r.size, status := some .completed }
          w2 backup.id (by rw [hrows.1, hfound]; rfl)
        split at h3
        · next e3 w4 h4 =>
          rw [h4] at hk
          simp only [Prod.mk.injEq] at h3
          rw [← h3.2]
          exact hk
        · cases h3
  · intro hcreate
    have hfound := Backup.create_found hcreate
    unfold backupService.scheduleServer backupService.scheduleServerTry
    rw [hcreate]
    simp only []
    split
    · next u w3 h3 =>
      exfalso
      split at h3
      · cases h3
      · next r w2 h2 =>
        have hup : o.backupUpdate backup.id = false := by
          rcases hfail with hf | hf
          · rw [h2] at hf; cases hf
          · exact hf
        simp [Backup.update, hup] at h3
    · next e w3 h3 =>
      refine ⟨rfl, ?_⟩
      split at h3
      · next e2 w2 h2 =>
        rw [h2] at hrows
        simp only [Prod.mk.injEq] at h3
        rw [← h3.2, hrows.1, hfound]
        rfl
      · next r w2 h2 =>
        rw [h2] at hrows
        have hk := Backup.update_keeps o backup
          { filePath := some r.filePath, size := some r.size, status := some .completed }
          w2 backup.id (by rw [hrows.1, hfound]; rfl)
        split at h3
        · next e3 w4 h4 =>
          rw [h4] at hk
          simp only [Prod.mk.injEq] at h3
          rw [← h3.2]
          exact hk
        · cases h3

/-- C12 as stated fails.  When `tar` fails during a manual backup the handler
answers 500 and the record keeps status `in_progress`: the `catch` block
writes `failed` only under `req.body.backupId`, which the request does not
carry.  When `tar` fails during the scheduled sweep the record keeps status
`in_progress` too, and `scheduleBackups` returns normally. -/
theorem C12_counterexample :
    ((backupController.createBackup Sample.tarFails
        { serverId := "s1", userId := "u1", name := "before-update" }
        { db := [Sample.fresh], log := [], fs := Sample.disk }).1.code = 500 ∧
      (Backup.findByPk (backupController.createBackup Sample.tarFails
        { serverId := "s1", userId := "u1", name := "before-update" }
        { db := [Sample.fresh], log := [], fs := Sample.disk }).2.backups "b-s1").map
          (fun b => b.status) = some .in_progress) ∧
    ((backupService.scheduleBackups Sample.tarFails
        { db := [Sample.fresh], log := [], fs := Sample.disk }).1
        = .ok { outerCaught := false, failed := ["s1"] } ∧
      (Backup.findByPk (backupService.scheduleBackups Sample.tarFails
        { db := [Sample.fresh], log := [], fs := Sample.disk }).2.backups "b-s1").map
          (fun b => b.status) = some .in_progress) := by
  decide

/-- C12 (amended) at a concrete input: `tar` fails during a manual backup and
during the iteration of the sweep for the sample server. -/
theorem C12_archiving_failure_witness :
    (backupController.createBackup Sample.tarFails
        { serverId := "s1", userId := "u1", name := "before-update" }
        { db := [Sample.fresh], log := [], fs := Sample.disk }).1
      = backupController.Response.failure 500 "Failed to create backup" ∧
    (backupService.scheduleServer Sample.tarFails Sample.fresh
        { db := [Sample.fresh], log := [], fs := Sample.disk }).1 = .ok (some "s1") :=
  ⟨((C12_archiving_failure Sample.tarFails Sample.fresh
      { db := [Sample.fresh], log := [], fs := Sample.disk }
      (Backup.create Sample.tarFails "before-update" "s1" false
        { db := [Sample.fresh], log := [], fs := Sample.disk }).2
      { id := "b-s1", name := "before-update", filePath := "", size := 0,
        status := .in_progress, isAutomatic := false, serverId := "s1", createdAt := 100 }
      (Or.inl (by decide))).1
      { serverId := "s1", userId := "u1", name := "before-update" }
      (by decide) rfl (by decide)).1,
   ((C12_archiving_failure Sample.tarFails Sample.fresh
      { db := [Sample.fresh], log := [], fs := Sample.disk }
      (Backup.create Sample.tarFails "Automatic backup - 2024-01-02T03:04:05.678Z" "s1" true
        { db := [Sample.fresh], log := [], fs := Sample.disk }).2
      { id := "b-s1", name := "Automatic backup - 2024-01-02T03:04:05.678Z", filePath := "",
        size := 0, status := .in_progress, isAutomatic := true, serverId := "s1",
        createdAt := 100 }
      (Or.inl (by decide))).2 (by decide)).1⟩

/-! ## Loops whose iterations never throw -/

/-- A `for ... of` loop whose body never throws runs to the end: it returns
one value per element and its world is the fold of the body over the list. -/
theorem forOf_of_total {α β : Type} (body : α → World → Except Unit β × World)
    (hbody : ∀ x w, ∃ b, (body x w).1 = .ok b) (l : List α) (w : World) :
    ∃ bs, (forOf body l w).1 = .ok bs ∧ bs.length = l.length ∧
      (forOf body l w).2 = l.foldl (fun w x => (body x w).2) w := by
  induction l generalizing w with
  | nil => exact ⟨[], rfl, rfl, rfl⟩
  | cons x xs ih =>
    obtain ⟨b, hb⟩ := hbody x w
    obtain ⟨bs, hbs, hlen, hw⟩ := ih (body x w).2
    have h1 := pair_of_fst hb
    have h2 := pair_of_fst hbs
    refine ⟨b :: bs, ?_, by simp [hlen], ?_⟩
    · simp only [forOf]
      rw [h1]
      simp only []
      rw [h2]
    · simp only [forOf, List.foldl_cons]
      rw [h1]
      simp only []
      rw [h2]
      exact hw

/-- An iteration of the scheduling sweep never throws: when its `try` block
throws, the `catch` block records the server and changes nothing. -/
theorem backupService.scheduleServer_total (o : BackupOracle) (s : Server) (w : World) :
    (backupService.scheduleServer o s w).1
        = .ok (if (backupService.scheduleServerTry o s w).1 = .ok () then none else some s.id) ∧
      (backupService.scheduleServer o s w).2 = (backupService.scheduleServerTry o s w).2 := by
  unfold backupService.scheduleServer
  split
  · next u w1 h1 => rw [h1]; exact ⟨rfl, rfl⟩
  · next e w1 h1 => rw [h1]; exact ⟨rfl, rfl⟩

/-- An iteration of the cleanup sweep never throws. -/
theorem backupService.cleanupServer_total (o : BackupOracle) (k : Nat) (s : Server) (w : World) :
    (backupService.cleanupServer o k s w).1
        = .ok (if (backupService.cleanupServerTry o k s w).1 = .ok () then none
            else some s.id) ∧
      (backupService.cleanupServer o k s w).2 = (backupService.cleanupServerTry o k s w).2 := by
  unfold backupService.cleanupServer
  split
  · next u w1 h1 => rw [h1]; exact ⟨rfl, rfl⟩
  · next e w1 h1 => rw [h1]; exact ⟨rfl, rfl⟩

/-- The world after the scheduling sweep: the fold of the iteration over the
servers with backups enabled. -/
theorem backupService.scheduleBackups_world (o : BackupOracle) (w : World)
    (hfind : o.serverFindAll = true) :
    ∃ failures, (backupService.scheduleBackups o w).1
        = .ok { outerCaught := false, failed := failures.filterMap id } ∧
      (forOf (backupService.scheduleServer o) (w.db.filter (fun s => s.backupEnabled)) w).1
        = .ok failures ∧
      (backupService.scheduleBackups o w).2
        = (w.db.filter (fun s => s.backupEnabled)).foldl
            (fun x s => (backupService.scheduleServer o s x).2) w := by
  obtain ⟨bs, hbs, -, hw⟩ := forOf_of_total (backupService.scheduleServer o)
    (fun x w => ⟨_, (backupService.scheduleServer_total o x w).1⟩)
    (w.db.filter (fun s => s.backupEnabled)) w
  have h := pair_of_fst hbs
  refine ⟨bs, ?_, hbs, ?_⟩
  · unfold backupService.scheduleBackups
    rw [if_pos hfind, h]
  · unfold backupService.scheduleBackups
    rw [if_pos hfind, h]
    exact hw

/-- The world after the cleanup sweep: the fold of the iteration over all servers. -/
theorem backupService.cleanupBackups_world (o : BackupOracle) (k : Option Nat) (w : World)
    (hfind : o.serverFindAll = true) :
    ∃ failures, (backupService.cleanupBackups o k w).1
        = .ok { outerCaught := false, failed := failures.filterMap id } ∧
      (forOf (backupService.cleanupServer o (k.getD 5)) w.db w).1 = .ok failures ∧
      (backupService.cleanupBackups o k w).2
        = w.db.foldl (fun x s => (backupService.cleanupServer o (k.getD 5) s x).2) w := by
  obtain ⟨bs, hbs, -, hw⟩ := forOf_of_total (backupService.cleanupServer o (k.getD 5))
    (fun x w => ⟨_, (backupService.cleanupServer_total o (k.getD 5) x w).1⟩) w.db w
  have h := pair_of_fst hbs
  refine ⟨bs, ?_, hbs, ?_⟩
  · unfold backupService.cleanupBackups
    rw [if_pos hfind, h]
  · unfold backupService.cleanupBackups
    rw [if_pos hfind, h]
    exact hw

/-! ## C18: per-item isolation of the sweeps -/

/-- C18. In `scheduleBackups` and in `cleanupBackups` a failure while one
server is processed stays inside the iteration of that server: the iteration
ends normally, its `catch` block changing nothing, and the sweep goes on.  The
sweep returns normally, and once the servers are enumerated its world is the
fold of the iteration over every enumerated server, in order: each later
server is processed by the same iteration, on the world the earlier ones left,
whether or not any of them failed. -/
theorem C18_sweeps_isolate_failures (o : BackupOracle) (k : Option Nat) (w : World) :
    (∃ report, (backupService.scheduleBackups o w).1 = .ok report) ∧
    (∃ report, (backupService.cleanupBackups o k w).1 = .ok report) ∧
    (∀ (s : Server) (x : World),
      (∃ r, (backupService.scheduleServer o s x).1 = .ok r) ∧
      (backupService.scheduleServer o s x).2 = (backupService.scheduleServerTry o s x).2 ∧
      (∃ r, (backupService.cleanupServer o (k.getD 5) s x).1 = .ok r) ∧
      (backupService.cleanupServer o (k.getD 5) s x).2
        = (backupService.cleanupServerTry o (k.getD 5) s x).2) ∧
    (o.serverFindAll = true →
      (backupService.scheduleBackups o w).2
        = (w.db.filter (fun s => s.backupEnabled)).foldl
            (fun x s => (backupService.scheduleServer o s x).2) w ∧
      (backupService.cleanupBackups o k w).2
        = w.db.foldl (fun x s => (backupService.cleanupServer o (k.getD 5) s x).2) w) ∧
    (∀ (before after : List Server) (s : Server) (x : World),
      (before ++ s :: after).foldl (fun x s => (backupService.scheduleServer o s x).2) x
        = after.foldl (fun x s => (backupService.scheduleServer o s x).2)
            (backupService.scheduleServer o s
              (before.foldl (fun x s => (backupService.scheduleServer o s x).2) x)).2 ∧
      (before ++ s :: after).foldl (fun x s => (backupService.cleanupServer o (k.getD 5) s x).2) x
        = after.foldl (fun x s => (backupService.cleanupServer o (k.getD 5) s x).2)
            (backupService.cleanupServer o (k.getD 5) s
              (before.foldl
                (fun x s => (backupService.cleanupServer o (k.getD 5) s x).2) x)).2) := by
  refine ⟨?_, ?_, ?_, ?_, ?_⟩
  · cases hfind : o.serverFindAll
    · exact ⟨{ outerCaught := true, failed := [] },
        by simp [backupService.scheduleBackups, hfind]⟩
    · obtain ⟨f, hf, -⟩ := backupService.scheduleBackups_world o w hfind
      exact ⟨_, hf⟩
  · cases hfind : o.serverFindAll
    · exact ⟨{ outerCaught := true, failed := [] },
        by simp [backupService.cleanupBackups, hfind]⟩
    · obtain ⟨f, hf, -⟩ := backupService.cleanupBackups_world o k w hfind
      exact ⟨_, hf⟩
  · intro s x
    exact ⟨⟨_, (backupService.scheduleServer_total o s x).1⟩,
      (backupService.scheduleServer_total o s x).2,
      ⟨_, (backupService.cleanupServer_total o (k.getD 5) s x).1⟩,
      (backupService.cleanupServer_total o (k.getD 5) s x).2⟩
  · intro hfind
    obtain ⟨f, -, -, hw⟩ := backupService.scheduleBackups_world o w hfind
    obtain ⟨g, -, -, hw2⟩ := backupService.cleanupBackups_world o k w hfind
    exact ⟨hw, hw2⟩
  · intro before after s x
    simp [List.foldl_append]

/-- C18 at a concrete input: the sweep over a server whose directory does not
exist, for which `tar` fails, and then the sample server.  The first is
recorded as failed and the second still gets its completed backup. -/
theorem C18_sweeps_isolate_failures_witness :
    (backupService.scheduleBackups Sample.backupOk
        { db := [{ Sample.fresh with id := "s0" }, Sample.fresh], log := [],
          fs := Sample.disk }).1 = .ok { outerCaught := false, failed := ["s0"] } ∧
    ((backupService.scheduleBackups Sample.backupOk
        { db := [{ Sample.fresh with id := "s0" }, Sample.fresh], log := [],
          fs := Sample.disk }).2.backups.map (fun b => (b.serverId, b.status)))
      = [("s0", .in_progress), ("s1", .completed)] ∧
    (backupService.scheduleBackups Sample.backupOk
        { db := [{ Sample.fresh with id := "s0" }, Sample.fresh], log := [],
          fs := Sample.disk }).2
      = [{ Sample.fresh with id := "s0" }, Sample.fresh].foldl
          (fun x s => (backupService.scheduleServer Sample.backupOk s x).2)
          { db := [{ Sample.fresh with id := "s0" }, Sample.fresh], log := [],
            fs := Sample.disk } :=
  ⟨by decide, by decide,
   ((C18_sweeps_isolate_failures Sample.backupOk none
      { db := [{ Sample.fresh with id := "s0" }, Sample.fresh], log := [],
        fs := Sample.disk }).2.2.2.1 rfl).1⟩

/-! ## One iteration of the scheduling sweep -/

/-- The requests of the service's `createBackup`: at most the creation of the
backups root, then the `tar` command on the directory of the server. -/
theorem backupService.createBackup_log (o : BackupOracle) (server : Server)
    (backupId : String) (w : World) :
    ∃ suffix, (backupService.createBackup o server backupId w).2.log = w.log ++ suffix ∧
      ∀ c, Effect.exec c ∈ suffix → ∃ p, c = .tarCreate p (w.fs.serverDir server.id) := by
  unfold backupService.createBackup
  have hrows := backupService.ensureBackupDir_rows o w
  have hlog : (backupService.ensureBackupDir o w).2.log = w.log ∨
      (backupService.ensureBackupDir o w).2.log = w.log ++ [.mkdir w.fs.backupDir] := by
    unfold backupService.ensureBackupDir
    simp only
    split
    · have hm := backupService.mkdirSync_log o w.fs.backupDir w
      split
      · next u w2 h2 => rw [h2] at hm; exact Or.inr hm
      · next e w2 h2 => rw [h2] at hm; exact Or.inr hm
    · exact Or.inl rfl
  have hpre : ∃ pre, (backupService.ensureBackupDir o w).2.log = w.log ++ pre ∧
      ∀ c, Effect.exec c ∉ pre := by
    rcases hlog with h | h
    · exact ⟨[], by simpa using h, by simp⟩
    · exact ⟨_, h, by simp⟩
  obtain ⟨pre, hpre, hnot⟩ := hpre
  split
  · next e w1 h1 =>
    rw [h1] at hpre
    exact ⟨pre, hpre, fun c hc => absurd hc (hnot c)⟩
  · next backupDir w1 h1 =>
    rw [h1] at hpre hrows
    simp only at hpre hrows ⊢
    have hdir : w1.fs.serverDir server.id = w.fs.serverDir server.id := by
      simp only [FileSystem.serverDir, hrows.2.2]
    rw [hdir]
    have hx := backupService.exec_log o
      (.tarCreate (pathJoin [backupDir, backupService.backupFilename server.name
        (backupService.timestampOf (o.isoTimestamp server.id)) backupId])
        (w.fs.serverDir server.id)) w1
    rw [hpre] at hx
    have hmem : ∀ c, Effect.exec c ∈ pre ++ [Effect.exec
        (.tarCreate (pathJoin [backupDir, backupService.backupFilename server.name
          (backupService.timestampOf (o.isoTimestamp server.id)) backupId])
          (w.fs.serverDir server.id))] → ∃ p, c = .tarCreate p (w.fs.serverDir server.id) := by
      intro c hc
      rcases List.mem_append.mp hc with h | h
      · exact absurd h (hnot c)
      · simp only [List.mem_singleton, Effect.exec.injEq] at h
        exact ⟨_, h⟩
    split
    · next e w2 h2 =>
      rw [h2] at hx
      exact ⟨_, by simpa using hx, hmem⟩
    · next u w2 h2 =>
      rw [h2] at hx
      split <;> exact ⟨_, by simpa using hx, hmem⟩

/-- An iteration of the scheduling sweep whose `try` block did not throw
appended one record to the rows: a completed automatic backup of that server.
It changed no other row, no server, and ran no command but the `tar` of that
server's directory. -/
theorem backupService.scheduleServer_ok (o : BackupOracle) (s : Server) (w : World)
    (h : (backupService.scheduleServer o s w).1 = .ok none) :
    (∃ b, (backupService.scheduleServer o s w).2.backups = w.backups ++ [b] ∧
      b.serverId = s.id ∧ b.isAutomatic = true ∧ b.status = .completed) ∧
    (backupService.scheduleServer o s w).2.db = w.db ∧
    (backupService.scheduleServer o s w).2.fs.cwd = w.fs.cwd ∧
    ∃ suffix, (backupService.scheduleServer o s w).2.log = w.log ++ suffix ∧
      ∀ c, Effect.exec c ∈ suffix → ∃ p, c = .tarCreate p (w.fs.serverDir s.id) := by
  unfold backupService.scheduleServer at h ⊢
  split at h
  · next u w3 h3 =>
    simp only
    unfold backupService.scheduleServerTry at h3
    split at h3
    · cases h3
    · next b w1 h1 =>
      obtain ⟨-, hfresh, hsid, hauto, -, hrows1, hdb1, hfs1, hlog1⟩ := Backup.create_result h1
      have hr := backupService.createBackup_rows o s b.id w1
      obtain ⟨suffix, hlog2, hexec⟩ := backupService.createBackup_log o s b.id w1
      split at h3
      · cases h3
      · next r w2 h2 =>
        rw [h2] at hr hlog2
        simp only at hr hlog2
        split at h3
        · cases h3
        · next b1 w4 h4 =>
          simp only [Prod.mk.injEq] at h3
          rw [← h3.2]
          unfold Backup.update at h4
          simp only [World.emit] at h4
          split at h4
          · simp only [Prod.mk.injEq] at h4
            rw [← h4.2]
            simp only
            refine ⟨⟨BackupValues.apply
              { filePath := some r.filePath, size := some r.size, status := some .completed }
              b, ?_, hsid, hauto, rfl⟩, ?_, ?_, ?_⟩
            · rw [hr.1, hrows1]
              simp only [Backup.writeRows, List.map_append, List.map_cons, List.map_nil,
                if_true]
              have := Backup.writeRows_of_fresh
                { filePath := some r.filePath, size := some r.size,
                  status := some .completed } hfresh
              simp only [Backup.writeRows] at this
              rw [this]
            · rw [hr.2.1, hdb1]
            · rw [hr.2.2, hfs1]
            · refine ⟨Effect.backupCreate s.id true :: (suffix ++ [Effect.backupUpdate b.id
                { filePath := some r.filePath, size := some r.size,
                  status := some .completed }]), ?_, ?_⟩
              · rw [hlog2, hlog1]
                simp
              · intro c hc
                rcases List.mem_cons.mp hc with hc | hc
                · cases hc
                · rcases List.mem_append.mp hc with hc | hc
                  · obtain ⟨p, hp⟩ := hexec c hc
                    rw [hfs1] at hp
                    exact ⟨p, hp⟩
                  · simp at hc
          · cases h4
  · cases h

/-- A run of the loop of `scheduleBackups` in which no `catch` block ran
appended one completed automatic record per server, in order, and changed
nothing else in the rows. -/
theorem backupService.scheduleLoop_ok (o : BackupOracle) (l : List Server) (w : World)
    (rs : List (Option String))
    (h : (forOf (backupService.scheduleServer o) l w).1 = .ok rs)
    (hnone : rs.filterMap id = []) :
    ∃ news : List Backup,
      (forOf (backupService.scheduleServer o) l w).2.backups = w.backups ++ news ∧
      news.map (fun b => b.serverId) = l.map (fun s => s.id) ∧
      (∀ b ∈ news, b.isAutomatic = true ∧ b.status = .completed) ∧
      (forOf (backupService.scheduleServer o) l w).2.db = w.db ∧
      (forOf (backupService.scheduleServer o) l w).2.fs.cwd = w.fs.cwd ∧
      ∃ suffix, (forOf (backupService.scheduleServer o) l w).2.log = w.log ++ suffix ∧
        ∀ c, Effect.exec c ∈ suffix →
          ∃ s ∈ l, ∃ p, c = .tarCreate p (w.fs.serverDir s.id) := by
  induction l generalizing w rs with
  | nil =>
    exact ⟨[], by simp [forOf], rfl, by simp, rfl, rfl, [], by simp [forOf], by simp⟩
  | cons x xs ih =>
    have hx := (backupService.scheduleServer_total o x w).1
    have hpx := pair_of_fst hx
    obtain ⟨bs, hbs, -, -⟩ := forOf_of_total (backupService.scheduleServer o)
      (fun y v => ⟨_, (backupService.scheduleServer_total o y v).1⟩) xs
      (backupService.scheduleServer o x w).2
    have hpbs := pair_of_fst hbs
    have hform : forOf (backupService.scheduleServer o) (x :: xs) w
        = (.ok ((if (backupService.scheduleServerTry o x w).1 = .ok () then none
              else some x.id) :: bs),
           (forOf (backupService.scheduleServer o) xs
              (backupService.scheduleServer o x w).2).2) := by
      simp only [forOf]
      rw [hpx]
      simp only []
      rw [hpbs]
    rw [hform] at h ⊢
    simp only [Except.ok.injEq] at h
    subst h
    have hhead : (backupService.scheduleServer o x w).1 = .ok none := by
      rw [hx]
      by_cases hc : (backupService.scheduleServerTry o x w).1 = .ok ()
      · rw [if_pos hc]
      · rw [if_neg hc] at hnone
        simp at hnone
    have htail : bs.filterMap id = [] := by
      by_cases hc : (backupService.scheduleServerTry o x w).1 = .ok ()
      · rw [if_pos hc] at hnone
        simpa using hnone
      · rw [if_neg hc] at hnone
        simp at hnone
    obtain ⟨⟨b, hb, hbsid, hbauto, hbst⟩, hdb, hcwd, sfx, hlog, hexec⟩ :=
      backupService.scheduleServer_ok o x w hhead
    obtain ⟨news, hrows, hmap, hall, hdb2, hcwd2, sfx2, hlog2, hexec2⟩ :=
      ih (backupService.scheduleServer o x w).2 bs hbs htail
    have hdir : ∀ sid, (backupService.scheduleServer o x w).2.fs.serverDir sid
        = w.fs.serverDir sid := by
      intro sid
      simp only [FileSystem.serverDir, hcwd]
    refine ⟨b :: news, ?_, ?_, ?_, ?_, ?_, sfx ++ sfx2, ?_, ?_⟩
    · simp only
      rw [hrows, hb]
      simp
    · simp [hmap, hbsid]
    · intro b' hb'
      rcases List.mem_cons.mp hb' with h1 | h1
      · rw [h1]; exact ⟨hbauto, hbst⟩
      · exact hall b' h1
    · simp only
      rw [hdb2, hdb]
    · simp only
      rw [hcwd2, hcwd]
    · simp only
      rw [hlog2, hlog]
      simp
    · intro c hc
      rcases List.mem_append.mp hc with h1 | h1
      · obtain ⟨p, hp⟩ := hexec c h1
        exact ⟨x, List.mem_cons_self _ _, p, hp⟩
      · obtain ⟨s, hs, p, hp⟩ := hexec2 c h1
        rw [hdir] at hp
        exact ⟨s, List.mem_cons_of_mem _ hs, p, hp⟩

/-! ## C17: one sweep of the scheduler -/

/-- C17. One sweep of `scheduleBackups` in which no step fails (no `catch`
block runs) appends to the records exactly one new record for each server with
`backupEnabled = true`, in the order of enumeration: automatic, carrying that
server's id, with status `completed`.  Every record that existed before is
still there, unchanged; in particular the records of any server that is not
enabled are the same before and after.  No server row changes, and the only
commands run are the `tar` of the directories of enabled servers. -/
theorem C17_scheduled_sweep (o : BackupOracle) (w : World)
    (hok : (backupService.scheduleBackups o w).1 = .ok { outerCaught := false, failed := [] }) :
    ∃ news : List Backup,
      (backupService.scheduleBackups o w).2.backups = w.backups ++ news ∧
      news.map (fun b => b.serverId)
        = (w.db.filter (fun s => s.backupEnabled)).map (fun s => s.id) ∧
      (∀ b ∈ news, b.isAutomatic = true ∧ b.status = .completed) ∧
      (∀ sid, sid ∉ (w.db.filter (fun s => s.backupEnabled)).map (fun s => s.id) →
        (backupService.scheduleBackups o w).2.backups.filter (fun b => b.serverId == sid)
          = w.backups.filter (fun b => b.serverId == sid)) ∧
      (backupService.scheduleBackups o w).2.db = w.db ∧
      ∃ suffix, (backupService.scheduleBackups o w).2.log = w.log ++ suffix ∧
        ∀ c, Effect.exec c ∈ suffix →
          ∃ s ∈ w.db, s.backupEnabled = true ∧ ∃ p, c = .tarCreate p (w.fs.serverDir s.id) := by
  have hfind : o.serverFindAll = true := by
    cases hf : o.serverFindAll
    · simp [backupService.scheduleBackups, hf] at hok
    · rfl
  obtain ⟨failures, hrep, hloop, -⟩ := backupService.scheduleBackups_world o w hfind
  have hnone : failures.filterMap id = [] := by
    rw [hrep] at hok
    simpa using hok
  have hworld : (backupService.scheduleBackups o w).2
      = (forOf (backupService.scheduleServer o) (w.db.filter (fun s => s.backupEnabled)) w).2 := by
    unfold backupService.scheduleBackups
    rw [if_pos hfind, pair_of_fst hloop]
  obtain ⟨news, hrows, hmap, hall, hdb, -, sfx, hlog, hexec⟩ :=
    backupService.scheduleLoop_ok o _ w failures hloop hnone
  rw [hworld]
  refine ⟨news, hrows, hmap, hall, ?_, hdb, sfx, hlog, ?_⟩
  · intro sid hsid
    rw [hrows, List.filter_append]
    have : news.filter (fun b => b.serverId == sid) = [] := by
      rw [List.filter_eq_nil_iff]
      intro b hb hbs
      apply hsid
      rw [← hmap]
      have : b.serverId = sid := by simpa using hbs
      rw [← this]
      exact List.mem_map_of_mem _ hb
    rw [this, List.append_nil]
  · intro c hc
    obtain ⟨s, hs, p, hp⟩ := hexec c hc
    have hs' := List.mem_filter.mp hs
    exact ⟨s, hs'.1, hs'.2, p, hp⟩

/-- C17 at a concrete input: server `s1` has backups enabled and server `s2`
has not; the sweep adds one completed automatic record, for `s1`. -/
theorem C17_scheduled_sweep_witness :
    ∃ news : List Backup,
      (backupService.scheduleBackups Sample.backupOk
        { db := [Sample.fresh, { Sample.fresh with id := "s2", backupEnabled := false }],
          log := [], backups := [{ Sample.record "b7" 5 with serverId := "s2" }],
          fs := Sample.disk }).2.backups
        = [{ Sample.record "b7" 5 with serverId := "s2" }] ++ news ∧
      news.map (fun b => b.serverId) = ["s1"] :=
  (fun h => ⟨h.choose, h.choose_spec.1, h.choose_spec.2.1⟩)
    (C17_scheduled_sweep Sample.backupOk
      { db := [Sample.fresh, { Sample.fresh with id := "s2", backupEnabled := false }],
        log := [], backups := [{ Sample.record "b7" 5 with serverId := "s2" }],
        fs := Sample.disk } (by decide))


/-! ## Facts about sorting and filtering -/

/-- Inserting before a list all of whose elements come after puts the element first. -/
theorem orderedInsert_of_all {α : Type} (r : α → α → Prop) [DecidableRel r] (a : α)
    (l : List α) (h : ∀ c ∈ l, r a c) : l.orderedInsert r a = a :: l := by
  cases l with
  | nil => rfl
  | cons b t => exact List.orderedInsert_of_le r t (h b (List.mem_cons_self _ _))

/-- Filtering commutes with the insertion into a sorted list. -/
theorem filter_orderedInsert {α : Type} (r : α → α → Prop) [DecidableRel r] [IsTrans α r]
    (p : α → Bool) (a : α) (l : List α) (hl : l.Sorted r) :
    (l.orderedInsert r a).filter p
      = if p a then (l.filter p).orderedInsert r a else l.filter p := by
  induction l with
  | nil => cases hp : p a <;> simp [hp]
  | cons b t ih =>
    have hb := List.rel_of_sorted_cons hl
    have iht := ih hl.of_cons
    by_cases hab : r a b
    · rw [List.orderedInsert_of_le r t hab]
      cases hp : p a
      · simp [hp]
      · have hall : ∀ c ∈ (b :: t).filter p, r a c := by
          intro c hc
          rcases List.mem_cons.mp (List.mem_filter.mp hc).1 with h1 | h1
          · rw [h1]; exact hab
          · exact IsTrans.trans a b c hab (hb c h1)
        rw [if_pos rfl, orderedInsert_of_all r a _ hall, List.filter_cons_of_pos hp]
    · have hins : (b :: t).orderedInsert r a = b :: t.orderedInsert r a := by
        simp [List.orderedInsert, hab]
      rw [hins]
      cases hpb : p b
      · rw [List.filter_cons_of_neg (by simp [hpb]), iht,
          List.filter_cons_of_neg (by simp [hpb])]
      · rw [List.filter_cons_of_pos hpb, iht, List.filter_cons_of_pos hpb]
        cases hp : p a
        · simp
        · simp [List.orderedInsert, hab]

/-- Filtering commutes with insertion sort: the sort is stable. -/
theorem filter_insertionSort {α : Type} (r : α → α → Prop) [DecidableRel r] [IsTrans α r]
    [IsTotal α r] (p : α → Bool) (l : List α) :
    (l.insertionSort r).filter p = (l.filter p).insertionSort r := by
  induction l with
  | nil => rfl
  | cons a t ih =>
    rw [List.insertionSort_cons_eq_take_drop] 
    rw [← List.orderedInsert_eq_take_drop]
    rw [filter_orderedInsert r p a _ (List.sorted_insertionSort r t), ih]
    cases hp : p a
    · simp [hp]
    · simp [hp]

/-- Keeping the elements whose key is outside the keys of the tail past `k`
leaves the first `k` elements, when the keys are pairwise distinct. -/
theorem filter_not_mem_drop {α β : Type} [DecidableEq β] (f : α → β) (l : List α) (k : Nat)
    (h : (l.map f).Nodup) :
    l.filter (fun a => decide (f a ∉ (l.drop k).map f)) = l.take k := by
  have hsplit : (l.take k).map f ++ (l.drop k).map f = l.map f := by
    rw [← List.map_append, List.take_append_drop]
  rw [← hsplit] at h
  have hdis := List.disjoint_of_nodup_append h
  conv_lhs => rw [← List.take_append_drop k l]
  rw [List.filter_append]
  have h1 : (l.take k).filter (fun a => decide (f a ∉ (l.drop k).map f)) = l.take k := by
    rw [List.filter_eq_self]
    intro a ha
    have := hdis (List.mem_map_of_mem f ha)
    simpa using this
  have h2 : (l.drop k).filter (fun a => decide (f a ∉ (l.drop k).map f)) = [] := by
    rw [List.filter_eq_nil_iff]
    intro a ha
    have := List.mem_map_of_mem f ha
    simpa using this
  simp only [List.take_append_drop] at h1 h2 ⊢
  rw [h1, h2, List.append_nil]

/-- A file looked up after the entries at one path were removed. -/
theorem lookup_filter_ne {α : Type} (l : List (String × α)) (q p : String) :
    (l.filter (fun f => f.1 != q)).lookup p = if p = q then none else l.lookup p := by
  induction l with
  | nil => simp
  | cons e t ih =>
    by_cases hq : e.1 = q
    · rw [List.filter_cons_of_neg (by simp [hq]), ih]
      by_cases hp : p = q
      · simp [hp]
      · have : (p == e.1) = false := by
          rw [hq]; simpa using hp
        rw [if_neg hp, if_neg hp]
        cases e with
        | mk e1 e2 => simp only [List.lookup_cons]; simp only at this; rw [this]
    · rw [List.filter_cons_of_pos (by simpa using hq)]
      cases e with
      | mk e1 e2 =>
        simp only [List.lookup_cons]
        cases hpe : p == e1
        · simp only; exact ih
        · have h1 : p = e1 := by simpa using hpe
          have h2 : ¬ p = q := by rw [h1]; exact hq
          simp [h2]

/-! ## Deleting one record past the retention limit -/

/-- What `fs.unlinkSync` leaves of the files. -/
theorem backupService.unlinkSync_files (o : BackupOracle) (path : String) (w : World) :
    (backupService.unlinkSync o path w).2.backups = w.backups ∧
    ((backupService.unlinkSync o path w).1 = .ok () →
      (backupService.unlinkSync o path w).2.fs.files
        = w.fs.files.filter (fun f => f.1 != path)) ∧
    ((backupService.unlinkSync o path w).1 ≠ .ok () →
      (backupService.unlinkSync o path w).2.fs.files = w.fs.files) := by
  unfold backupService.unlinkSync
  simp only [World.emit]
  split
  · exact ⟨rfl, fun _ => rfl, fun h => absurd rfl h⟩
  · exact ⟨rfl, (fun h => by cases h), fun _ => rfl⟩

/-- What `backup.destroy()` leaves of the rows and of the files. -/
theorem Backup.destroy_rows (o : BackupOracle) (b : Backup) (w : World) :
    (Backup.destroy o b w).2.fs = w.fs ∧
    ((Backup.destroy o b w).1 = .ok () →
      (Backup.destroy o b w).2.backups = w.backups.filter (fun r => r.id != b.id)) ∧
    ((Backup.destroy o b w).1 ≠ .ok () → (Backup.destroy o b w).2.backups = w.backups) := by
  unfold Backup.destroy
  simp only [World.emit]
  split
  · exact ⟨rfl, fun _ => rfl, fun h => absurd rfl h⟩
  · exact ⟨rfl, (fun h => by cases h), fun _ => rfl⟩

/-- One pass of the inner loop of `cleanupBackups`: when it returns, the row
is gone and no file is left at its path; when it throws, the rows are as
before.  Either way, only the file at the path of the record can have gone. -/
theorem backupService.deleteOldBackup_step (o : BackupOracle) (b : Backup) (w : World) :
    ((backupService.deleteOldBackup o b w).1 = .ok () →
      (backupService.deleteOldBackup o b w).2.backups
          = w.backups.filter (fun r => r.id != b.id) ∧
        (b.filePath ≠ "" →
          (backupService.deleteOldBackup o b w).2.fs.files.lookup b.filePath = none)) ∧
    ((backupService.deleteOldBackup o b w).1 ≠ .ok () →
      (backupService.deleteOldBackup o b w).2.backups = w.backups) ∧
    (∀ p, (b.filePath ≠ "" → b.filePath ≠ p) →
      (backupService.deleteOldBackup o b w).2.fs.files.lookup p = w.fs.files.lookup p) ∧
    (∀ p, w.fs.files.lookup p = none →
      (backupService.deleteOldBackup o b w).2.fs.files.lookup p = none) := by
  unfold backupService.deleteOldBackup
  by_cases hc : (b.filePath != "" && w.fs.existsSync b.filePath) = true
  · rw [if_pos hc]
    have hne : b.filePath ≠ "" := by
      intro h
      simp [h] at hc
    obtain ⟨hub, huok, huerr⟩ := backupService.unlinkSync_files o b.filePath w
    cases hu : (backupService.unlinkSync o b.filePath w).1 with
    | error e =>
      rw [pair_of_fst hu]
      have hfiles := huerr (by rw [hu]; intro h; cases h)
      refine ⟨(fun h => by cases h), fun _ => hub, (fun p _ => by simp only; rw [hfiles]),
        (fun p hp => by simp only; rw [hfiles]; exact hp)⟩
    | ok u =>
      rw [pair_of_fst hu]
      have hfiles := huok hu
      obtain ⟨hdfs, hdok, hderr⟩ :=
        Backup.destroy_rows o b (backupService.unlinkSync o b.filePath w).2
      simp only
      refine ⟨fun h => ⟨?_, fun _ => ?_⟩, fun h => ?_, fun p hp => ?_, fun p hp => ?_⟩
      · rw [hdok h, hub]
      · rw [hdfs, hfiles, lookup_filter_ne, if_pos rfl]
      · rw [hderr h, hub]
      · rw [hdfs, hfiles, lookup_filter_ne, if_neg (fun h => hp hne h.symm)]
      · rw [hdfs, hfiles, lookup_filter_ne]
        split
        · rfl
        · exact hp
  · rw [if_neg hc]
    obtain ⟨hdfs, hdok, hderr⟩ := Backup.destroy_rows o b w
    simp only
    refine ⟨fun h => ⟨hdok h, fun hne => ?_⟩, hderr, (fun p _ => by rw [hdfs]),
      (fun p hp => by rw [hdfs]; exact hp)⟩
    rw [hdfs]
    have hex : w.fs.existsSync b.filePath = false := by
      cases hx : w.fs.existsSync b.filePath
      · rfl
      · exfalso; apply hc; simp [hx, hne]
    unfold FileSystem.existsSync at hex
    have h1 : (b.filePath != "") = true := by simpa using hne
    rw [h1] at hex
    simp only [Bool.true_and, Bool.or_eq_false_iff] at hex
    cases hl : w.fs.files.lookup b.filePath
    · rfl
    · rw [hl] at hex; simp at hex

/-! ## The loop over the records past the retention limit -/

/-- A loop whose first iteration throws ends there. -/
theorem forOf_cons_error {α β : Type} (body : α → World → Except Unit β × World)
    (x : α) (xs : List α) (w : World) (e : Unit) (h : (body x w).1 = .error e) :
    forOf body (x :: xs) w = (.error e, (body x w).2) := by
  simp only [forOf]
  rw [pair_of_fst h]

/-- A loop whose first iteration returns goes on with the rest from the world
that iteration left. -/
theorem forOf_cons_ok {α β : Type} (body : α → World → Except Unit β × World)
    (x : α) (xs : List α) (w : World) (b : β) (h : (body x w).1 = .ok b) :
    (forOf body (x :: xs) w).2 = (forOf body xs (body x w).2).2 ∧
    ∀ rs, (forOf body (x :: xs) w).1 = .ok rs →
      ∃ rest, (forOf body xs (body x w).2).1 = .ok rest ∧ rs = b :: rest := by
  simp only [forOf]
  rw [pair_of_fst h]
  simp only
  cases hr : (forOf body xs (body x w).2).1 with
  | error e =>
    rw [pair_of_fst hr]
    exact ⟨rfl, fun rs h => by cases h⟩
  | ok rest =>
    rw [pair_of_fst hr]
    exact ⟨rfl, fun rs h => ⟨rest, rfl, by cases h; rfl⟩⟩

/-- The inner loop of `cleanupBackups` over a list of records: the rows that
went are rows of the list (all of them when the loop returns), the only files
that can have gone are at paths of the list, and when the loop returns no
file is left at any of these paths. -/
theorem backupService.deleteLoop (o : BackupOracle) (L : List Backup) (w : World) :
    ∃ E : List Backup, (∀ e ∈ E, e ∈ L) ∧
      (∀ us, (forOf (backupService.deleteOldBackup o) L w).1 = .ok us → E = L) ∧
      (forOf (backupService.deleteOldBackup o) L w).2.backups
        = w.backups.filter (fun r => decide (r.id ∉ E.map (fun e => e.id))) ∧
      (∀ p, (∀ b ∈ L, b.filePath ≠ "" → b.filePath ≠ p) →
        (forOf (backupService.deleteOldBackup o) L w).2.fs.files.lookup p
          = w.fs.files.lookup p) ∧
      (∀ p, w.fs.files.lookup p = none →
        (forOf (backupService.deleteOldBackup o) L w).2.fs.files.lookup p = none) ∧
      (∀ us, (forOf (backupService.deleteOldBackup o) L w).1 = .ok us →
        ∀ b ∈ L, b.filePath ≠ "" →
          (forOf (backupService.deleteOldBackup o) L w).2.fs.files.lookup b.filePath = none) := by
  induction L generalizing w with
  | nil =>
    refine ⟨[], fun e he => he, fun _ _ => rfl, ?_, fun p _ => rfl, fun p hp => hp, ?_⟩
    · simp [forOf]
    · intro us _ b hb
      cases hb
  | cons b L ih =>
    obtain ⟨hok, herr, hsame, hmono⟩ := backupService.deleteOldBackup_step o b w
    cases hb : (backupService.deleteOldBackup o b w).1 with
    | error e =>
      rw [forOf_cons_error _ b L w e hb]
      refine ⟨[], (fun e he => by cases he), (fun us h => by cases h), ?_,
        fun p hp => hsame p (hp b (List.mem_cons_self _ _)), hmono, (fun us h => by cases h)⟩
      simp only
      rw [herr (by rw [hb]; intro h; cases h)]
      simp
    | ok u =>
      obtain ⟨hworld, hres⟩ := forOf_cons_ok (backupService.deleteOldBackup o) b L w u hb
      obtain ⟨hrows, hgone⟩ := hok hb
      obtain ⟨E, hsub, hall, hrows2, hsame2, hmono2, hgone2⟩ :=
        ih (backupService.deleteOldBackup o b w).2
      rw [hworld]
      refine ⟨b :: E, ?_, ?_, ?_, ?_, ?_, ?_⟩
      · intro e he
        rcases List.mem_cons.mp he with h1 | h1
        · rw [h1]; exact List.mem_cons_self _ _
        · exact List.mem_cons_of_mem _ (hsub e h1)
      · intro us hus
        obtain ⟨rest, hrest, -⟩ := hres us hus
        rw [hall rest hrest]
      · rw [hrows2, hrows, List.filter_filter]
        apply List.filter_congr
        intro r _
        by_cases hid : r.id = b.id
        · simp [hid]
        · simp [hid]
      · intro p hp
        rw [hsame2 p (fun c hc => hp c (List.mem_cons_of_mem _ hc)),
          hsame p (hp b (List.mem_cons_self _ _))]
      · intro p hp
        exact hmono2 p (hmono p hp)
      · intro us hus c hc hne
        obtain ⟨rest, hrest, -⟩ := hres us hus
        rcases List.mem_cons.mp hc with h1 | h1
        · rw [h1]
          exact hmono2 _ (hgone (by rw [← h1]; exact hne))
        · exact hgone2 rest hrest c h1 hne

/-- One iteration of the cleanup sweep, for the server `t`: the rows that went
are among the records of `t` past position `k` in the order of the query (all
of these when the `catch` block did not run), and so are the files. -/
theorem backupService.cleanupServer_step (o : BackupOracle) (k : Nat) (t : Server) (w : World) :
    ∃ E : List Backup, (∀ e ∈ E, e ∈ (Backup.findAll w.backups t.id).drop k) ∧
      ((backupService.cleanupServer o k t w).1 = .ok none →
        E = (Backup.findAll w.backups t.id).drop k) ∧
      (backupService.cleanupServer o k t w).2.backups
        = w.backups.filter (fun r => decide (r.id ∉ E.map (fun e => e.id))) ∧
      (∀ p, (∀ b ∈ (Backup.findAll w.backups t.id).drop k, b.filePath ≠ "" → b.filePath ≠ p) →
        (backupService.cleanupServer o k t w).2.fs.files.lookup p = w.fs.files.lookup p) ∧
      (∀ p, w.fs.files.lookup p = none →
        (backupService.cleanupServer o k t w).2.fs.files.lookup p = none) ∧
      ((backupService.cleanupServer o k t w).1 = .ok none →
        ∀ b ∈ (Backup.findAll w.backups t.id).drop k, b.filePath ≠ "" →
          (backupService.cleanupServer o k t w).2.fs.files.lookup b.filePath = none) := by
  obtain ⟨hres, hworld⟩ := backupService.cleanupServer_total o k t w
  have hnone : (backupService.cleanupServer o k t w).1 = .ok none →
      (backupService.cleanupServerTry o k t w).1 = .ok () := by
    intro h
    rw [hres] at h
    by_cases hc : (backupService.cleanupServerTry o k t w).1 = .ok ()
    · exact hc
    · rw [if_neg hc] at h
      cases h
  rw [hworld]
  have hnoop : ∀ v : World, v.backups = w.backups → v.fs = w.fs →
      (k < (Backup.findAll w.backups t.id).length → False) →
      ∃ E : List Backup, (∀ e ∈ E, e ∈ (Backup.findAll w.backups t.id).drop k) ∧
        ((backupService.cleanupServer o k t w).1 = .ok none →
          E = (Backup.findAll w.backups t.id).drop k) ∧
        v.backups = w.backups.filter (fun r => decide (r.id ∉ E.map (fun e => e.id))) ∧
        (∀ p, (∀ b ∈ (Backup.findAll w.backups t.id).drop k,
            b.filePath ≠ "" → b.filePath ≠ p) →
          v.fs.files.lookup p = w.fs.files.lookup p) ∧
        (∀ p, w.fs.files.lookup p = none → v.fs.files.lookup p = none) ∧
        ((backupService.cleanupServer o k t w).1 = .ok none →
          ∀ b ∈ (Backup.findAll w.backups t.id).drop k, b.filePath ≠ "" →
            v.fs.files.lookup b.filePath = none) := by
    intro v hvb hvf hlen
    have hdrop : (Backup.findAll w.backups t.id).drop k = [] :=
      List.drop_eq_nil_of_le (Nat.le_of_not_lt hlen)
    rw [hdrop]
    refine ⟨[], (fun e he => he), (fun _ => rfl), ?_, (fun p _ => by rw [hvf]),
      (fun p hp => by rw [hvf]; exact hp), (fun _ b hb => by cases hb)⟩
    rw [hvb]
    simp
  by_cases hfind : o.backupFindAll t.id = true
  · by_cases hlen : k < (Backup.findAll w.backups t.id).length
    · obtain ⟨E, hsub, hall, hrows, hsame, hmono, hgone⟩ :=
        backupService.deleteLoop o ((Backup.findAll w.backups t.id).drop k) w
      have htry : (backupService.cleanupServerTry o k t w).1
            = ((forOf (backupService.deleteOldBackup o)
                ((Backup.findAll w.backups t.id).drop k) w).1.map (fun _ => ())) ∧
          (backupService.cleanupServerTry o k t w).2
            = (forOf (backupService.deleteOldBackup o)
                ((Backup.findAll w.backups t.id).drop k) w).2 := by
        unfold backupService.cleanupServerTry
        rw [if_pos hfind]
        simp only
        rw [if_pos hlen]
        split
        · next us w1 h1 => rw [h1]; exact ⟨rfl, rfl⟩
        · next e w1 h1 => rw [h1]; exact ⟨rfl, rfl⟩
      have hloop : (backupService.cleanupServer o k t w).1 = .ok none →
          ∃ us, (forOf (backupService.deleteOldBackup o)
            ((Backup.findAll w.backups t.id).drop k) w).1 = .ok us := by
        intro h
        have h1 := hnone h
        rw [htry.1] at h1
        cases hf : (forOf (backupService.deleteOldBackup o)
            ((Backup.findAll w.backups t.id).drop k) w).1 with
        | error e => rw [hf] at h1; cases h1
        | ok us => exact ⟨us, rfl⟩
      rw [htry.2]
      refine ⟨E, hsub, ?_, hrows, hsame, hmono, ?_⟩
      · intro h
        obtain ⟨us, hus⟩ := hloop h
        exact hall us hus
      · intro h
        obtain ⟨us, hus⟩ := hloop h
        exact hgone us hus
    · have hw : (backupService.cleanupServerTry o k t w).2 = w := by
        unfold backupService.cleanupServerTry
        rw [if_pos hfind]
        simp only
        rw [if_neg hlen]
      rw [hw]
      exact hnoop w rfl rfl hlen
  · have hw : (backupService.cleanupServerTry o k t w).2 = w := by
      unfold backupService.cleanupServerTry
      rw [if_neg hfind]
    have hfail : (backupService.cleanupServer o k t w).1 = .ok none → False := by
      intro h
      have h1 := hnone h
      unfold backupService.cleanupServerTry at h1
      rw [if_neg hfind] at h1
      cases h1
    rw [hw]
    refine ⟨[], (fun e he => by cases he), (fun h => (hfail h).elim), by simp,
      (fun p _ => rfl), (fun p hp => hp), (fun h => (hfail h).elim)⟩

/-! ## One iteration of the cleanup sweep, seen from one server -/

/-- The records the query returns for a server are rows of that server. -/
theorem Backup.mem_findAll (rows : List Backup) (sid : String) (b : Backup) :
    b ∈ Backup.findAll rows sid ↔ b ∈ rows ∧ b.serverId = sid := by
  unfold Backup.findAll
  rw [List.mem_insertionSort, List.mem_filter]
  simp

/-- The keys of the records the query returns are pairwise distinct when the keys of the rows are. -/
theorem Backup.findAll_nodup (rows : List Backup) (sid : String)
    (hid : (rows.map (fun b => b.id)).Nodup) :
    ((Backup.findAll rows sid).map (fun b => b.id)).Nodup := by
  unfold Backup.findAll
  have hperm := (List.perm_insertionSort (fun a b : Backup => b.createdAt ≤ a.createdAt)
    (rows.filter (fun b => b.serverId == sid))).map (fun b => b.id)
  rw [hperm.nodup_iff]
  exact hid.sublist (List.Sublist.map (fun b : Backup => b.id) (List.filter_sublist _))

/-- The query after some rows of other servers went returns what it returned before. -/
theorem Backup.findAll_filter_other (rows : List Backup) (sid : String) (q : Backup → Bool)
    (h : ∀ r ∈ rows, r.serverId = sid → q r = true) :
    Backup.findAll (rows.filter q) sid = Backup.findAll rows sid := by
  unfold Backup.findAll
  rw [List.filter_filter]
  congr 1
  apply List.filter_congr
  intro r hr
  by_cases hs : r.serverId = sid
  · simp [hs, h r hr hs]
  · simp [hs]

/-- The query after the rows past position `k` of its own result went returns
the first `k` records of what it returned before. -/
theorem Backup.findAll_filter_own (rows : List Backup) (sid : String) (k : Nat)
    (hid : (rows.map (fun b => b.id)).Nodup) :
    Backup.findAll (rows.filter (fun r =>
        decide (r.id ∉ ((Backup.findAll rows sid).drop k).map (fun e => e.id)))) sid
      = (Backup.findAll rows sid).take k := by
  haveI : IsTrans Backup (fun a b => b.createdAt ≤ a.createdAt) :=
    ⟨fun a b c h1 h2 => Nat.le_trans h2 h1⟩
  haveI : IsTotal Backup (fun a b => b.createdAt ≤ a.createdAt) :=
    ⟨fun a b => Nat.le_total b.createdAt a.createdAt⟩
  have hnd := Backup.findAll_nodup rows sid hid
  have htake := filter_not_mem_drop (fun b : Backup => b.id) (Backup.findAll rows sid) k hnd
  rw [← htake]
  unfold Backup.findAll
  rw [filter_insertionSort, List.filter_filter, List.filter_filter]
  congr 1
  apply List.filter_congr
  intro r _
  rw [Bool.and_comm]

/-- One iteration of the cleanup sweep, for the server `t`, seen from the
server with id `sid`, in a store whose keys are distinct and where no two
records share an archive path.  An iteration for another server leaves the
records of `sid` and their files as they were.  An iteration for `sid` whose
`catch` block did not run leaves the first `k` records of the query with their
files, and no file at the path of any other record of `sid`. -/
theorem backupService.cleanupServer_target (o : BackupOracle) (k : Nat) (t : Server)
    (w : World) (sid : String)
    (hid : (w.backups.map (fun b => b.id)).Nodup)
    (hpath : ∀ a ∈ w.backups, ∀ b ∈ w.backups,
      a.filePath = b.filePath → a.filePath ≠ "" → a = b) :
    (backupService.cleanupServer o k t w).2.backups.Sublist w.backups ∧
    (t.id ≠ sid →
      Backup.findAll (backupService.cleanupServer o k t w).2.backups sid
          = Backup.findAll w.backups sid ∧
        ∀ b ∈ Backup.findAll w.backups sid,
          (backupService.cleanupServer o k t w).2.fs.files.lookup b.filePath
            = w.fs.files.lookup b.filePath) ∧
    (t.id = sid → (backupService.cleanupServer o k t w).1 = .ok none →
      Backup.findAll (backupService.cleanupServer o k t w).2.backups sid
          = (Backup.findAll w.backups sid).take k ∧
        (∀ b ∈ (Backup.findAll w.backups sid).drop k, b.filePath ≠ "" →
          (backupService.cleanupServer o k t w).2.fs.files.lookup b.filePath = none) ∧
        ∀ b ∈ (Backup.findAll w.backups sid).take k,
          (backupService.cleanupServer o k t w).2.fs.files.lookup b.filePath
            = w.fs.files.lookup b.filePath) ∧
    (∀ p, w.fs.files.lookup p = none →
      (backupService.cleanupServer o k t w).2.fs.files.lookup p = none) := by
  obtain ⟨E, hsub, hall, hrows, hsame, hmono, hgone⟩ :=
    backupService.cleanupServer_step o k t w
  have hinj : ∀ a ∈ w.backups, ∀ b ∈ w.backups, a.id = b.id → a = b :=
    fun a ha b hb h => List.inj_on_of_nodup_map hid ha hb h
  refine ⟨?_, ?_, ?_, hmono⟩
  · rw [hrows]
    exact List.filter_sublist _
  · intro hne
    constructor
    · rw [hrows]
      apply Backup.findAll_filter_other
      intro r hr hrs
      simp only [decide_eq_true_eq, List.mem_map, not_exists, not_and]
      intro e he heq
      have hmem := (Backup.mem_findAll w.backups t.id e).mp (List.mem_of_mem_drop (hsub e he))
      have := hinj e hmem.1 r hr heq
      rw [this] at hmem
      exact hne (hmem.2.symm.trans hrs)
    · intro b hb
      have hbm := (Backup.mem_findAll w.backups sid b).mp hb
      apply hsame
      intro d hd hdne heq
      have hdm := (Backup.mem_findAll w.backups t.id d).mp (List.mem_of_mem_drop hd)
      have := hpath d hdm.1 b hbm.1 heq hdne
      rw [this] at hdm
      exact hne (hdm.2.symm.trans hbm.2)
  · intro heq hok
    subst heq
    have hE := hall hok
    refine ⟨?_, hgone hok, ?_⟩
    · rw [hrows, hE]
      exact Backup.findAll_filter_own w.backups t.id k hid
    · intro b hb
      apply hsame
      intro d hd hdne heq
      have hbm := (Backup.mem_findAll w.backups t.id b).mp (List.mem_of_mem_take hb)
      have hdm := (Backup.mem_findAll w.backups t.id d).mp (List.mem_of_mem_drop hd)
      have hdb := hpath d hdm.1 b hbm.1 heq hdne
      have hnd : (Backup.findAll w.backups t.id).Nodup :=
        (Backup.findAll_nodup w.backups t.id hid).of_map
      rw [← List.take_append_drop k (Backup.findAll w.backups t.id)] at hnd
      have hdis := List.disjoint_of_nodup_append hnd
      rw [hdb] at hd
      exact hdis hb hd

/-! ## The cleanup sweep, seen from one server -/

/-- The loop of `cleanupBackups` over the servers `l`, seen from the server
with id `sid` when no `catch` block ran for it: its records are the first `k`
of the query when it is among `l` and all of them otherwise, the kept records
have their files as before, and no file is left at the path of a record that
went. -/
theorem backupService.cleanupLoop_target (o : BackupOracle) (k : Nat) (sid : String)
    (l : List Server) (w : World) (rs : List (Option String))
    (hid : (w.backups.map (fun b => b.id)).Nodup)
    (hpath : ∀ a ∈ w.backups, ∀ b ∈ w.backups,
      a.filePath = b.filePath → a.filePath ≠ "" → a = b)
    (h : (forOf (backupService.cleanupServer o k) l w).1 = .ok rs)
    (hs : sid ∉ rs.filterMap id) :
    (forOf (backupService.cleanupServer o k) l w).2.backups.Sublist w.backups ∧
    Backup.findAll (forOf (backupService.cleanupServer o k) l w).2.backups sid
      = (if sid ∈ l.map (fun s => s.id) then (Backup.findAll w.backups sid).take k
          else Backup.findAll w.backups sid) ∧
    (∀ b ∈ Backup.findAll (forOf (backupService.cleanupServer o k) l w).2.backups sid,
      (forOf (backupService.cleanupServer o k) l w).2.fs.files.lookup b.filePath
        = w.fs.files.lookup b.filePath) ∧
    (sid ∈ l.map (fun s => s.id) →
      ∀ b ∈ (Backup.findAll w.backups sid).drop k, b.filePath ≠ "" →
        (forOf (backupService.cleanupServer o k) l w).2.fs.files.lookup b.filePath = none) ∧
    (∀ p, w.fs.files.lookup p = none →
      (forOf (backupService.cleanupServer o k) l w).2.fs.files.lookup p = none) := by
  induction l generalizing w rs with
  | nil =>
    refine ⟨List.Sublist.refl _, by simp [forOf], (fun b _ => rfl), (fun h => by simp at h),
      (fun p hp => hp)⟩
  | cons t ts ih =>
    obtain ⟨hres, -⟩ := backupService.cleanupServer_total o k t w
    obtain ⟨hworld, hrest⟩ := forOf_cons_ok (backupService.cleanupServer o k) t ts w _ hres
    obtain ⟨rest, hrestok, hrs⟩ := hrest rs h
    obtain ⟨hsub1, hother, hown, hmono1⟩ :=
      backupService.cleanupServer_target o k t w sid hid hpath
    have hid1 : ((backupService.cleanupServer o k t w).2.backups.map (fun b => b.id)).Nodup :=
      hid.sublist (List.Sublist.map (fun b : Backup => b.id) hsub1)
    have hpath1 : ∀ a ∈ (backupService.cleanupServer o k t w).2.backups,
        ∀ b ∈ (backupService.cleanupServer o k t w).2.backups,
          a.filePath = b.filePath → a.filePath ≠ "" → a = b :=
      fun a ha b hb => hpath a (hsub1.subset ha) b (hsub1.subset hb)
    have hs1 : sid ∉ rest.filterMap id := by
      intro hmem
      apply hs
      rw [hrs]
      by_cases hc : (backupService.cleanupServerTry o k t w).1 = .ok ()
      · rw [if_pos hc]
        simpa using hmem
      · rw [if_neg hc]
        simp only [List.filterMap_cons, id_eq]
        exact List.mem_cons_of_mem _ hmem
    obtain ⟨hsub2, hfind2, hkept2, hgone2, hmono2⟩ :=
      ih (backupService.cleanupServer o k t w).2 rest hid1 hpath1 hrestok hs1
    rw [hworld]
    by_cases hts : t.id = sid
    · have hnone : (backupService.cleanupServer o k t w).1 = .ok none := by
        rw [hres]
        by_cases hc : (backupService.cleanupServerTry o k t w).1 = .ok ()
        · rw [if_pos hc]
        · exfalso
          apply hs
          rw [hrs, if_neg hc, hts]
          simp
      obtain ⟨hfind1, hgone1, hkept1⟩ := hown hts hnone
      have hfind : Backup.findAll
          (forOf (backupService.cleanupServer o k) ts
            (backupService.cleanupServer o k t w).2).2.backups sid
            = (Backup.findAll w.backups sid).take k := by
        rw [hfind2, hfind1]
        split
        · rw [List.take_take, Nat.min_self]
        · rfl
      have hin : sid ∈ (t :: ts).map (fun s => s.id) := by
        rw [← hts]
        exact List.mem_map_of_mem (fun s : Server => s.id) (List.mem_cons_self _ _)
      refine ⟨hsub2.trans hsub1, ?_, ?_, ?_, fun p hp => hmono2 p (hmono1 p hp)⟩
      · rw [hfind, if_pos hin]
      · intro b hb
        rw [hkept2 b hb]
        rw [hfind] at hb
        exact hkept1 b hb
      · intro _ b hb hne
        exact hmono2 _ (hgone1 b hb hne)
    · obtain ⟨hfind1, hkept1⟩ := hother hts
      have hiff : sid ∈ (t :: ts).map (fun s => s.id) ↔ sid ∈ ts.map (fun s => s.id) := by
        simp only [List.map_cons, List.mem_cons]
        constructor
        · intro h1
          rcases h1 with h1 | h1
          · exact absurd h1.symm hts
          · exact h1
        · exact Or.inr
      refine ⟨hsub2.trans hsub1, ?_, ?_, ?_, fun p hp => hmono2 p (hmono1 p hp)⟩
      · rw [hfind2, hfind1]
        by_cases hin : sid ∈ ts.map (fun s => s.id)
        · rw [if_pos hin, if_pos (hiff.mpr hin)]
        · rw [if_neg hin, if_neg (fun h1 => hin (hiff.mp h1))]
      · intro b hb
        rw [hkept2 b hb]
        apply hkept1
        have hbm := (Backup.mem_findAll _ sid b).mp hb
        exact (Backup.mem_findAll w.backups sid b).mpr ⟨hsub1.subset (hsub2.subset hbm.1), hbm.2⟩
      · intro hin b hb hne
        rw [← hfind1] at hb
        exact hgone2 (hiff.mp hin) b hb hne

/-! ## C11: retention -/

/-- C11. Retention.  Take a store in which the keys of the records are
distinct and no two records share an archive path, a server `s` of the store
with `N` records and a limit `K < N`.  After `cleanupBackups(K)` ran with no
failure for `s` (the outer `catch` block did not run and `s` is not among the
servers whose own `catch` block ran): the query for the records of `s` returns
the first `K` records it returned before, in the same order, so exactly `K`
rows of `s` remain; each of them was created no earlier than each record that
went; no record that went is in the store; no file is left at the path of a
record that went; and the file at the path of each kept record is the file
that was there before. -/
theorem C11_retention (o : BackupOracle) (K : Nat) (s : Server) (w : World)
    (rep : backupService.SweepReport)
    (hid : (w.backups.map (fun b => b.id)).Nodup)
    (hpath : ∀ a ∈ w.backups, ∀ b ∈ w.backups,
      a.filePath = b.filePath → a.filePath ≠ "" → a = b)
    (hs : s ∈ w.db)
    (hK : K < (Backup.findAll w.backups s.id).length)
    (hrep : (backupService.cleanupBackups o (some K) w).1 = .ok rep)
    (houter : rep.outerCaught = false)
    (hfail : s.id ∉ rep.failed) :
    Backup.findAll (backupService.cleanupBackups o (some K) w).2.backups s.id
      = (Backup.findAll w.backups s.id).take K ∧
    ((backupService.cleanupBackups o (some K) w).2.backups.filter
      (fun b => b.serverId == s.id)).length = K ∧
    (∀ a ∈ (Backup.findAll w.backups s.id).take K,
      ∀ d ∈ (Backup.findAll w.backups s.id).drop K, d.createdAt ≤ a.createdAt) ∧
    (∀ d ∈ (Backup.findAll w.backups s.id).drop K,
      d ∉ (backupService.cleanupBackups o (some K) w).2.backups) ∧
    (∀ d ∈ (Backup.findAll w.backups s.id).drop K, d.filePath ≠ "" →
      (backupService.cleanupBackups o (some K) w).2.fs.files.lookup d.filePath = none) ∧
    (∀ a ∈ (Backup.findAll w.backups s.id).take K,
      (backupService.cleanupBackups o (some K) w).2.fs.files.lookup a.filePath
        = w.fs.files.lookup a.filePath) := by
  have hfind : o.serverFindAll = true := by
    cases hf : o.serverFindAll
    · simp only [backupService.cleanupBackups, hf] at hrep
      simp only [Bool.false_eq_true, if_false, Except.ok.injEq] at hrep
      rw [← hrep] at houter
      cases houter
    · rfl
  obtain ⟨failures, hres, hloop, -⟩ := backupService.cleanupBackups_world o (some K) w hfind
  simp only [Option.getD_some] at hloop
  have hworld : (backupService.cleanupBackups o (some K) w).2
      = (forOf (backupService.cleanupServer o K) w.db w).2 := by
    unfold backupService.cleanupBackups
    simp only [Option.getD_some]
    rw [if_pos hfind, pair_of_fst hloop]
  have hfailed : s.id ∉ failures.filterMap id := by
    rw [hres] at hrep
    simp only [Except.ok.injEq] at hrep
    rw [← hrep] at hfail
    exact hfail
  have hin : s.id ∈ w.db.map (fun t => t.id) :=
    List.mem_map_of_mem (fun t : Server => t.id) hs
  obtain ⟨-, hq, hkept, hgone, -⟩ :=
    backupService.cleanupLoop_target o K s.id w.db w failures hid hpath hloop hfailed
  rw [if_pos hin] at hq
  rw [hworld]
  have hsorted : (Backup.findAll w.backups s.id).Sorted
      (fun a b => b.createdAt ≤ a.createdAt) := by
    haveI : IsTrans Backup (fun a b => b.createdAt ≤ a.createdAt) :=
      ⟨fun a b c h1 h2 => Nat.le_trans h2 h1⟩
    haveI : IsTotal Backup (fun a b => b.createdAt ≤ a.createdAt) :=
      ⟨fun a b => Nat.le_total b.createdAt a.createdAt⟩
    exact List.sorted_insertionSort _ _
  refine ⟨hq, ?_, ?_, ?_, hgone hin, ?_⟩
  · have hlen := congrArg List.length hq
    unfold Backup.findAll at hlen
    rw [List.length_insertionSort, List.length_take, List.length_insertionSort] at hlen
    rw [hlen]
    unfold Backup.findAll at hK
    rw [List.length_insertionSort] at hK
    exact Nat.min_eq_left (Nat.le_of_lt hK)
  · intro a ha d hd
    exact hsorted.rel_of_mem_take_of_mem_drop ha hd
  · intro d hd hmem
    have hdm := (Backup.mem_findAll w.backups s.id d).mp (List.mem_of_mem_drop hd)
    have hd2 : d ∈ Backup.findAll
        (forOf (backupService.cleanupServer o K) w.db w).2.backups s.id :=
      (Backup.mem_findAll _ s.id d).mpr ⟨hmem, hdm.2⟩
    rw [hq] at hd2
    have hnd : (Backup.findAll w.backups s.id).Nodup :=
      (Backup.findAll_nodup w.backups s.id hid).of_map
    rw [← List.take_append_drop K (Backup.findAll w.backups s.id)] at hnd
    exact List.disjoint_of_nodup_append hnd hd2 hd
  · intro a ha
    apply hkept
    rw [hq]
    exact ha

/-- C11 at a concrete input: the server `s1` has three records, made at times
10, 30 and 20; after `cleanupBackups(1)` only the record made at time 30 is
left, with its archive, and the two other archives are gone. -/
theorem C11_retention_witness :
    Backup.findAll (backupService.cleanupBackups Sample.backupOk (some 1)
        Sample.backedUp).2.backups "s1" = [Sample.record "b2" 30] ∧
    (backupService.cleanupBackups Sample.backupOk (some 1) Sample.backedUp).2.fs.files
      = [("/app/data/backups/b2.tar.gz", { entries := Sample.tree, size := 2048 })] :=
  ⟨(C11_retention Sample.backupOk 1 Sample.fresh Sample.backedUp
      { outerCaught := false, failed := [] } (by decide) (by decide) (by decide) (by decide)
      (by decide) rfl (by decide)).1.trans (by decide), by decide⟩


/-! ## The value `getContainerConfig` returns -/

/-- When `getContainerConfig` returns, the value is the configuration built
from the server and the path of its directory under the working directory. -/
theorem dockerService.getContainerConfig_result (o : AssemblyOracle) (server : Server)
    (w : World) (r : AssemblyResult)
    (h : (dockerService.getContainerConfig o server w).1 = .ok r) :
    r = { containerConfig :=
            dockerService.containerConfigOf server (w.fs.serverDir server.id),
          serverDir := w.fs.serverDir server.id } := by
  unfold dockerService.getContainerConfig at h
  split at h
  · simp only at h
    split at h
    · cases h
    · split at h
      · cases h
      · split at h
        · cases h
        · split at h
          · cases h
          · simp only [Except.ok.injEq] at h
            exact h.symm
  · cases h

/-! ## C21: the resource limits, the port binding and the restart policy -/

/-- C21. For every server record, the container configuration
`getContainerConfig` returns has `Memory` equal to `memory * 1024 * 1024`,
`MemorySwap` equal to twice `Memory`, `CpuPercent` equal to `cpu`, exactly one
port binding, which maps the container port `<port>/tcp` to the host port
`<port>`, and a restart policy named `unless-stopped` when `autoRestart` is
set and `no` otherwise. -/
theorem C21_container_limits (o : AssemblyOracle) (server : Server) (w : World)
    (r : AssemblyResult)
    (h : (dockerService.getContainerConfig o server w).1 = .ok r) :
    r.containerConfig.HostConfig.Memory = server.memory * 1024 * 1024 ∧
    r.containerConfig.HostConfig.MemorySwap = 2 * r.containerConfig.HostConfig.Memory ∧
    r.containerConfig.HostConfig.CpuPercent = server.cpu ∧
    r.containerConfig.HostConfig.PortBindings
      = [(toString server.port ++ "/tcp", [{ HostPort := toString server.port }])] ∧
    (r.containerConfig.HostConfig.RestartPolicy.Name = "unless-stopped"
      ↔ server.autoRestart = true) ∧
    (r.containerConfig.HostConfig.RestartPolicy.Name = "no" ↔ server.autoRestart = false) := by
  rw [dockerService.getContainerConfig_result o server w r h]
  refine ⟨rfl, ?_, rfl, rfl, ?_, ?_⟩
  · show server.memory * 1024 * 1024 * 2 = 2 * (server.memory * 1024 * 1024)
    ring
  · show (if server.autoRestart then "unless-stopped" else "no") = "unless-stopped" ↔ _
    cases server.autoRestart
    · simp
    · simp
  · show (if server.autoRestart then "unless-stopped" else "no") = "no" ↔ _
    cases server.autoRestart
    · simp
    · simp

/-- C21 at a concrete input: the sample server, with 1024 MB, port 25565 and
no automatic restart. -/
theorem C21_container_limits_witness :
    (dockerService.getContainerConfig Sample.assemblyOk Sample.fresh Sample.scripted).1
      = .ok { containerConfig :=
                dockerService.containerConfigOf Sample.fresh "/app/data/servers/s1",
              serverDir := "/app/data/servers/s1" } ∧
    (dockerService.containerConfigOf Sample.fresh "/app/data/servers/s1").HostConfig.Memory
      = 1073741824 ∧
    (dockerService.containerConfigOf Sample.fresh "/app/data/servers/s1").HostConfig.MemorySwap
      = 2 * (dockerService.containerConfigOf Sample.fresh
          "/app/data/servers/s1").HostConfig.Memory ∧
    (dockerService.containerConfigOf Sample.fresh "/app/data/servers/s1").HostConfig.PortBindings
      = [("25565/tcp", [{ HostPort := "25565" }])] :=
  ⟨by decide,
   (C21_container_limits Sample.assemblyOk Sample.fresh Sample.scripted
      { containerConfig := dockerService.containerConfigOf Sample.fresh "/app/data/servers/s1",
        serverDir := "/app/data/servers/s1" } (by decide)).1.trans (by decide),
   (C21_container_limits Sample.assemblyOk Sample.fresh Sample.scripted
      { containerConfig := dockerService.containerConfigOf Sample.fresh "/app/data/servers/s1",
        serverDir := "/app/data/servers/s1" } (by decide)).2.1,
   (C21_container_limits Sample.assemblyOk Sample.fresh Sample.scripted
      { containerConfig := dockerService.containerConfigOf Sample.fresh "/app/data/servers/s1",
        serverDir := "/app/data/servers/s1" } (by decide)).2.2.2.1.trans (by decide)⟩


/-! ## The directory the restore works on -/

/-- The requests of the service's `restoreBackup`: the creation of the
directory of the server, `rm -rf` on its contents and the extraction of the
archive into it, and no other. -/
theorem backupService.restoreBackup_log (o : BackupOracle) (server : Server) (backup : Backup)
    (w : World) :
    ∃ suffix, (backupService.restoreBackup o server backup w).2.log = w.log ++ suffix ∧
      ∀ e ∈ suffix, e = Effect.mkdir (w.fs.serverDir server.id) ∨
        e = Effect.exec (.rmContents (w.fs.serverDir server.id)) ∨
        e = Effect.exec (.tarExtract backup.filePath (w.fs.serverDir server.id)) := by
  unfold backupService.restoreBackup
  split
  · exact ⟨[], by simp, by simp⟩
  · simp only
    have hpre : ∃ pre, (if (!w.fs.existsSync (w.fs.serverDir server.id)) = true then
          backupService.mkdirSync o (w.fs.serverDir server.id) w else (.ok (), w)).2.log
          = w.log ++ pre ∧ ∀ e ∈ pre, e = Effect.mkdir (w.fs.serverDir server.id) := by
      split
      · exact ⟨_, backupService.mkdirSync_log o _ w, by simp⟩
      · exact ⟨[], by simp, by simp⟩
    obtain ⟨pre, hpre, hmk⟩ := hpre
    split
    · next e w1 h1 =>
      rw [h1] at hpre
      exact ⟨pre, hpre, fun e he => Or.inl (hmk e he)⟩
    · next u w1 h1 =>
      rw [h1] at hpre
      simp only at hpre
      have hrm := backupService.exec_log o (.rmContents (w.fs.serverDir server.id)) w1
      rw [hpre] at hrm
      split
      · next e w2 h2 =>
        rw [h2] at hrm
        refine ⟨pre ++ [Effect.exec (.rmContents (w.fs.serverDir server.id))],
          by simpa using hrm, ?_⟩
        intro e he
        rcases List.mem_append.mp he with h | h
        · exact Or.inl (hmk e h)
        · exact Or.inr (Or.inl (List.mem_singleton.mp h))
      · next u2 w2 h2 =>
        rw [h2] at hrm
        simp only at hrm
        have hx := backupService.exec_log o
          (.tarExtract backup.filePath (w.fs.serverDir server.id)) w2
        rw [hrm] at hx
        have hall : ∀ e ∈ (pre ++ [Effect.exec (.rmContents (w.fs.serverDir server.id))]) ++
            [Effect.exec (.tarExtract backup.filePath (w.fs.serverDir server.id))],
            e = Effect.mkdir (w.fs.serverDir server.id) ∨
            e = Effect.exec (.rmContents (w.fs.serverDir server.id)) ∨
            e = Effect.exec (.tarExtract backup.filePath (w.fs.serverDir server.id)) := by
          intro e he
          rcases List.mem_append.mp he with h | h
          · rcases List.mem_append.mp h with h | h
            · exact Or.inl (hmk e h)
            · exact Or.inr (Or.inl (List.mem_singleton.mp h))
          · exact Or.inr (Or.inr (List.mem_singleton.mp h))
        split
        · next e w3 h3 =>
          rw [h3] at hx
          exact ⟨_, by simpa using hx, hall⟩
        · next u3 w3 h3 =>
          rw [h3] at hx
          exact ⟨_, by simpa using hx, hall⟩

/-! ## C22: one directory for the container, the backup and the restore -/

/-- C22. For every server, the host directory `getContainerConfig` binds to
the `/data` of the container is `data/servers/<server.id>` under the working
directory; every command the service's `createBackup` runs is the `tar` of
that same directory; and every request of the service's `restoreBackup` is
the creation of that directory, the `rm -rf` of its contents or the
extraction of the archive into it. -/
theorem C22_one_server_directory (oa : AssemblyOracle) (ob : BackupOracle) (server : Server)
    (backupId : String) (backup : Backup) (w : World) :
    (∀ r, (dockerService.getContainerConfig oa server w).1 = .ok r →
      r.containerConfig.HostConfig.Binds
          = [pathJoin [w.fs.cwd, "data", "servers", server.id] ++ ":/data"] ∧
        r.serverDir = pathJoin [w.fs.cwd, "data", "servers", server.id]) ∧
    (∃ suffix, (backupService.createBackup ob server backupId w).2.log = w.log ++ suffix ∧
      ∀ c, Effect.exec c ∈ suffix →
        ∃ p, c = .tarCreate p (pathJoin [w.fs.cwd, "data", "servers", server.id])) ∧
    (∃ suffix, (backupService.restoreBackup ob server backup w).2.log = w.log ++ suffix ∧
      ∀ e ∈ suffix,
        e = Effect.mkdir (pathJoin [w.fs.cwd, "data", "servers", server.id]) ∨
        e = Effect.exec (.rmContents (pathJoin [w.fs.cwd, "data", "servers", server.id])) ∨
        e = Effect.exec (.tarExtract backup.filePath
          (pathJoin [w.fs.cwd, "data", "servers", server.id]))) := by
  refine ⟨?_, backupService.createBackup_log ob server backupId w,
    backupService.restoreBackup_log ob server backup w⟩
  intro r h
  rw [dockerService.getContainerConfig_result oa server w r h]
  exact ⟨rfl, rfl⟩

/-- C22 at a concrete input: the configuration of the sample server binds
`/app/data/servers/s1`. -/
theorem C22_one_server_directory_witness :
    (dockerService.containerConfigOf Sample.fresh "/app/data/servers/s1").HostConfig.Binds
      = ["/app/data/servers/s1:/data"] :=
  ((C22_one_server_directory Sample.assemblyOk Sample.backupOk Sample.fresh "b9"
      (Sample.record "b1" 10) Sample.scripted).1
    { containerConfig := dockerService.containerConfigOf Sample.fresh "/app/data/servers/s1",
      serverDir := "/app/data/servers/s1" } (by decide)).1.trans (by decide)


/-! ## The name of an archive -/

/-- The path `createBackup` returns is the archive path: the file name joined
to the backups root of the working directory. -/
theorem backupService.createBackup_filePath (o : BackupOracle) (server : Server)
    (backupId : String) (w : World) (r : backupService.BackupResult)
    (h : (backupService.createBackup o server backupId w).1 = .ok r) :
    r.filePath = backupService.archivePath w.fs o server backupId := by
  unfold backupService.createBackup at h
  have hdir : ∀ d v, backupService.ensureBackupDir o w = (.ok d, v) → d = w.fs.backupDir := by
    intro d v hd
    unfold backupService.ensureBackupDir at hd
    simp only at hd
    split at hd
    · split at hd
      · next u w1 h1 =>
        simp only [Prod.mk.injEq, Except.ok.injEq] at hd
        exact hd.1.symm
      · next e w1 h1 =>
        simp only [Prod.mk.injEq] at hd
        cases hd.1
    · simp only [Prod.mk.injEq, Except.ok.injEq] at hd
      exact hd.1.symm
  split at h
  · cases h
  · next backupDir w1 h1 =>
    have hd := hdir backupDir w1 h1
    subst hd
    simp only at h
    split at h
    · cases h
    · split at h
      · simp only [Except.ok.injEq] at h
        rw [← h]
        rfl
      · cases h

/-- Two paths that end in two texts of the same length followed by the same
extension are equal only when the two texts are. -/
theorem append_suffix_inj (a b x y e : String) (hlen : x.length = y.length)
    (h : a ++ x ++ e = b ++ y ++ e) : x = y := by
  have hd := congrArg String.data h
  simp only [String.data_append, List.append_assoc] at hd
  have hl : (x.data ++ e.data).length = (y.data ++ e.data).length := by
    simp only [List.length_append]
    have : x.data.length = y.data.length := hlen
    rw [this]
  have h2 := List.append_inj_right' hd hl
  have h3 := List.append_cancel_right h2
  exact String.ext h3

/-- Archive paths made for two keys of the same length are equal only when the keys are. -/
theorem backupService.archivePath_inj (fs1 fs2 : FileSystem) (o1 o2 : BackupOracle)
    (s1 s2 : Server) (id1 id2 : String) (hlen : id1.length = id2.length)
    (h : backupService.archivePath fs1 o1 s1 id1 = backupService.archivePath fs2 o2 s2 id2) :
    id1 = id2 := by
  unfold backupService.archivePath backupService.backupFilename at h
  simp only [pathJoin] at h
  apply append_suffix_inj
    (fs1.backupDir ++ "/" ++ (s1.name ++ "-" ++
      backupService.timestampOf (o1.isoTimestamp s1.id) ++ "-"))
    (fs2.backupDir ++ "/" ++ (s2.name ++ "-" ++
      backupService.timestampOf (o2.isoTimestamp s2.id) ++ "-")) id1 id2 ".tar.gz" hlen
  simp only [String.append_assoc] at h ⊢
  exact h

/-! ## C26: where the archive goes and how it is named -/

/-- C26 (amended). Take a server whose name holds no `/` (the ISO text and
the backup id never hold one), so that the file name is a single path segment
and `path.join` adds it to the backups root unchanged.  When the backups root
exists or can be created, the directory of the server exists and `tar`
succeeds, the service's `createBackup` writes the archive directly under the
backups root, the path `ensureBackupDir` returns, under the file name
`<server.name>-<T>-<backupId>.tar.gz`, which holds no `/`, and returns that
path as `filePath`.  `T` is the ISO text of the time of the call with every
colon and every dot replaced by `-`: it has the length of the ISO text and
differs from it at these characters only. -/
theorem C26_archive_name (o : BackupOracle) (server : Server) (backupId : String)
    (w : World) (t : Tree) (size : Nat)
    (htree : w.fs.tree (w.fs.serverDir server.id) = some t)
    (hroot : w.fs.existsSync w.fs.backupDir = true ∨ o.mkdir w.fs.backupDir = true)
    (htar : o.tarCreate (backupService.archivePath w.fs o server backupId) = some size)
    (hname : '/' ∉ server.name.data)
    (hiso : '/' ∉ (o.isoTimestamp server.id).data)
    (hbid : '/' ∉ backupId.data) :
    (∃ root, (backupService.ensureBackupDir o w).1 = .ok root ∧
      (backupService.createBackup o server backupId w).1
        = .ok { filePath := root ++ "/" ++
                  (server.name ++ "-" ++ backupService.timestampOf (o.isoTimestamp server.id)
                    ++ "-" ++ backupId ++ ".tar.gz"),
                size := size } ∧
      ((backupService.createBackup o server backupId w).2.fs.files.lookup
        (root ++ "/" ++
          (server.name ++ "-" ++ backupService.timestampOf (o.isoTimestamp server.id)
            ++ "-" ++ backupId ++ ".tar.gz"))).isSome = true) ∧
    '/' ∉ (server.name ++ "-" ++ backupService.timestampOf (o.isoTimestamp server.id)
      ++ "-" ++ backupId ++ ".tar.gz").data ∧
    (backupService.timestampOf (o.isoTimestamp server.id)).data.length
      = (o.isoTimestamp server.id).data.length ∧
    ∀ i : Nat, (backupService.timestampOf (o.isoTimestamp server.id)).data[i]?
      = ((o.isoTimestamp server.id).data[i]?).map
          (fun c => if c = ':' ∨ c = '.' then '-' else c) := by
  obtain ⟨hres, -, hfile, -⟩ :=
    backupService.createBackup_ok o server backupId w t size htree hroot htar
  have hpath : backupService.archivePath w.fs o server backupId
      = w.fs.backupDir ++ "/" ++
        (server.name ++ "-" ++ backupService.timestampOf (o.isoTimestamp server.id)
          ++ "-" ++ backupId ++ ".tar.gz") := rfl
  rw [hpath] at hres hfile
  have hdir : (backupService.ensureBackupDir o w).1 = .ok w.fs.backupDir := by
    unfold backupService.ensureBackupDir
    simp only
    cases hex : w.fs.existsSync w.fs.backupDir
    · have hmk : o.mkdir w.fs.backupDir = true := by
        rcases hroot with h | h
        · rw [hex] at h; cases h
        · exact h
      simp [backupService.mkdirSync, hmk]
    · simp
  have hstamp : '/' ∉ (backupService.timestampOf (o.isoTimestamp server.id)).data := by
    intro hmem
    unfold backupService.timestampOf at hmem
    simp only [List.mem_map] at hmem
    obtain ⟨c, hc, hf⟩ := hmem
    by_cases hcd : c = ':' ∨ c = '.'
    · rw [if_pos hcd] at hf
      exact absurd hf (by decide)
    · rw [if_neg hcd] at hf
      rw [hf] at hc
      exact hiso hc
  have hdash : '/' ∉ ("-" : String).data := by decide
  have hext : '/' ∉ (".tar.gz" : String).data := by decide
  refine ⟨⟨w.fs.backupDir, hdir, hres, by rw [hfile]; rfl⟩, ?_, ?_, ?_⟩
  · simp only [String.data_append, List.mem_append, not_or]
    exact ⟨⟨⟨⟨⟨hname, hdash⟩, hstamp⟩, hdash⟩, hbid⟩, hext⟩
  · simp [backupService.timestampOf]
  · intro i
    simp [backupService.timestampOf]

/-- C26 as stated fails: the dot before the milliseconds is replaced too, so
the name is not the one obtained by replacing the colons only. -/
theorem C26_counterexample :
    (backupService.createBackup Sample.backupOk Sample.fresh "b1"
        { db := [Sample.fresh], log := [], fs := Sample.disk }).1
      = .ok { filePath := "/app/data/backups/alpha-2024-01-02T03-04-05-678Z-b1.tar.gz",
              size := 2048 } ∧
    "/app/data/backups/alpha-2024-01-02T03-04-05-678Z-b1.tar.gz"
      ≠ "/app/data/backups/" ++ "alpha" ++ "-" ++
          String.mk ((Sample.backupOk.isoTimestamp "s1").data.map
            (fun c => if c = ':' then '-' else c)) ++ "-" ++ "b1" ++ ".tar.gz" := by
  decide

/-- C26 (amended) at a concrete input: a backup of the sample server, whose
name `alpha` holds no `/`. -/
theorem C26_archive_name_witness :
    ∃ root, (backupService.ensureBackupDir Sample.backupOk
        { db := [Sample.fresh], log := [], fs := Sample.disk }).1 = .ok root ∧
      (backupService.createBackup Sample.backupOk Sample.fresh "b1"
        { db := [Sample.fresh], log := [], fs := Sample.disk }).1
        = .ok { filePath := root ++ "/" ++
                  ("alpha" ++ "-" ++ "2024-01-02T03-04-05-678Z" ++ "-" ++ "b1" ++ ".tar.gz"),
                size := 2048 } :=
  (fun h => ⟨h.choose, h.choose_spec.1, h.choose_spec.2.1.trans rfl⟩)
    (C26_archive_name Sample.backupOk Sample.fresh "b1"
      { db := [Sample.fresh], log := [], fs := Sample.disk } Sample.tree 2048
      (by decide) (Or.inr rfl) rfl (by decide) (by decide) (by decide)).1

/-! ## C27: archive names do not collide -/

/-- C27. For any two calls of the service's `createBackup` that return, the
returned paths are different when the backup ids are distinct texts of the
same length, whatever the server names and the timestamps are; and they are
equal when the working directory, the server name, the timestamp and the
backup id are: the name depends on nothing else. -/
theorem C27_archive_names_distinct (o1 o2 : BackupOracle) (s1 s2 : Server) (id1 id2 : String)
    (w1 w2 : World) (r1 r2 : backupService.BackupResult)
    (h1 : (backupService.createBackup o1 s1 id1 w1).1 = .ok r1)
    (h2 : (backupService.createBackup o2 s2 id2 w2).1 = .ok r2) :
    (id1 ≠ id2 → id1.length = id2.length → r1.filePath ≠ r2.filePath) ∧
    (w1.fs.cwd = w2.fs.cwd → s1.name = s2.name →
      o1.isoTimestamp s1.id = o2.isoTimestamp s2.id → id1 = id2 →
      r1.filePath = r2.filePath) := by
  rw [backupService.createBackup_filePath o1 s1 id1 w1 r1 h1,
    backupService.createBackup_filePath o2 s2 id2 w2 r2 h2]
  constructor
  · intro hne hlen heq
    exact hne (backupService.archivePath_inj w1.fs w2.fs o1 o2 s1 s2 id1 id2 hlen heq)
  · intro hcwd hname hts hid
    simp only [backupService.archivePath, FileSystem.backupDir, hcwd, hname, hts, hid]

/-- C27 at a concrete input: two backups of the sample server, made at the
same time under the keys `b1` and `b2`. -/
theorem C27_archive_names_distinct_witness :
    ("/app/data/backups/alpha-2024-01-02T03-04-05-678Z-b1.tar.gz" : String)
      ≠ "/app/data/backups/alpha-2024-01-02T03-04-05-678Z-b2.tar.gz" :=
  (C27_archive_names_distinct Sample.backupOk Sample.backupOk Sample.fresh Sample.fresh
    "b1" "b2" { db := [Sample.fresh], log := [], fs := Sample.disk }
    { db := [Sample.fresh], log := [], fs := Sample.disk }
    { filePath := "/app/data/backups/alpha-2024-01-02T03-04-05-678Z-b1.tar.gz", size := 2048 }
    { filePath := "/app/data/backups/alpha-2024-01-02T03-04-05-678Z-b2.tar.gz", size := 2048 }
    (by decide) (by decide)).1 (by decide) (by decide)


/-! ## The cleanup sweep and a server within its limit -/

/-- One iteration of the cleanup sweep, seen from a server with id `sid` that
has at most `k` records, in a store whose keys are distinct and where no two
records share an archive path: whichever server the iteration is for and
however it ends, the records of `sid` and their files are as before. -/
theorem backupService.cleanupServer_within (o : BackupOracle) (k : Nat) (t : Server)
    (w : World) (sid : String)
    (hid : (w.backups.map (fun b => b.id)).Nodup)
    (hpath : ∀ a ∈ w.backups, ∀ b ∈ w.backups,
      a.filePath = b.filePath → a.filePath ≠ "" → a = b)
    (hlen : (Backup.findAll w.backups sid).length ≤ k) :
    (backupService.cleanupServer o k t w).2.backups.Sublist w.backups ∧
    Backup.findAll (backupService.cleanupServer o k t w).2.backups sid
      = Backup.findAll w.backups sid ∧
    ∀ b ∈ Backup.findAll w.backups sid,
      (backupService.cleanupServer o k t w).2.fs.files.lookup b.filePath
        = w.fs.files.lookup b.filePath := by
  by_cases hts : t.id = sid
  · obtain ⟨E, hsub, -, hrows, hsame, -, -⟩ := backupService.cleanupServer_step o k t w
    rw [hts] at hsub hsame
    have hdrop : (Backup.findAll w.backups sid).drop k = [] := List.drop_eq_nil_of_le hlen
    rw [hdrop] at hsub hsame
    have hE : E = [] := by
      cases E with
      | nil => rfl
      | cons e es => exact absurd (hsub e (List.mem_cons_self _ _)) (List.not_mem_nil e)
    rw [hE] at hrows
    have hrows2 : (backupService.cleanupServer o k t w).2.backups = w.backups := by
      rw [hrows]
      simp
    rw [hrows2]
    exact ⟨List.Sublist.refl _, rfl, fun b _ => hsame b.filePath (fun d hd => by cases hd)⟩
  · obtain ⟨hsub, hother, -, -⟩ := backupService.cleanupServer_target o k t w sid hid hpath
    exact ⟨hsub, (hother hts).1, (hother hts).2⟩

/-- The loop of `cleanupBackups`, seen from a server within its limit. -/
theorem backupService.cleanupLoop_within (o : BackupOracle) (k : Nat) (sid : String)
    (l : List Server) (w : World)
    (hid : (w.backups.map (fun b => b.id)).Nodup)
    (hpath : ∀ a ∈ w.backups, ∀ b ∈ w.backups,
      a.filePath = b.filePath → a.filePath ≠ "" → a = b)
    (hlen : (Backup.findAll w.backups sid).length ≤ k) :
    (forOf (backupService.cleanupServer o k) l w).2.backups.Sublist w.backups ∧
    Backup.findAll (forOf (backupService.cleanupServer o k) l w).2.backups sid
      = Backup.findAll w.backups sid ∧
    ∀ b ∈ Backup.findAll w.backups sid,
      (forOf (backupService.cleanupServer o k) l w).2.fs.files.lookup b.filePath
        = w.fs.files.lookup b.filePath := by
  induction l generalizing w with
  | nil => exact ⟨List.Sublist.refl _, rfl, fun b _ => rfl⟩
  | cons t ts ih =>
    obtain ⟨hres, -⟩ := backupService.cleanupServer_total o k t w
    obtain ⟨hworld, -⟩ := forOf_cons_ok (backupService.cleanupServer o k) t ts w _ hres
    obtain ⟨hsub1, hfind1, hfiles1⟩ :=
      backupService.cleanupServer_within o k t w sid hid hpath hlen
    have hid1 : ((backupService.cleanupServer o k t w).2.backups.map (fun b => b.id)).Nodup :=
      hid.sublist (List.Sublist.map (fun b : Backup => b.id) hsub1)
    have hpath1 : ∀ a ∈ (backupService.cleanupServer o k t w).2.backups,
        ∀ b ∈ (backupService.cleanupServer o k t w).2.backups,
          a.filePath = b.filePath → a.filePath ≠ "" → a = b :=
      fun a ha b hb => hpath a (hsub1.subset ha) b (hsub1.subset hb)
    have hlen1 : (Backup.findAll (backupService.cleanupServer o k t w).2.backups sid).length
        ≤ k := by
      rw [hfind1]; exact hlen
    obtain ⟨hsub2, hfind2, hfiles2⟩ :=
      ih (backupService.cleanupServer o k t w).2 hid1 hpath1 hlen1
    rw [hworld]
    refine ⟨hsub2.trans hsub1, hfind2.trans hfind1, ?_⟩
    intro b hb
    rw [← hfiles1 b hb]
    apply hfiles2
    rw [hfind1]
    exact hb

/-! ## C29: nothing is removed from a server within its limit -/

/-- C29. Take a store in which the keys of the records are distinct and no
two records share an archive path.  For every limit `K` and every server with
`N ≤ K` records, after `cleanupBackups(K)`, however the sweep went for the
other servers, the query for the records of the server returns the same `N`
records in the same order, every one of them is still in the store, and the
file at the path of each is the file that was there before.  Called without
an argument, `cleanupBackups` is `cleanupBackups(5)`. -/
theorem C29_within_limit_untouched (o : BackupOracle) (maxBackupsPerServer : Option Nat)
    (s : Server) (w : World)
    (hid : (w.backups.map (fun b => b.id)).Nodup)
    (hpath : ∀ a ∈ w.backups, ∀ b ∈ w.backups,
      a.filePath = b.filePath → a.filePath ≠ "" → a = b)
    (hlen : (Backup.findAll w.backups s.id).length ≤ maxBackupsPerServer.getD 5) :
    Backup.findAll (backupService.cleanupBackups o maxBackupsPerServer w).2.backups s.id
      = Backup.findAll w.backups s.id ∧
    (∀ b ∈ w.backups, b.serverId = s.id →
      b ∈ (backupService.cleanupBackups o maxBackupsPerServer w).2.backups ∧
      (backupService.cleanupBackups o maxBackupsPerServer w).2.fs.files.lookup b.filePath
        = w.fs.files.lookup b.filePath) ∧
    backupService.cleanupBackups o none w = backupService.cleanupBackups o (some 5) w := by
  have hworld : (backupService.cleanupBackups o maxBackupsPerServer w).2 = w ∨
      (backupService.cleanupBackups o maxBackupsPerServer w).2
        = (forOf (backupService.cleanupServer o (maxBackupsPerServer.getD 5)) w.db w).2 := by
    unfold backupService.cleanupBackups
    split
    · split
      · next fs w1 h1 => rw [h1]; exact Or.inr rfl
      · next e w1 h1 => rw [h1]; exact Or.inr rfl
    · exact Or.inl rfl
  have hmain : Backup.findAll (backupService.cleanupBackups o maxBackupsPerServer w).2.backups
        s.id = Backup.findAll w.backups s.id ∧
      ∀ b ∈ Backup.findAll w.backups s.id,
        (backupService.cleanupBackups o maxBackupsPerServer w).2.fs.files.lookup b.filePath
          = w.fs.files.lookup b.filePath := by
    rcases hworld with h | h
    · rw [h]
      exact ⟨rfl, fun b _ => rfl⟩
    · rw [h]
      exact (backupService.cleanupLoop_within o _ s.id w.db w hid hpath hlen).2
  refine ⟨hmain.1, ?_, rfl⟩
  intro b hb hbs
  have hmem := (Backup.mem_findAll w.backups s.id b).mpr ⟨hb, hbs⟩
  refine ⟨?_, hmain.2 b hmem⟩
  rw [← hmain.1] at hmem
  exact ((Backup.mem_findAll _ s.id b).mp hmem).1

/-- C29 at a concrete input: the server `s1` has three records; after
`cleanupBackups()` and after `cleanupBackups(3)` they are all returned. -/
theorem C29_within_limit_untouched_witness :
    Backup.findAll (backupService.cleanupBackups Sample.backupOk none
        Sample.backedUp).2.backups "s1"
      = [Sample.record "b2" 30, Sample.record "b3" 20, Sample.record "b1" 10] ∧
    (backupService.cleanupBackups Sample.backupOk (some 3) Sample.backedUp).2.fs.files
      = Sample.backedUp.fs.files :=
  ⟨(C29_within_limit_untouched Sample.backupOk none Sample.fresh Sample.backedUp
      (by decide) (by decide) (by decide)).1.trans (by decide), by decide⟩


/-! ## C30: the divisions of `getContainerStats` are not guarded -/

/-- The text of a product by a count and by a hundred of a quotient by zero. -/
theorem JsNumber.toFixed_div_zero (d : ℚ) (n : Nat) :
    (JsNumber.toFixed (JsNumber.mul (JsNumber.mul (JsNumber.div (.finite d) (.finite 0))
        (.finite n)) (.finite 100)) 2 = "NaN" ∨
      JsNumber.toFixed (JsNumber.mul (JsNumber.mul (JsNumber.div (.finite d) (.finite 0))
        (.finite n)) (.finite 100)) 2 = "Infinity" ∨
      JsNumber.toFixed (JsNumber.mul (JsNumber.mul (JsNumber.div (.finite d) (.finite 0))
        (.finite n)) (.finite 100)) 2 = "-Infinity") ∧
    (0 ≤ d →
      JsNumber.toFixed (JsNumber.mul (JsNumber.mul (JsNumber.div (.finite d) (.finite 0))
        (.finite n)) (.finite 100)) 2 = "NaN" ∨
      JsNumber.toFixed (JsNumber.mul (JsNumber.mul (JsNumber.div (.finite d) (.finite 0))
        (.finite n)) (.finite 100)) 2 = "Infinity") := by
  have h100 : ¬ ((100 : ℚ) = 0) := by norm_num
  have h100' : ¬ ((100 : ℚ) < 0) := by norm_num
  have hn : ¬ ((n : ℚ) < 0) := not_lt.mpr (Nat.cast_nonneg n)
  by_cases hd : d = 0
  · subst hd
    simp [JsNumber.div, JsNumber.mul, JsNumber.toFixed]
  · by_cases hn0 : (n : ℚ) = 0
    · simp [JsNumber.div, JsNumber.mul, JsNumber.toFixed, hd, hn0]
    · by_cases hneg : d < 0
      · have hnot : ¬ (0 ≤ d) := not_le.mpr hneg
        simp [JsNumber.div, JsNumber.mul, JsNumber.toFixed, hd, hn0, hn, h100, h100', hneg, hnot]
      · simp [JsNumber.div, JsNumber.mul, JsNumber.toFixed, hd, hn0, hn, h100, h100', hneg]

/-- The text of a hundred times a quotient by zero. -/
theorem JsNumber.toFixed_percent_of_zero (u : ℚ) :
    (JsNumber.toFixed (JsNumber.mul (JsNumber.div (.finite u) (.finite 0)) (.finite 100)) 2
        = "NaN" ∨
      JsNumber.toFixed (JsNumber.mul (JsNumber.div (.finite u) (.finite 0)) (.finite 100)) 2
        = "Infinity" ∨
      JsNumber.toFixed (JsNumber.mul (JsNumber.div (.finite u) (.finite 0)) (.finite 100)) 2
        = "-Infinity") ∧
    (0 ≤ u →
      JsNumber.toFixed (JsNumber.mul (JsNumber.div (.finite u) (.finite 0)) (.finite 100)) 2
        = "NaN" ∨
      JsNumber.toFixed (JsNumber.mul (JsNumber.div (.finite u) (.finite 0)) (.finite 100)) 2
        = "Infinity") := by
  have h100 : ¬ ((100 : ℚ) = 0) := by norm_num
  have h100' : ¬ ((100 : ℚ) < 0) := by norm_num
  by_cases hd : u = 0
  · subst hd
    simp [JsNumber.div, JsNumber.mul, JsNumber.toFixed]
  · by_cases hneg : u < 0
    · have hnot : ¬ (0 ≤ u) := not_le.mpr hneg
      simp [JsNumber.div, JsNumber.mul, JsNumber.toFixed, hd, h100, h100', hneg, hnot]
    · simp [JsNumber.div, JsNumber.mul, JsNumber.toFixed, hd, h100, h100', hneg]

/-- C30. `getContainerStats` does not guard its divisions.  In the arithmetic
of JavaScript numbers, for a sample with finite counters: the call returns a
snapshot whenever the runtime answers; when the system CPU delta is 0 the CPU
percent of the snapshot is the text `NaN`, `Infinity` or `-Infinity`, and one
of the first two when the CPU delta is not negative; when the memory limit is
0 the memory percent is one of these texts in the same way. -/
theorem C30_unguarded_division (now : Nat) (stats : ContainerStats JsNumber)
    (containerId : Option String) (w : World) :
    (dockerService.getContainerStats JsNumber.arith now (some stats) containerId w).1
      = .ok (dockerService.statsOf JsNumber.arith now stats) ∧
    (∀ d : ℚ,
      JsNumber.sub stats.cpu_stats.cpu_usage.total_usage
        stats.precpu_stats.cpu_usage.total_usage = .finite d →
      JsNumber.sub stats.cpu_stats.system_cpu_usage stats.precpu_stats.system_cpu_usage
        = .finite 0 →
      ((dockerService.statsOf JsNumber.arith now stats).cpu.percent = "NaN" ∨
        (dockerService.statsOf JsNumber.arith now stats).cpu.percent = "Infinity" ∨
        (dockerService.statsOf JsNumber.arith now stats).cpu.percent = "-Infinity") ∧
      (0 ≤ d →
        (dockerService.statsOf JsNumber.arith now stats).cpu.percent = "NaN" ∨
        (dockerService.statsOf JsNumber.arith now stats).cpu.percent = "Infinity")) ∧
    (∀ u : ℚ, stats.memory_stats.usage = .finite u → stats.memory_stats.limit = .finite 0 →
      ((dockerService.statsOf JsNumber.arith now stats).memory.percent = "NaN" ∨
        (dockerService.statsOf JsNumber.arith now stats).memory.percent = "Infinity" ∨
        (dockerService.statsOf JsNumber.arith now stats).memory.percent = "-Infinity") ∧
      (0 ≤ u →
        (dockerService.statsOf JsNumber.arith now stats).memory.percent = "NaN" ∨
        (dockerService.statsOf JsNumber.arith now stats).memory.percent = "Infinity")) := by
  refine ⟨rfl, ?_, ?_⟩
  · intro d hd hs
    have hcpu : (dockerService.statsOf JsNumber.arith now stats).cpu.percent
        = JsNumber.toFixed (JsNumber.mul (JsNumber.mul
            (JsNumber.div (.finite d) (.finite 0))
            (.finite ((match stats.cpu_stats.cpu_usage.percpu_usage with
              | some percpu => percpu.length
              | none => 1 : Nat) : ℚ))) (.finite 100)) 2 := by
      simp only [dockerService.statsOf, JsNumber.arith, hd, hs]
      cases stats.cpu_stats.cpu_usage.percpu_usage <;> simp
    rw [hcpu]
    exact JsNumber.toFixed_div_zero d _
  · intro u hu hl
    have hmb : ¬ ((1024 : ℚ) * 1024 = 0) := by norm_num
    have hmem : (dockerService.statsOf JsNumber.arith now stats).memory.percent
        = JsNumber.toFixed (JsNumber.mul
            (JsNumber.div (.finite (u / (1024 * 1024))) (.finite 0)) (.finite 100)) 2 := by
      simp only [dockerService.statsOf, JsNumber.arith, hu, hl]
      simp [JsNumber.div, JsNumber.mul]
    rw [hmem]
    obtain ⟨h1, h2⟩ := JsNumber.toFixed_percent_of_zero (u / (1024 * 1024))
    exact ⟨h1, fun h0 => h2 (div_nonneg h0 (by norm_num))⟩

/-- C30 at a concrete input: a sample whose two system readings are equal and
whose memory limit is 0 gives the CPU percent `Infinity` and the memory
percent `Infinity`. -/
theorem C30_unguarded_division_witness :
    ((dockerService.statsOf JsNumber.arith 7 Sample.stalled).cpu.percent = "NaN" ∨
      (dockerService.statsOf JsNumber.arith 7 Sample.stalled).cpu.percent = "Infinity") ∧
    (dockerService.statsOf JsNumber.arith 7 Sample.stalled).cpu.percent = "Infinity" ∧
    (dockerService.statsOf JsNumber.arith 7 Sample.stalled).memory.percent = "Infinity" :=
  ⟨((C30_unguarded_division 7 Sample.stalled none (Sample.world Sample.running)).2.1 200
      (by decide!) (by decide!)).2 (by decide!),
   by decide!, by decide!⟩


/-! ## Facts about writing a file below a directory -/

/-- The entries of a tree after a file was written: the new entry, and the
entries at other paths. -/
theorem Tree.mem_write (t : Tree) (n c : String) (e : String × Item)
    (he : e ∈ Tree.write t n c) : e = (n, Item.file c) ∨ (e ∈ t ∧ e.1 ≠ n) := by
  unfold Tree.write at he
  split at he
  · obtain ⟨e0, he0, hf⟩ := List.mem_map.mp he
    by_cases hk : e0.1 = n
    · rw [if_pos hk] at hf
      exact Or.inl hf.symm
    · rw [if_neg hk] at hf
      rw [← hf]
      exact Or.inr ⟨he0, hk⟩
  · next hnone =>
    rcases List.mem_append.mp he with h | h
    · refine Or.inr ⟨h, ?_⟩
      intro hk
      apply hnone
      rw [← hk]
      exact Tree.lookup_isSome_of_mem t e h
    · exact Or.inl (List.mem_singleton.mp h)

/-- Looking a path up after the entries at one path were replaced by a file. -/
theorem Tree.lookup_map_replace (t : Tree) (n c p : String) :
    (t.map (fun e => if e.1 = n then (n, Item.file c) else e)).lookup p
      = if p = n then (t.lookup n).map (fun _ => Item.file c) else t.lookup p := by
  induction t with
  | nil => simp
  | cons x xs ih =>
    obtain ⟨a, b⟩ := x
    simp only [List.map_cons]
    by_cases ha : a = n
    · subst ha
      simp only [if_true, List.lookup_cons]
      by_cases hp : p = a
      · subst hp
        simp
      · have hk : (p == a) = false := by simpa using hp
        rw [if_neg hp] at ih ⊢
        simp only [hk]
        exact ih
    · have hna : (n == a) = false := by simpa using fun h => ha h.symm
      simp only [if_neg ha, List.lookup_cons, hna]
      by_cases hp : p = a
      · subst hp
        simp [ha]
      · have hk : (p == a) = false := by simpa using hp
        simp only [hk]
        exact ih

/-- Looking a path up after a file was written. -/
theorem Tree.lookup_write (t : Tree) (n c p : String) :
    (Tree.write t n c).lookup p = if p = n then some (Item.file c) else t.lookup p := by
  unfold Tree.write
  split
  · next hsome =>
    rw [Tree.lookup_map_replace]
    cases h : t.lookup n with
    | none => rw [h] at hsome; simp at hsome
    | some v => rfl
  · next hnone =>
    have hn : t.lookup n = none := by
      cases h : t.lookup n with
      | none => rfl
      | some v => rw [h] at hnone; simp at hnone
    rw [List.lookup_append]
    by_cases hp : p = n
    · subst hp
      simp [hn]
    · have hk : (p == n) = false := by simpa using hp
      simp [List.lookup, hk, hp]

/-- Writing a file leaves the tree as it is exactly when the path holds that
file and nothing else. -/
theorem Tree.write_eq_self (t : Tree) (n c : String)
    (hsome : (t.lookup n).isSome = true)
    (hall : ∀ e ∈ t, e.1 = n → e = (n, Item.file c)) :
    Tree.write t n c = t := by
  unfold Tree.write
  rw [if_pos hsome]
  conv_rhs => rw [← List.map_id t]
  apply List.map_congr_left
  intro e he
  by_cases hk : e.1 = n
  · rw [if_pos hk]
    exact (hall e he hk).symm
  · rw [if_neg hk]
    rfl

/-- Writing the same file twice is writing it once. -/
theorem Tree.write_write (t : Tree) (n c : String) :
    Tree.write (Tree.write t n c) n c = Tree.write t n c := by
  apply Tree.write_eq_self
  · rw [Tree.lookup_write, if_pos rfl]; rfl
  · intro e he hk
    rcases Tree.mem_write t n c e he with h | h
    · exact h
    · exact absurd hk h.2

/-- Looking another directory up after the tree of one was replaced. -/
theorem FileSystem.tree_setTree_ne (fs : FileSystem) (dir d : String) (t : Tree)
    (h : d ≠ dir) : (fs.setTree dir t).tree d = fs.tree d := by
  unfold FileSystem.setTree FileSystem.tree
  simp only
  induction fs.dirs with
  | nil => rfl
  | cons x xs ih =>
    obtain ⟨a, b⟩ := x
    simp only [List.map_cons]
    by_cases ha : a = dir
    · have hk : (d == dir) = false := by simpa using h
      have hk2 : (d == a) = false := by rw [ha]; exact hk
      simp only [if_pos ha, List.lookup_cons, hk, hk2]
      exact ih
    · simp only [if_neg ha, List.lookup_cons]
      cases (d == a)
      · exact ih
      · rfl

/-- Replacing the tree of a directory twice is replacing it with the last tree. -/
theorem FileSystem.setTree_setTree (fs : FileSystem) (dir : String) (t t2 : Tree) :
    (fs.setTree dir t).setTree dir t2 = fs.setTree dir t2 := by
  unfold FileSystem.setTree
  simp only [List.map_map]
  congr 1
  apply List.map_congr_left
  intro e _
  by_cases he : e.1 = dir
  · simp [he]
  · simp [he]

/-- What a successful `writeFileSync` did: the directory existed, the path was
not a directory, and the tree of the directory took the file. -/
theorem FileSystem.writeFileSync_some (fs fs1 : FileSystem) (dir n c : String)
    (h : fs.writeFileSync dir n c = some fs1) :
    ∃ t, fs.tree dir = some t ∧ fs1 = fs.setTree dir (Tree.write t n c) := by
  unfold FileSystem.writeFileSync at h
  split at h
  · next t ht =>
    split at h
    · cases h
    · simp only [Option.some.injEq] at h
      exact ⟨t, ht, h.symm⟩
  · cases h

/-- Reading any file after a successful `writeFileSync`. -/
theorem FileSystem.readFile_writeFileSync (fs fs1 : FileSystem) (dir n c : String)
    (h : fs.writeFileSync dir n c = some fs1) (d p : String) :
    fs1.readFile d p = if d = dir ∧ p = n then some (Item.file c) else fs.readFile d p := by
  obtain ⟨t, ht, hfs⟩ := FileSystem.writeFileSync_some fs fs1 dir n c h
  rw [hfs]
  unfold FileSystem.readFile
  by_cases hd : d = dir
  · subst hd
    rw [FileSystem.tree_setTree, ht]
    simp only [Option.map_some', Tree.lookup_write]
    by_cases hp : p = n
    · simp [hp]
    · simp [hp]
  · rw [FileSystem.tree_setTree_ne fs dir d _ hd]
    simp [hd]

/-- Reading any file after `mkdirSync`: a directory made by the call is empty. -/
theorem FileSystem.readFile_mkdirSync (fs : FileSystem) (path d p : String) :
    (fs.mkdirSync path).readFile d p = fs.readFile d p := by
  unfold FileSystem.mkdirSync
  split
  · rfl
  · next hnone =>
    unfold FileSystem.readFile FileSystem.tree
    simp only [List.lookup_append]
    cases hl : fs.dirs.lookup d with
    | some t => rfl
    | none =>
      by_cases hd : d = path
      · subst hd
        simp [List.lookup]
      · have hk : (d == path) = false := by simpa using hd
        simp [List.lookup, hk]

/-! ## The steps of the assembly -/

/-- The world after the assembly's `mkdirSync`. -/
theorem dockerService.mkdirSync_world (o : AssemblyOracle) (p : String) (w : World) :
    (dockerService.mkdirSync o p w).2
      = { w with log := w.log ++ [.mkdir p]
                 fs := if (dockerService.mkdirSync o p w).1 = .ok () then w.fs.mkdirSync p
                       else w.fs } := by
  unfold dockerService.mkdirSync
  simp only [World.emit]
  split <;> simp

/-- The world after the assembly's `chmodSync`. -/
theorem dockerService.chmodSync_world (o : AssemblyOracle) (p m : String) (w : World) :
    (dockerService.chmodSync o p m w).2
      = { w with log := w.log ++ [.chmod p m]
                 fs := if (dockerService.chmodSync o p m w).1 = .ok () then w.fs.chmodSync p m
                       else w.fs } := by
  unfold dockerService.chmodSync
  simp only [World.emit]
  split <;> simp

/-- The world after the assembly's `writeFileSync`: the request is recorded,
and the file system is the one the write left when the call returned and the
one before when it threw. -/
theorem dockerService.writeFileSync_world (o : AssemblyOracle) (dir n c : String) (w : World) :
    ∃ fs1, (dockerService.writeFileSync o dir n c w).2
        = { w with log := w.log ++ [.writeFile (pathJoin [dir, n]) c], fs := fs1 } ∧
      ((dockerService.writeFileSync o dir n c w).1 = .ok () →
        w.fs.writeFileSync dir n c = some fs1) ∧
      ((dockerService.writeFileSync o dir n c w).1 ≠ .ok () → fs1 = w.fs) := by
  unfold dockerService.writeFileSync
  simp only [World.emit]
  split
  · split
    · next fs1 h1 => exact ⟨fs1, rfl, fun _ => h1, fun h => absurd rfl h⟩
    · exact ⟨w.fs, rfl, (fun h => by cases h), fun _ => rfl⟩
  · exact ⟨w.fs, rfl, (fun h => by cases h), fun _ => rfl⟩

/-- A property of the world that the requests of the assembly keep is kept
by the assembly, however it ends.  Only the files of the scripts that exist
are written, and the mode is set only when there is a startup script. -/
theorem dockerService.getContainerConfig_frame (o : AssemblyOracle) (server : Server)
    (w : World) (P : World → Prop) (h0 : P w)
    (hmk : ∀ v, P v → P (dockerService.mkdirSync o (w.fs.serverDir server.id) v).2)
    (hwr : ∀ v n s, P v →
      (n = "Dockerfile" ∧ Script.findOne w.scripts server.id .dockerfile = some s ∨
        n = "start.sh" ∧ Script.findOne w.scripts server.id .startup = some s ∨
        n = "server.config" ∧ Script.findOne w.scripts server.id .config = some s) →
      P (dockerService.writeFileSync o (w.fs.serverDir server.id) n s.content v).2)
    (hch : ∀ v s, P v → Script.findOne w.scripts server.id .startup = some s →
      P (dockerService.chmodSync o (pathJoin [w.fs.serverDir server.id, "start.sh"])
        "755" v).2) :
    P (dockerService.getContainerConfig o server w).2 := by
  have h1 : P (if (!w.fs.existsSync (w.fs.serverDir server.id)) = true then
      dockerService.mkdirSync o (w.fs.serverDir server.id) w else (.ok (), w)).2 := by
    split
    · exact hmk w h0
    · exact h0
  have h2 : ∀ v, P v → P (dockerService.writeScript o (w.fs.serverDir server.id) "Dockerfile"
      (Script.findOne w.scripts server.id .dockerfile) v).2 := by
    intro v hv
    unfold dockerService.writeScript
    split
    · next s hs => exact hwr v _ s hv (Or.inl ⟨rfl, hs⟩)
    · exact hv
  have h3 : ∀ v, P v → P (dockerService.writeStartup o (w.fs.serverDir server.id)
      (Script.findOne w.scripts server.id .startup) v).2 := by
    intro v hv
    unfold dockerService.writeStartup
    split
    · next s hs =>
      have hw1 := hwr v "start.sh" s hv (Or.inr (Or.inl ⟨rfl, hs⟩))
      split
      · next e w1 h1 => rw [h1] at hw1; exact hw1
      · next u w1 h1 => rw [h1] at hw1; exact hch w1 s hw1 hs
    · exact hv
  have h4 : ∀ v, P v → P (dockerService.writeScript o (w.fs.serverDir server.id)
      "server.config" (Script.findOne w.scripts server.id .config) v).2 := by
    intro v hv
    unfold dockerService.writeScript
    split
    · next s hs => exact hwr v _ s hv (Or.inr (Or.inr ⟨rfl, hs⟩))
    · exact hv
  unfold dockerService.getContainerConfig
  split
  · simp only
    split
    · next e w1 hw1 => rw [hw1] at h1; exact h1
    · next u w1 hw1 =>
      rw [hw1] at h1
      have h2' := h2 w1 h1
      split
      · next e w2 hw2 => rw [hw2] at h2'; exact h2'
      · next u2 w2 hw2 =>
        rw [hw2] at h2'
        have h3' := h3 w2 h2'
        split
        · next e w3 hw3 => rw [hw3] at h3'; exact h3'
        · next u3 w3 hw3 =>
          rw [hw3] at h3'
          have h4' := h4 w3 h3'
          split
          · next e w4 hw4 => rw [hw4] at h4'; exact h4'
          · next u4 w4 hw4 => rw [hw4] at h4'; exact h4'
  · exact h0

/-- A write block of the assembly that returned: with a script, the file was
written and the request recorded; without one, nothing happened. -/
theorem dockerService.writeScript_ok (o : AssemblyOracle) (dir n : String)
    (script : Option Script) (w v : World)
    (h : dockerService.writeScript o dir n script w = (.ok (), v)) :
    (∀ s, script = some s →
      w.fs.writeFileSync dir n s.content = some v.fs ∧
      v.log = w.log ++ [.writeFile (pathJoin [dir, n]) s.content]) ∧
    (script = none → v = w) := by
  unfold dockerService.writeScript at h
  cases script with
  | none =>
    simp only [Prod.mk.injEq, true_and] at h
    exact ⟨(fun s hs => by cases hs), fun _ => h.symm⟩
  | some s0 =>
    simp only at h
    obtain ⟨fs1, hworld, hok, -⟩ := dockerService.writeFileSync_world o dir n s0.content w
    rw [h] at hworld hok
    simp only at hworld hok
    refine ⟨?_, fun hn => by cases hn⟩
    intro s hs
    cases hs
    have hw := hok trivial
    rw [hworld]
    exact ⟨hw, rfl⟩

/-- The startup block of the assembly that returned: with a script, the file
was written and its mode set, in this order; without one, nothing happened. -/
theorem dockerService.writeStartup_ok (o : AssemblyOracle) (dir : String)
    (script : Option Script) (w v : World)
    (h : dockerService.writeStartup o dir script w = (.ok (), v)) :
    (∀ s, script = some s →
      ∃ fs1, w.fs.writeFileSync dir "start.sh" s.content = some fs1 ∧
        v.fs = fs1.chmodSync (pathJoin [dir, "start.sh"]) "755" ∧
        v.log = w.log ++ [.writeFile (pathJoin [dir, "start.sh"]) s.content,
          .chmod (pathJoin [dir, "start.sh"]) "755"]) ∧
    (script = none → v = w) := by
  unfold dockerService.writeStartup at h
  cases script with
  | none =>
    simp only [Prod.mk.injEq, true_and] at h
    exact ⟨(fun s hs => by cases hs), fun _ => h.symm⟩
  | some s0 =>
    simp only at h
    refine ⟨?_, fun hn => by cases hn⟩
    intro s hs
    cases hs
    obtain ⟨fs1, hworld, hok, -⟩ :=
      dockerService.writeFileSync_world o dir "start.sh" s0.content w
    split at h
    · cases h
    · next u w1 h1 =>
      rw [h1] at hworld hok
      simp only at hworld hok
      have hch := dockerService.chmodSync_world o (pathJoin [dir, "start.sh"]) "755" w1
      rw [h] at hch
      simp only [if_true] at hch
      refine ⟨fs1, hok trivial, ?_, ?_⟩
      · rw [hch, hworld]
      · rw [hch, hworld]
        simp

/-- The steps of an assembly that returned: each of the four steps returned,
and the world of each is the one the next started from. -/
theorem dockerService.getContainerConfig_steps (o : AssemblyOracle) (server : Server)
    (w : World) (r : AssemblyResult)
    (h : (dockerService.getContainerConfig o server w).1 = .ok r) :
    ∃ w1 w2 w3,
      (if (!w.fs.existsSync (w.fs.serverDir server.id)) = true then
        dockerService.mkdirSync o (w.fs.serverDir server.id) w else (.ok (), w))
        = (.ok (), w1) ∧
      dockerService.writeScript o (w.fs.serverDir server.id) "Dockerfile"
        (Script.findOne w.scripts server.id .dockerfile) w1 = (.ok (), w2) ∧
      dockerService.writeStartup o (w.fs.serverDir server.id)
        (Script.findOne w.scripts server.id .startup) w2 = (.ok (), w3) ∧
      dockerService.writeScript o (w.fs.serverDir server.id) "server.config"
        (Script.findOne w.scripts server.id .config) w3
        = (.ok (), (dockerService.getContainerConfig o server w).2) := by
  have hp := pair_of_fst h
  generalize (dockerService.getContainerConfig o server w).2 = W at hp ⊢
  unfold dockerService.getContainerConfig at hp
  split at hp
  · simp only at hp
    split at hp
    · cases hp
    · next u1 w1 h1 =>
      split at hp
      · cases hp
      · next u2 w2 h2 =>
        split at hp
        · cases hp
        · next u3 w3 h3 =>
          split at hp
          · cases hp
          · next u4 w4 h4 =>
            simp only [Prod.mk.injEq] at hp
            rw [← hp.2]
            exact ⟨w1, w2, w3, h1, h2, h3, h4⟩
  · cases hp

/-- A successful `writeFileSync` changes nothing but the tree of the
directory: paths exist as before, and the archive files, the modes and the
working directory are the same. -/
theorem FileSystem.writeFileSync_keeps (fs fs1 : FileSystem) (dir n c : String)
    (h : fs.writeFileSync dir n c = some fs1) :
    (∀ p, fs1.existsSync p = fs.existsSync p) ∧ fs1.files = fs.files ∧
      fs1.modes = fs.modes ∧ fs1.cwd = fs.cwd := by
  obtain ⟨t, ht, hfs⟩ := FileSystem.writeFileSync_some fs fs1 dir n c h
  rw [hfs]
  refine ⟨?_, rfl, rfl, rfl⟩
  intro p
  have hdirs : ((fs.setTree dir (Tree.write t n c)).dirs.lookup p).isSome
      = (fs.dirs.lookup p).isSome := by
    by_cases hp : p = dir
    · subst hp
      have := FileSystem.tree_setTree fs p (Tree.write t n c)
      unfold FileSystem.tree at this ht
      rw [this, ht]
      rfl
    · have := FileSystem.tree_setTree_ne fs dir p (Tree.write t n c) hp
      unfold FileSystem.tree at this
      rw [this]
  unfold FileSystem.existsSync
  rw [hdirs]
  rfl

/-- The mode of a path after `chmodSync`. -/
theorem FileSystem.mode_chmodSync (fs : FileSystem) (p m q : String) :
    (fs.chmodSync p m).mode q = if q = p then some m else fs.mode q := by
  unfold FileSystem.chmodSync FileSystem.mode
  simp only [List.lookup_cons]
  by_cases hq : q = p
  · subst hq
    simp
  · have hk : (q == p) = false := by simpa using hq
    simp only [hk, if_neg hq]
    rw [lookup_filter_ne, if_neg hq]

/-- The first step of the assembly, when it returned: the directory of the
server exists afterwards and every file reads as before. -/
theorem dockerService.ensureDir_ok (o : AssemblyOracle) (dir : String) (w w1 : World)
    (hne : dir ≠ "")
    (h : (if (!w.fs.existsSync dir) = true then dockerService.mkdirSync o dir w
      else (.ok (), w)) = (.ok (), w1)) :
    w1.fs.existsSync dir = true ∧
    (∀ d p, w1.fs.readFile d p = w.fs.readFile d p) ∧
    w1.fs.modes = w.fs.modes ∧
    w1.log = w.log ++ (if w.fs.existsSync dir then [] else [Effect.mkdir dir]) := by
  cases hex : w.fs.existsSync dir
  · rw [hex] at h
    simp only [Bool.not_false, if_true] at h
    have hw := dockerService.mkdirSync_world o dir w
    rw [h] at hw
    simp only [if_true] at hw
    rw [hw]
    refine ⟨?_, fun d p => FileSystem.readFile_mkdirSync w.fs dir d p, ?_, by simp⟩
    · unfold FileSystem.existsSync FileSystem.mkdirSync
      have h1 : (dir != "") = true := by simpa using hne
      split
      · next hs => simp [h1, hs]
      · simp [h1, List.lookup_append, List.lookup]
    · unfold FileSystem.mkdirSync
      split <;> rfl
  · rw [hex] at h
    simp only [Bool.not_true, Bool.false_eq_true, if_false, Prod.mk.injEq, true_and] at h
    rw [← h]
    exact ⟨hex, fun d p => rfl, rfl, by simp⟩

/-- What a write block that returned left: the file of the script reads as
the content of the script, every other file reads as before, paths exist as
before, the modes are the same, and the log grew by the write. -/
theorem dockerService.writeScript_reads (o : AssemblyOracle) (dir n : String)
    (script : Option Script) (w v : World)
    (h : dockerService.writeScript o dir n script w = (.ok (), v)) :
    (∀ d p, v.fs.readFile d p
      = if d = dir ∧ p = n ∧ script.isSome = true then
          script.map (fun s => Item.file s.content)
        else w.fs.readFile d p) ∧
    (∀ p, v.fs.existsSync p = w.fs.existsSync p) ∧
    v.fs.modes = w.fs.modes ∧
    v.log = w.log ++ script.elim [] (fun s => [Effect.writeFile (pathJoin [dir, n]) s.content]) := by
  obtain ⟨hsome, hnone⟩ := dockerService.writeScript_ok o dir n script w v h
  cases script with
  | none =>
    rw [hnone rfl]
    exact ⟨fun d p => by simp, fun p => rfl, rfl, by simp⟩
  | some s =>
    obtain ⟨hw, hlog⟩ := hsome s rfl
    obtain ⟨hex, -, hmodes, -⟩ := FileSystem.writeFileSync_keeps w.fs v.fs dir n s.content hw
    refine ⟨fun d p => ?_, hex, hmodes, hlog⟩
    rw [FileSystem.readFile_writeFileSync w.fs v.fs dir n s.content hw d p]
    simp

/-- What the startup block that returned left: `start.sh` reads as the
content of the script and has the mode `755`; every other file reads as
before and every other mode is the same. -/
theorem dockerService.writeStartup_reads (o : AssemblyOracle) (dir : String)
    (script : Option Script) (w v : World)
    (h : dockerService.writeStartup o dir script w = (.ok (), v)) :
    (∀ d p, v.fs.readFile d p
      = if d = dir ∧ p = "start.sh" ∧ script.isSome = true then
          script.map (fun s => Item.file s.content)
        else w.fs.readFile d p) ∧
    (∀ p, v.fs.existsSync p = w.fs.existsSync p) ∧
    (∀ q, v.fs.mode q
      = if q = pathJoin [dir, "start.sh"] ∧ script.isSome = true then some "755"
        else w.fs.mode q) ∧
    v.log = w.log ++ script.elim []
      (fun s => [Effect.writeFile (pathJoin [dir, "start.sh"]) s.content,
        Effect.chmod (pathJoin [dir, "start.sh"]) "755"]) := by
  obtain ⟨hsome, hnone⟩ := dockerService.writeStartup_ok o dir script w v h
  cases script with
  | none =>
    rw [hnone rfl]
    exact ⟨fun d p => by simp, fun p => rfl, fun q => by simp, by simp⟩
  | some s =>
    obtain ⟨fs1, hw, hfs, hlog⟩ := hsome s rfl
    obtain ⟨hex, -, hmodes, -⟩ :=
      FileSystem.writeFileSync_keeps w.fs fs1 dir "start.sh" s.content hw
    rw [hfs]
    refine ⟨?_, ?_, ?_, hlog⟩
    · intro d p
      have := FileSystem.readFile_writeFileSync w.fs fs1 dir "start.sh" s.content hw d p
      simp only [Option.isSome_some, and_true, Option.map_some']
      exact this
    · intro p
      exact hex p
    · intro q
      rw [FileSystem.mode_chmodSync]
      simp only [FileSystem.mode, hmodes, Option.isSome_some, and_true]

/-- An assembly that returned: the directory of the server exists, the file
of each script that exists reads as the content of that script, `start.sh`
has the mode `755` when there is a startup script, and the requests were the
creation of the directory when it was missing and then the writes, in order. -/
theorem dockerService.getContainerConfig_ok (o : AssemblyOracle) (server : Server)
    (w : World) (r : AssemblyResult)
    (h : (dockerService.getContainerConfig o server w).1 = .ok r) :
    (dockerService.getContainerConfig o server w).2.fs.existsSync (w.fs.serverDir server.id)
      = true ∧
    (∀ s, Script.findOne w.scripts server.id .dockerfile = some s →
      (dockerService.getContainerConfig o server w).2.fs.readFile (w.fs.serverDir server.id)
        "Dockerfile" = some (Item.file s.content)) ∧
    (∀ s, Script.findOne w.scripts server.id .startup = some s →
      (dockerService.getContainerConfig o server w).2.fs.readFile (w.fs.serverDir server.id)
        "start.sh" = some (Item.file s.content) ∧
      (dockerService.getContainerConfig o server w).2.fs.mode
        (pathJoin [w.fs.serverDir server.id, "start.sh"]) = some "755") ∧
    (∀ s, Script.findOne w.scripts server.id .config = some s →
      (dockerService.getContainerConfig o server w).2.fs.readFile (w.fs.serverDir server.id)
        "server.config" = some (Item.file s.content)) ∧
    (dockerService.getContainerConfig o server w).2.log
      = w.log ++
        (if w.fs.existsSync (w.fs.serverDir server.id) then []
          else [Effect.mkdir (w.fs.serverDir server.id)]) ++
        (Script.findOne w.scripts server.id .dockerfile).elim [] (fun s =>
          [Effect.writeFile (pathJoin [w.fs.serverDir server.id, "Dockerfile"]) s.content]) ++
        (Script.findOne w.scripts server.id .startup).elim [] (fun s =>
          [Effect.writeFile (pathJoin [w.fs.serverDir server.id, "start.sh"]) s.content,
            Effect.chmod (pathJoin [w.fs.serverDir server.id, "start.sh"]) "755"]) ++
        (Script.findOne w.scripts server.id .config).elim [] (fun s =>
          [Effect.writeFile (pathJoin [w.fs.serverDir server.id, "server.config"])
            s.content]) := by
  obtain ⟨w1, w2, w3, h1, h2, h3, h4⟩ := dockerService.getContainerConfig_steps o server w r h
  obtain ⟨hex1, -, -, hlog1⟩ := dockerService.ensureDir_ok o (w.fs.serverDir server.id) w w1
    (FileSystem.serverDir_ne_empty _ _) h1
  obtain ⟨hr2, hex2, -, hlog2⟩ := dockerService.writeScript_reads o _ _ _ w1 w2 h2
  obtain ⟨hr3, hex3, hm3, hlog3⟩ := dockerService.writeStartup_reads o _ _ w2 w3 h3
  obtain ⟨hr4, hex4, hm4, hlog4⟩ := dockerService.writeScript_reads o _ _ _ w3 _ h4
  have hn1 : ¬ ("Dockerfile" = "start.sh") := by decide
  have hn2 : ¬ ("Dockerfile" = "server.config") := by decide
  have hn3 : ¬ ("start.sh" = "server.config") := by decide
  refine ⟨?_, ?_, ?_, ?_, ?_⟩
  · rw [hex4, hex3, hex2, hex1]
  · intro s hs
    rw [hr4, hr3, hr2, hs]
    simp [hn1, hn2]
  · intro s hs
    constructor
    · rw [hr4, hr3, hs]
      simp [hn3]
    · have := hm3 (pathJoin [w.fs.serverDir server.id, "start.sh"])
      rw [hs] at this
      simp only [Option.isSome_some, and_self, if_true] at this
      simp only [FileSystem.mode] at this ⊢
      rw [hm4]
      exact this
  · intro s hs
    rw [hr4, hs]
    simp
  · rw [hlog4, hlog3, hlog2, hlog1]

/-- What the assembly leaves alone, however it ends: the rows, the working
directory, the archive files, every file other than the files of the scripts
that exist, and every mode other than the mode of `start.sh` when there is a
startup script. -/
theorem dockerService.getContainerConfig_keeps (o : AssemblyOracle) (server : Server)
    (w : World) :
    (dockerService.getContainerConfig o server w).2.scripts = w.scripts ∧
    (dockerService.getContainerConfig o server w).2.db = w.db ∧
    (dockerService.getContainerConfig o server w).2.backups = w.backups ∧
    (dockerService.getContainerConfig o server w).2.fs.cwd = w.fs.cwd ∧
    (dockerService.getContainerConfig o server w).2.fs.files = w.fs.files ∧
    (∀ d p,
      ¬ (d = w.fs.serverDir server.id ∧
        (p = "Dockerfile" ∧ (Script.findOne w.scripts server.id .dockerfile).isSome = true ∨
          p = "start.sh" ∧ (Script.findOne w.scripts server.id .startup).isSome = true ∨
          p = "server.config" ∧ (Script.findOne w.scripts server.id .config).isSome = true)) →
      (dockerService.getContainerConfig o server w).2.fs.readFile d p = w.fs.readFile d p) ∧
    (∀ q,
      ¬ (q = pathJoin [w.fs.serverDir server.id, "start.sh"] ∧
        (Script.findOne w.scripts server.id .startup).isSome = true) →
      (dockerService.getContainerConfig o server w).2.fs.mode q = w.fs.mode q) := by
  apply dockerService.getContainerConfig_frame o server w
    (fun v => v.scripts = w.scripts ∧ v.db = w.db ∧ v.backups = w.backups ∧
      v.fs.cwd = w.fs.cwd ∧ v.fs.files = w.fs.files ∧
      (∀ d p,
        ¬ (d = w.fs.serverDir server.id ∧
          (p = "Dockerfile" ∧ (Script.findOne w.scripts server.id .dockerfile).isSome = true ∨
            p = "start.sh" ∧ (Script.findOne w.scripts server.id .startup).isSome = true ∨
            p = "server.config" ∧
              (Script.findOne w.scripts server.id .config).isSome = true)) →
        v.fs.readFile d p = w.fs.readFile d p) ∧
      (∀ q,
        ¬ (q = pathJoin [w.fs.serverDir server.id, "start.sh"] ∧
          (Script.findOne w.scripts server.id .startup).isSome = true) →
        v.fs.mode q = w.fs.mode q))
  · exact ⟨rfl, rfl, rfl, rfl, rfl, fun d p _ => rfl, fun q _ => rfl⟩
  · intro v ⟨hs, hdb, hb, hcwd, hfiles, hread, hmode⟩
    rw [dockerService.mkdirSync_world]
    simp only
    have hmk : (v.fs.mkdirSync (w.fs.serverDir server.id)).cwd = v.fs.cwd ∧
        (v.fs.mkdirSync (w.fs.serverDir server.id)).files = v.fs.files ∧
        (v.fs.mkdirSync (w.fs.serverDir server.id)).modes = v.fs.modes := by
      unfold FileSystem.mkdirSync
      split <;> exact ⟨rfl, rfl, rfl⟩
    split
    · refine ⟨hs, hdb, hb, hmk.1.trans hcwd, hmk.2.1.trans hfiles, ?_, ?_⟩
      · intro d p hdp
        rw [FileSystem.readFile_mkdirSync]
        exact hread d p hdp
      · intro q hq
        have := hmode q hq
        simp only [FileSystem.mode] at this ⊢
        rw [hmk.2.2]
        exact this
    · exact ⟨hs, hdb, hb, hcwd, hfiles, hread, hmode⟩
  · intro v n s ⟨hs, hdb, hb, hcwd, hfiles, hread, hmode⟩ hn
    obtain ⟨fs1, hworld, hok, herr⟩ :=
      dockerService.writeFileSync_world o (w.fs.serverDir server.id) n s.content v
    rw [hworld]
    simp only
    by_cases hres : (dockerService.writeFileSync o (w.fs.serverDir server.id) n
        s.content v).1 = .ok ()
    · have hw := hok hres
      obtain ⟨-, hf1, hm1, hc1⟩ := FileSystem.writeFileSync_keeps v.fs fs1 _ _ _ hw
      refine ⟨hs, hdb, hb, hc1.trans hcwd, hf1.trans hfiles, ?_, ?_⟩
      · intro d p hdp
        rw [FileSystem.readFile_writeFileSync v.fs fs1 _ _ _ hw d p]
        have hne : ¬ (d = w.fs.serverDir server.id ∧ p = n) := by
          intro hh
          apply hdp
          refine ⟨hh.1, ?_⟩
          rcases hn with h1 | h1 | h1
          · exact Or.inl ⟨hh.2.trans h1.1, by rw [h1.2]; rfl⟩
          · exact Or.inr (Or.inl ⟨hh.2.trans h1.1, by rw [h1.2]; rfl⟩)
          · exact Or.inr (Or.inr ⟨hh.2.trans h1.1, by rw [h1.2]; rfl⟩)
        rw [if_neg hne]
        exact hread d p hdp
      · intro q hq
        have := hmode q hq
        simp only [FileSystem.mode] at this ⊢
        rw [hm1]
        exact this
    · rw [herr hres]
      exact ⟨hs, hdb, hb, hcwd, hfiles, hread, hmode⟩
  · intro v s ⟨hs, hdb, hb, hcwd, hfiles, hread, hmode⟩ hst
    rw [dockerService.chmodSync_world]
    simp only
    split
    · refine ⟨hs, hdb, hb, hcwd, hfiles, hread, ?_⟩
      intro q hq
      rw [FileSystem.mode_chmodSync]
      have hne : ¬ (q = pathJoin [w.fs.serverDir server.id, "start.sh"]) := by
        intro hh
        exact hq ⟨hh, by rw [hst]; rfl⟩
      rw [if_neg hne]
      exact hmode q hq
    · exact ⟨hs, hdb, hb, hcwd, hfiles, hread, hmode⟩

/-! ## C23: what the assembly writes and what it leaves alone -/

/-- C23. Build-context assembly.  However `getContainerConfig` ends, it
changes no archive file, no file outside the directory of the server, and in
that directory no file other than `Dockerfile`, `start.sh` and `server.config`
for the kinds whose script exists; the file of a kind whose script is absent
is left as it was; and no mode changes other than that of `start.sh` when
there is a startup script.  When the call returns, the directory of the server
exists, each of the three files whose script exists holds exactly the content
of that script, `start.sh` has the mode `755`, and the requests were, in
order: the creation of the directory when it was missing, then one write for
each script that exists, the write of `start.sh` followed by its `chmod`. -/
theorem C23_assembly_writes (o : AssemblyOracle) (server : Server) (w : World) :
    ((dockerService.getContainerConfig o server w).2.fs.files = w.fs.files ∧
      (∀ d p,
        ¬ (d = w.fs.serverDir server.id ∧
          (p = "Dockerfile" ∧ (Script.findOne w.scripts server.id .dockerfile).isSome = true ∨
            p = "start.sh" ∧ (Script.findOne w.scripts server.id .startup).isSome = true ∨
            p = "server.config" ∧
              (Script.findOne w.scripts server.id .config).isSome = true)) →
        (dockerService.getContainerConfig o server w).2.fs.readFile d p
          = w.fs.readFile d p) ∧
      (∀ q,
        ¬ (q = pathJoin [w.fs.serverDir server.id, "start.sh"] ∧
          (Script.findOne w.scripts server.id .startup).isSome = true) →
        (dockerService.getContainerConfig o server w).2.fs.mode q = w.fs.mode q)) ∧
    (∀ r, (dockerService.getContainerConfig o server w).1 = .ok r →
      (dockerService.getContainerConfig o server w).2.fs.existsSync
        (w.fs.serverDir server.id) = true ∧
      (∀ s, Script.findOne w.scripts server.id .dockerfile = some s →
        (dockerService.getContainerConfig o server w).2.fs.readFile
          (w.fs.serverDir server.id) "Dockerfile" = some (Item.file s.content)) ∧
      (∀ s, Script.findOne w.scripts server.id .startup = some s →
        (dockerService.getContainerConfig o server w).2.fs.readFile
          (w.fs.serverDir server.id) "start.sh" = some (Item.file s.content) ∧
        (dockerService.getContainerConfig o server w).2.fs.mode
          (pathJoin [w.fs.serverDir server.id, "start.sh"]) = some "755") ∧
      (∀ s, Script.findOne w.scripts server.id .config = some s →
        (dockerService.getContainerConfig o server w).2.fs.readFile
          (w.fs.serverDir server.id) "server.config" = some (Item.file s.content)) ∧
      (dockerService.getContainerConfig o server w).2.log
        = w.log ++
          (if w.fs.existsSync (w.fs.serverDir server.id) then []
            else [Effect.mkdir (w.fs.serverDir server.id)]) ++
          (Script.findOne w.scripts server.id .dockerfile).elim [] (fun s =>
            [Effect.writeFile (pathJoin [w.fs.serverDir server.id, "Dockerfile"])
              s.content]) ++
          (Script.findOne w.scripts server.id .startup).elim [] (fun s =>
            [Effect.writeFile (pathJoin [w.fs.serverDir server.id, "start.sh"]) s.content,
              Effect.chmod (pathJoin [w.fs.serverDir server.id, "start.sh"]) "755"]) ++
          (Script.findOne w.scripts server.id .config).elim [] (fun s =>
            [Effect.writeFile (pathJoin [w.fs.serverDir server.id, "server.config"])
              s.content])) := by
  obtain ⟨-, -, -, -, hfiles, hread, hmode⟩ := dockerService.getContainerConfig_keeps o server w
  exact ⟨⟨hfiles, hread, hmode⟩, fun r h => dockerService.getContainerConfig_ok o server w r h⟩

/-- C23 at a concrete input: the sample server has a build file and a startup
file and no config file; the assembly writes the two, sets the mode of
`start.sh`, leaves `.env` as it was and writes no `server.config`. -/
theorem C23_assembly_writes_witness :
    (dockerService.getContainerConfig Sample.assemblyOk Sample.fresh Sample.scripted).2.fs.readFile
        "/app/data/servers/s1" "start.sh" = some (Item.file "./run") ∧
    (dockerService.getContainerConfig Sample.assemblyOk Sample.fresh Sample.scripted).2.fs.mode
        "/app/data/servers/s1/start.sh" = some "755" ∧
    (dockerService.getContainerConfig Sample.assemblyOk Sample.fresh Sample.scripted).2.fs.readFile
        "/app/data/servers/s1" "server.config" = none ∧
    (dockerService.getContainerConfig Sample.assemblyOk Sample.fresh Sample.scripted).2.fs.readFile
        "/app/data/servers/s1" ".env" = some (Item.file "MODE=prod") :=
  ⟨(((C23_assembly_writes Sample.assemblyOk Sample.fresh Sample.scripted).2
      { containerConfig := dockerService.containerConfigOf Sample.fresh "/app/data/servers/s1",
        serverDir := "/app/data/servers/s1" } (by decide)).2.2.1
      (Sample.script "u1" .startup "./run" 11) (by decide)).1,
   by decide, by decide, by decide⟩


/-! ## C25: several scripts of one kind -/

/-- The query for the script of a kind returns the first record of that kind
of the server, in the order of the store. -/
theorem Script.findOne_eq_head (rows : List Script) (serverId : String) (type : ScriptType) :
    Script.findOne rows serverId type
      = (rows.filter (fun s => s.serverId == some serverId && s.type == type)).head? := by
  unfold Script.findOne
  rw [List.filter_head?]

/-- C25 (amended). When a server has one or several script records of a kind
(`dockerfile`, `startup` or `config`), an assembly that returns writes the
content of the record the query for that kind returns.  The query asks for no
order, so this is the first record of that kind in the order of the store,
whenever it was created: it is the most recently created one only when the
store returns that one first. -/
theorem C25_assembly_reads_first_record (o : AssemblyOracle) (server : Server) (w : World)
    (r : AssemblyResult) (s : Script) (rest : List Script)
    (h : (dockerService.getContainerConfig o server w).1 = .ok r) :
    (w.scripts.filter (fun x => x.serverId == some server.id && x.type == .dockerfile)
        = s :: rest →
      (dockerService.getContainerConfig o server w).2.fs.readFile
        (w.fs.serverDir server.id) "Dockerfile" = some (Item.file s.content)) ∧
    (w.scripts.filter (fun x => x.serverId == some server.id && x.type == .startup)
        = s :: rest →
      (dockerService.getContainerConfig o server w).2.fs.readFile
        (w.fs.serverDir server.id) "start.sh" = some (Item.file s.content)) ∧
    (w.scripts.filter (fun x => x.serverId == some server.id && x.type == .config)
        = s :: rest →
      (dockerService.getContainerConfig o server w).2.fs.readFile
        (w.fs.serverDir server.id) "server.config" = some (Item.file s.content)) := by
  obtain ⟨-, hd, hs, hc, -⟩ := dockerService.getContainerConfig_ok o server w r h
  refine ⟨fun hf => hd s ?_, fun hf => (hs s ?_).1, fun hf => hc s ?_⟩
  · rw [Script.findOne_eq_head, hf]; rfl
  · rw [Script.findOne_eq_head, hf]; rfl
  · rw [Script.findOne_eq_head, hf]; rfl

/-- C25 as stated fails: the sample server has two build files, made at times
10 and 20 and held by the store in that order; the assembly returns and
`Dockerfile` holds the content of the one made at time 10, not the content of
the most recently created one. -/
theorem C25_counterexample :
    (dockerService.getContainerConfig Sample.assemblyOk Sample.fresh Sample.scripted).1
      = .ok { containerConfig :=
                dockerService.containerConfigOf Sample.fresh "/app/data/servers/s1",
              serverDir := "/app/data/servers/s1" } ∧
    (dockerService.getContainerConfig Sample.assemblyOk Sample.fresh
        Sample.scripted).2.fs.readFile "/app/data/servers/s1" "Dockerfile"
      = some (Item.file "FROM debian") ∧
    ∃ s ∈ Sample.scripted.scripts, s.serverId = some "s1" ∧ s.type = .dockerfile ∧
      (∀ x ∈ Sample.scripted.scripts, x.serverId = some "s1" → x.type = .dockerfile →
        x.createdAt ≤ s.createdAt) ∧
      (dockerService.getContainerConfig Sample.assemblyOk Sample.fresh
        Sample.scripted).2.fs.readFile "/app/data/servers/s1" "Dockerfile"
        ≠ some (Item.file s.content) :=
  ⟨by decide, by decide, Sample.script "d2" .dockerfile "FROM alpine" 20, by decide, by decide,
    by decide, by decide, by decide⟩

/-- C25 (amended) at a concrete input: of the two build files of the sample
server the store holds the one made at time 10 first, and that one is written. -/
theorem C25_assembly_reads_first_record_witness :
    (dockerService.getContainerConfig Sample.assemblyOk Sample.fresh
        Sample.scripted).2.fs.readFile (Sample.scripted.fs.serverDir "s1") "Dockerfile"
      = some (Item.file "FROM debian") :=
  (C25_assembly_reads_first_record Sample.assemblyOk Sample.fresh Sample.scripted
    { containerConfig := dockerService.containerConfigOf Sample.fresh "/app/data/servers/s1",
      serverDir := "/app/data/servers/s1" }
    (Sample.script "d1" .dockerfile "FROM debian" 10)
    [Sample.script "d2" .dockerfile "FROM alpine" 20] (by decide)).1 (by decide)


/-! ## Writing a file that is already there -/

/-- When `writeFileSync` returns and when it throws. -/
theorem FileSystem.writeFileSync_eq_some (fs fs1 : FileSystem) (dir n c : String) :
    fs.writeFileSync dir n c = some fs1 ↔
      ∃ t, fs.tree dir = some t ∧ t.lookup n ≠ some Item.dir ∧
        fs1 = fs.setTree dir (Tree.write t n c) := by
  unfold FileSystem.writeFileSync
  constructor
  · intro h
    split at h
    · next t ht =>
      split at h
      · cases h
      · next hnd =>
        simp only [Option.some.injEq] at h
        exact ⟨t, ht, fun hd => hnd hd, h.symm⟩
    · cases h
  · rintro ⟨t, ht, hnd, hfs⟩
    rw [ht, hfs]
    simp only

/-- After a successful `writeFileSync`, the same write returns and changes nothing. -/
theorem FileSystem.writeFileSync_again (fs fs1 : FileSystem) (dir n c : String)
    (h : fs.writeFileSync dir n c = some fs1) :
    fs1.writeFileSync dir n c = some fs1 := by
  obtain ⟨t, ht, -, hfs⟩ := (FileSystem.writeFileSync_eq_some fs fs1 dir n c).mp h
  rw [FileSystem.writeFileSync_eq_some]
  refine ⟨Tree.write t n c, ?_, ?_, ?_⟩
  · rw [hfs, FileSystem.tree_setTree, ht]; rfl
  · rw [Tree.lookup_write, if_pos rfl]
    intro hd
    cases hd
  · rw [Tree.write_write, hfs, FileSystem.setTree_setTree]

/-- A write that changes nothing still changes nothing after a file of
another name was written. -/
theorem FileSystem.writeFileSync_stable (fs fs2 : FileSystem) (dir n c n2 c2 : String)
    (hst : fs.writeFileSync dir n c = some fs) (hne : n2 ≠ n)
    (h : fs.writeFileSync dir n2 c2 = some fs2) :
    fs2.writeFileSync dir n c = some fs2 := by
  obtain ⟨t, ht, -, hfs⟩ := (FileSystem.writeFileSync_eq_some fs fs dir n c).mp hst
  obtain ⟨t2, ht2, -, hfs2⟩ := (FileSystem.writeFileSync_eq_some fs fs2 dir n2 c2).mp h
  rw [ht] at ht2
  simp only [Option.some.injEq] at ht2
  subst ht2
  have htw : Tree.write t n c = t := by
    have h1 := congrArg (fun f => FileSystem.tree f dir) hfs
    simp only at h1
    rw [FileSystem.tree_setTree, ht] at h1
    simp only [Option.map_some', Option.some.injEq] at h1
    exact h1.symm
  have hlook : t.lookup n = some (Item.file c) := by
    have := Tree.lookup_write t n c n
    rw [htw, if_pos rfl] at this
    exact this
  have hn : ¬ (n = n2) := fun hh => hne hh.symm
  rw [FileSystem.writeFileSync_eq_some]
  refine ⟨Tree.write t n2 c2, ?_, ?_, ?_⟩
  · rw [hfs2, FileSystem.tree_setTree, ht]; rfl
  · rw [Tree.lookup_write, if_neg hn, hlook]
    intro hd
    cases hd
  · have hself : Tree.write (Tree.write t n2 c2) n c = Tree.write t n2 c2 := by
      apply Tree.write_eq_self
      · rw [Tree.lookup_write, if_neg hn, hlook]; rfl
      · intro e he hk
        rcases Tree.mem_write t n2 c2 e he with h1 | h1
        · rw [h1] at hk
          exact absurd hk hne
        · have he2 : e ∈ Tree.write t n c := by rw [htw]; exact h1.1
          rcases Tree.mem_write t n c e he2 with h2 | h2
          · exact h2
          · exact absurd hk h2.2
    rw [hself, hfs2, FileSystem.setTree_setTree]

/-- A write that changes nothing still changes nothing after a mode was set. -/
theorem FileSystem.writeFileSync_chmodSync (fs : FileSystem) (dir n c p m : String)
    (hst : fs.writeFileSync dir n c = some fs) :
    (fs.chmodSync p m).writeFileSync dir n c = some (fs.chmodSync p m) := by
  obtain ⟨t, ht, hnd, hfs⟩ := (FileSystem.writeFileSync_eq_some fs fs dir n c).mp hst
  rw [FileSystem.writeFileSync_eq_some]
  refine ⟨t, ht, hnd, ?_⟩
  have hdirs := congrArg FileSystem.dirs hfs
  unfold FileSystem.chmodSync FileSystem.setTree at *
  simp only at hdirs ⊢
  rw [← hdirs]

/-- Setting a mode twice is setting it once. -/
theorem FileSystem.chmodSync_chmodSync (fs : FileSystem) (p m : String) :
    (fs.chmodSync p m).chmodSync p m = fs.chmodSync p m := by
  unfold FileSystem.chmodSync
  simp only [FileSystem.mk.injEq, true_and, List.cons.injEq]
  rw [List.filter_cons_of_neg (by simp), List.filter_filter]
  simp

/-- A mode that is set stays set after a file was written. -/
theorem FileSystem.chmodSync_stable (fs fs1 : FileSystem) (dir n c p m : String)
    (hst : fs.chmodSync p m = fs) (h : fs.writeFileSync dir n c = some fs1) :
    fs1.chmodSync p m = fs1 := by
  obtain ⟨t, -, -, hfs⟩ := (FileSystem.writeFileSync_eq_some fs fs1 dir n c).mp h
  have hmodes := congrArg FileSystem.modes hst
  rw [hfs]
  unfold FileSystem.chmodSync FileSystem.setTree at *
  simp only at hmodes ⊢
  rw [hmodes]

/-- After an assembly that returned, writing the file of any script that
exists again, and setting the mode of `start.sh` again, changes nothing. -/
theorem dockerService.getContainerConfig_settled (o : AssemblyOracle) (server : Server)
    (w : World) (r : AssemblyResult)
    (h : (dockerService.getContainerConfig o server w).1 = .ok r) :
    (∀ s, Script.findOne w.scripts server.id .dockerfile = some s →
      (dockerService.getContainerConfig o server w).2.fs.writeFileSync
        (w.fs.serverDir server.id) "Dockerfile" s.content
        = some (dockerService.getContainerConfig o server w).2.fs) ∧
    (∀ s, Script.findOne w.scripts server.id .startup = some s →
      (dockerService.getContainerConfig o server w).2.fs.writeFileSync
        (w.fs.serverDir server.id) "start.sh" s.content
        = some (dockerService.getContainerConfig o server w).2.fs ∧
      (dockerService.getContainerConfig o server w).2.fs.chmodSync
        (pathJoin [w.fs.serverDir server.id, "start.sh"]) "755"
        = (dockerService.getContainerConfig o server w).2.fs) ∧
    (∀ s, Script.findOne w.scripts server.id .config = some s →
      (dockerService.getContainerConfig o server w).2.fs.writeFileSync
        (w.fs.serverDir server.id) "server.config" s.content
        = some (dockerService.getContainerConfig o server w).2.fs) := by
  obtain ⟨w1, w2, w3, -, h2, h3, h4⟩ := dockerService.getContainerConfig_steps o server w r h
  generalize (dockerService.getContainerConfig o server w).2 = W at h4 ⊢
  obtain ⟨hd2, -⟩ := dockerService.writeScript_ok o _ _ _ w1 w2 h2
  obtain ⟨hs3, hn3⟩ := dockerService.writeStartup_ok o _ _ w2 w3 h3
  obtain ⟨hc4, hn4⟩ := dockerService.writeScript_ok o _ _ _ w3 W h4
  have hDS : ¬ ("start.sh" = "Dockerfile") := by decide
  have hDC : ¬ ("server.config" = "Dockerfile") := by decide
  have hSC : ¬ ("server.config" = "start.sh") := by decide
  -- the state after the second block
  have sd2 : ∀ s, Script.findOne w.scripts server.id .dockerfile = some s →
      w2.fs.writeFileSync (w.fs.serverDir server.id) "Dockerfile" s.content = some w2.fs :=
    fun s hs => FileSystem.writeFileSync_again _ _ _ _ _ (hd2 s hs).1
  -- the state after the startup block
  have sd3 : ∀ s, Script.findOne w.scripts server.id .dockerfile = some s →
      w3.fs.writeFileSync (w.fs.serverDir server.id) "Dockerfile" s.content = some w3.fs := by
    intro s hs
    cases hst : Script.findOne w.scripts server.id .startup with
    | none => rw [hn3 hst]; exact sd2 s hs
    | some t =>
      obtain ⟨fs1, hw, hfs, -⟩ := hs3 t hst
      rw [hfs]
      exact FileSystem.writeFileSync_chmodSync _ _ _ _ _ _
        (FileSystem.writeFileSync_stable _ _ _ _ _ _ _ (sd2 s hs) hDS hw)
  have ss3 : ∀ s, Script.findOne w.scripts server.id .startup = some s →
      w3.fs.writeFileSync (w.fs.serverDir server.id) "start.sh" s.content = some w3.fs ∧
      w3.fs.chmodSync (pathJoin [w.fs.serverDir server.id, "start.sh"]) "755" = w3.fs := by
    intro s hs
    obtain ⟨fs1, hw, hfs, -⟩ := hs3 s hs
    rw [hfs]
    exact ⟨FileSystem.writeFileSync_chmodSync _ _ _ _ _ _
      (FileSystem.writeFileSync_again _ _ _ _ _ hw), FileSystem.chmodSync_chmodSync _ _ _⟩
  -- the state after the last block
  cases hcf : Script.findOne w.scripts server.id .config with
  | none =>
    rw [hn4 hcf]
    exact ⟨sd3, ss3, fun s hs => by cases hs⟩
  | some c =>
    obtain ⟨hw, -⟩ := hc4 c hcf
    refine ⟨?_, ?_, ?_⟩
    · intro s hs
      exact FileSystem.writeFileSync_stable _ _ _ _ _ _ _ (sd3 s hs) hDC hw
    · intro s hs
      exact ⟨FileSystem.writeFileSync_stable _ _ _ _ _ _ _ (ss3 s hs).1 hSC hw,
        FileSystem.chmodSync_stable _ _ _ _ _ _ _ (ss3 s hs).2 hw⟩
    · intro s hs
      cases hs
      exact FileSystem.writeFileSync_again _ _ _ _ _ hw

/-! ## C24: the assembly is idempotent -/

/-- C24. Build-context assembly is idempotent.  For every server and every
set of script records, when `getContainerConfig` returns and is run a second
time on the world the first run left, and returns again, the second run
leaves the file system as the first run left it (the same directories, files,
contents and modes) and returns the same container configuration and the same
directory path. -/
theorem C24_assembly_idempotent (o1 o2 : AssemblyOracle) (server : Server) (w : World)
    (r1 r2 : AssemblyResult)
    (h1 : (dockerService.getContainerConfig o1 server w).1 = .ok r1)
    (h2 : (dockerService.getContainerConfig o2 server
      (dockerService.getContainerConfig o1 server w).2).1 = .ok r2) :
    r2 = r1 ∧
    (dockerService.getContainerConfig o2 server
      (dockerService.getContainerConfig o1 server w).2).2.fs
      = (dockerService.getContainerConfig o1 server w).2.fs := by
  obtain ⟨hscripts, -, -, hcwd, -, -, -⟩ := dockerService.getContainerConfig_keeps o1 server w
  obtain ⟨hex, -⟩ := dockerService.getContainerConfig_ok o1 server w r1 h1
  obtain ⟨sd, ss, sc⟩ := dockerService.getContainerConfig_settled o1 server w r1 h1
  have hr1 := dockerService.getContainerConfig_result o1 server w r1 h1
  have hr2 := dockerService.getContainerConfig_result o2 server _ r2 h2
  obtain ⟨v1, v2, v3, e1, e2, e3, e4⟩ := dockerService.getContainerConfig_steps o2 server _ r2 h2
  generalize (dockerService.getContainerConfig o2 server
    (dockerService.getContainerConfig o1 server w).2).2 = V at e4 ⊢
  generalize (dockerService.getContainerConfig o1 server w).2 = W at *
  have hdir : W.fs.serverDir server.id = w.fs.serverDir server.id := by
    simp only [FileSystem.serverDir, hcwd]
  rw [hdir] at hr2 e1 e2 e3 e4
  rw [hscripts] at e2 e3 e4
  refine ⟨by rw [hr1, hr2], ?_⟩
  rw [hex] at e1
  simp only [Bool.not_true, Bool.false_eq_true, if_false, Prod.mk.injEq, true_and] at e1
  subst e1
  obtain ⟨hd2, hn2⟩ := dockerService.writeScript_ok o2 _ _ _ W v2 e2
  obtain ⟨hs3, hn3⟩ := dockerService.writeStartup_ok o2 _ _ v2 v3 e3
  obtain ⟨hc4, hn4⟩ := dockerService.writeScript_ok o2 _ _ _ v3 V e4
  have f2 : v2.fs = W.fs := by
    cases hf : Script.findOne w.scripts server.id .dockerfile with
    | none => rw [hn2 hf]
    | some s =>
      have := (hd2 s hf).1
      rw [sd s hf] at this
      simp only [Option.some.injEq] at this
      exact this.symm
  have f3 : v3.fs = W.fs := by
    cases hf : Script.findOne w.scripts server.id .startup with
    | none => rw [hn3 hf]; exact f2
    | some s =>
      obtain ⟨fs1, hw, hfs, -⟩ := hs3 s hf
      rw [f2, (ss s hf).1] at hw
      simp only [Option.some.injEq] at hw
      rw [hfs, ← hw]
      exact (ss s hf).2
  cases hf : Script.findOne w.scripts server.id .config with
  | none => rw [hn4 hf]; exact f3
  | some s =>
    have := (hc4 s hf).1
    rw [f3, sc s hf] at this
    simp only [Option.some.injEq] at this
    exact this.symm

/-- C24 at a concrete input: the assembly of the sample server run twice. -/
theorem C24_assembly_idempotent_witness :
    (dockerService.getContainerConfig Sample.assemblyOk Sample.fresh
      (dockerService.getContainerConfig Sample.assemblyOk Sample.fresh Sample.scripted).2).2.fs
      = (dockerService.getContainerConfig Sample.assemblyOk Sample.fresh Sample.scripted).2.fs :=
  (C24_assembly_idempotent Sample.assemblyOk Sample.assemblyOk Sample.fresh Sample.scripted
    { containerConfig := dockerService.containerConfigOf Sample.fresh "/app/data/servers/s1",
      serverDir := "/app/data/servers/s1" }
    { containerConfig := dockerService.containerConfigOf Sample.fresh "/app/data/servers/s1",
      serverDir := "/app/data/servers/s1" } (by decide) (by decide)).2

end ControlPanel
